import Mathlib

/-!
# Fabric operator, orderer controller: one reconciliation pass

Shallow embedding of `pkg/controller/orderer/orderer_controller.go`.

* Go `string` is `String`, `[]byte` is `List UInt8`, a Go `map[string]T` is an
  association list with overwrite-on-set, a nilable pointer or map is an `Option`.
* The cluster client, the template store, base64, PEM and X.509 decoding are
  collaborators that live outside the file; they enter as fields of `Client`
  and `Env`.  A client call takes the client state and returns its answer with
  the next state, so that any behaviour of the cluster (also one that changes
  between two calls of a pass) is an instance.
* A pass returns its result, the client state it leaves, the list of client
  calls it made with their answers, and the value of the local `instance`
  variable when the pass ended.
* A Go run-time panic (nil dereference, write to a nil map, index out of
  range, `MustParse` on a malformed quantity) is the outcome `crash`.
-/

namespace OrdererController

/-! ## Go values -/

/-- Go byte slice. -/
abbrev Bytes := List UInt8

/-- Go conversion of a string to its bytes (UTF-8). -/
def bytesOf (s : String) : Bytes := s.data.flatMap String.utf8EncodeChar

/-- Go builtin len on a string: the number of bytes. -/
def len (s : String) : Nat := s.utf8ByteSize

/-- Go strconv.FormatInt in base 10. -/
def FormatInt (i : Int) : String := toString i

/-- Go strconv.Itoa on a slice index. -/
def Itoa (i : Nat) : String := toString i

/-- Go map with string keys, as an association list without repeated keys. -/
abbrev GoMap (α : Type) := List (String × α)

/-- Map read m[k]. -/
def mapGet {α : Type} (m : GoMap α) (k : String) : Option α :=
  match m with
  | [] => none
  | (k0, v0) :: rest => if k0 = k then some v0 else mapGet rest k

/-- Map write m[k] = v: overwrites the entry of k, or adds one at the end. -/
def mapSet {α : Type} (m : GoMap α) (k : String) (v : α) : GoMap α :=
  match m with
  | [] => [(k, v)]
  | (k0, v0) :: rest => if k0 = k then (k, v) :: rest else (k0, v0) :: mapSet rest k v

/-- The keys of a map, in insertion order. -/
def mapKeys {α : Type} (m : GoMap α) : List String := m.map Prod.fst

/-! ## API objects (the fields the controller reads or writes) -/

/-- Error of a cluster call, as told apart by errors.IsNotFound and errors.IsAlreadyExists. -/
inductive ApiError where
  | notFound
  | alreadyExists
  | other (reason : String)
deriving DecidableEq, Repr

/-- Key of an object: types.NamespacedName. -/
structure NamespacedName where
  Namespace : String
  Name : String
deriving DecidableEq, Repr

/-- The reconcile.Request: it embeds the NamespacedName of the Orderer. -/
abbrev Request := NamespacedName

/-- A parsed resource.Quantity. -/
structure Quantity where
  text : String
deriving DecidableEq, Repr

/-- The corev1.ResourceRequirements. -/
structure ResourceRequirements where
  Limits : Option (GoMap Quantity)
  Requests : Option (GoMap Quantity)
deriving DecidableEq, Repr

/-- TLS material of the Orderer spec. -/
structure TLS where
  TLSCert : String
  TLSKey : String
deriving DecidableEq, Repr

/-- One extra configuration entry of the Orderer spec. -/
structure ConfigParam where
  Name : String
  Value : String
deriving DecidableEq, Repr

/-- The fabricv1alpha1.OrdererSpec (DesiredState). A nil slice is the empty list. -/
structure OrdererSpec where
  AdminCerts : List String
  CaCerts : List String
  KeyStore : String
  SignCerts : String
  TLSCacerts : List String
  TLS : TLS
  StorageClass : String
  StorageSize : String
  Image : String
  Resources : ResourceRequirements
  ConfigParams : List ConfigParam
  Hosts : List String
deriving DecidableEq, Repr

/-- The fabricv1alpha1.OrdererStatus (ObservedStatus). -/
structure OrdererStatus where
  AccessPoint : String
deriving DecidableEq, Repr

/-- The fabricv1alpha1.Orderer resource. -/
structure Orderer where
  Namespace : String
  Name : String
  Spec : OrdererSpec
  Status : OrdererStatus
deriving DecidableEq, Repr

/-- The metav1.OwnerReference of a controller owner: only the name of the owner is kept. -/
structure OwnerReference where
  Name : String
deriving DecidableEq, Repr

/-- The corev1.Secret (CredentialBundle). -/
structure Secret where
  Namespace : String
  Name : String
  Data : GoMap Bytes
  Owner : Option OwnerReference
deriving DecidableEq, Repr

/-- The corev1.ServicePort. -/
structure ServicePort where
  Port : Int
  NodePort : Int
deriving DecidableEq, Repr

/-- The corev1.Service (NetworkEndpoint). Labels and Selector may be nil maps. -/
structure Service where
  Namespace : String
  Name : String
  Labels : Option (GoMap String)
  Selector : Option (GoMap String)
  Ports : List ServicePort
  Owner : Option OwnerReference
deriving DecidableEq, Repr

/-- The corev1.SecretKeySelector. -/
structure SecretKeySelector where
  Name : String
  Key : String
deriving DecidableEq, Repr

/-- The corev1.EnvVarSource; SecretKeyRef is a pointer. -/
structure EnvVarSource where
  SecretKeyRef : Option SecretKeySelector
deriving DecidableEq, Repr

/-- The corev1.EnvVar; ValueFrom is a pointer. -/
structure EnvVar where
  Name : String
  Value : String
  ValueFrom : Option EnvVarSource
deriving DecidableEq, Repr

/-- The corev1.Container. -/
structure Container where
  Image : String
  Env : List EnvVar
  Resources : ResourceRequirements
deriving DecidableEq, Repr

/-- The corev1.Volume; VolumeSource.Secret is a pointer, kept here as the secret name. -/
structure Volume where
  Name : String
  SecretName : Option String
deriving DecidableEq, Repr

/-- The corev1.PersistentVolumeClaim of a volume claim template. -/
structure VolumeClaim where
  StorageClassName : Option String
  Requests : Option (GoMap Quantity)
deriving DecidableEq, Repr

/-- The appsv1.StatefulSet (WorkloadSet). Selector is a pointer, the label maps may be nil. -/
structure StatefulSet where
  Namespace : String
  Name : String
  ServiceName : String
  MatchLabels : Option (Option (GoMap String))
  VolumeClaimTemplates : List VolumeClaim
  TemplateLabels : Option (GoMap String)
  Containers : List Container
  InitContainers : List Container
  Volumes : List Volume
  Owner : Option OwnerReference
deriving DecidableEq, Repr

/-- A runtime.Object as the type assertions of the controller see it. -/
inductive Object where
  | nil
  | secret (o : Secret)
  | service (o : Service)
  | statefulSet (o : StatefulSet)
  | unknown
deriving DecidableEq, Repr

/-- The pkix.Name of a certificate: only the organization list is read. -/
structure PkixName where
  Organization : List String
deriving DecidableEq, Repr

/-- The x509.Certificate: only subject and issuer are read. -/
structure Certificate where
  Subject : PkixName
  Issuer : PkixName
deriving DecidableEq, Repr

/-! ## Collaborators outside the file -/

/-- Pure collaborators of the resource factory. `DecodeString` is
base64.StdEncoding.DecodeString (bytes, and whether the error is nil), `pemDecode` is
pem.Decode (the bytes of the first block, or nil), `ParseCertificate` is
x509.ParseCertificate, `GetObjectFromTemplate` and `GetDefault` are the helpers of the fabric
package, `MustParse` is resource.MustParse (none where it panics).
`SetControllerReference` is controllerutil.SetControllerReference with the scheme of the
reconciler: from the key of the owner, the namespace of the object and the controller owner
the object had, the controller owner the object has after the call. The helper can fail and
every caller drops its error (lines 275, 291, 331); the object then keeps what it had. -/
structure Env where
  GetObjectFromTemplate : String → Object × Option ApiError
  DecodeString : String → Bytes × Bool
  pemDecode : Bytes → Option Bytes
  ParseCertificate : Bytes → Option Certificate
  GetDefault : String → String → String
  MustParse : String → Option Quantity
  SetControllerReference : NamespacedName → String → Option OwnerReference →
    Option OwnerReference

/-! ## Resource factory -/

/-- The loops of newSecretForCR (lines 246-251 and 269-271): entry `key ++ Itoa i` receives
the decoding of the i-th element, the decode error being dropped. -/
def decodeIndexed (env : Env) (key : String) (xs : List String) (data : GoMap Bytes) :
    GoMap Bytes :=
  xs.enum.foldl (fun d ix => mapSet d (key ++ Itoa ix.1) (env.DecodeString ix.2).1) data

/-- Lines 255-268 of newSecretForCR: the value stored under "mspid" for a decoded sign
certificate. -/
def mspid (env : Env) (signcert : Bytes) : Bytes :=
  match env.pemDecode signcert with
  | none => bytesOf "SampleOrgMSPID"
  | some block =>
    match env.ParseCertificate block with
    | none => bytesOf "SampleOrgMSPID"
    | some cert =>
      match cert.Subject.Organization with
      | org :: _ => bytesOf org
      | [] =>
        match cert.Issuer.Organization with
        | org :: _ => bytesOf org
        | [] => bytesOf "SampleOrgMSPID"

/-- The validation guard of newSecretForCR (lines 236-240): true when an entry is missing. -/
def missingEntry (spec : OrdererSpec) : Bool :=
  spec.AdminCerts.length == 0 || spec.CaCerts.length == 0 ||
  len spec.KeyStore == 0 || len spec.SignCerts == 0 ||
  spec.TLSCacerts.length == 0 ||
  len spec.TLS.TLSCert == 0 || len spec.TLS.TLSKey == 0

/-- The secret data written by lines 246-274 of newSecretForCR, starting from the empty map. -/
def secretData (env : Env) (spec : OrdererSpec) : GoMap Bytes :=
  let d := decodeIndexed env "admincert" spec.AdminCerts []
  let d := decodeIndexed env "cacert" spec.CaCerts d
  let d := mapSet d "keystore" (env.DecodeString spec.KeyStore).1
  let d := mapSet d "signcert" (env.DecodeString spec.SignCerts).1
  let d := mapSet d "mspid" (mspid env ((mapGet d "signcert").getD []))
  let d := decodeIndexed env "tlscacert" spec.TLSCacerts d
  let d := mapSet d "tlscert" (env.DecodeString spec.TLS.TLSCert).1
  mapSet d "tlskey" (env.DecodeString spec.TLS.TLSKey).1

/-- The newSecretForCR: the secret named name + "-secret" in the namespace of the request,
or nil when the template is not a secret or an entry of the request is missing. -/
def newSecretForCR (env : Env) (cr : Orderer) (request : Request) : Option Secret :=
  match (env.GetObjectFromTemplate "orderer/orderer_secret.yaml").1 with
  | Object.secret secret =>
    if missingEntry cr.Spec then none
    else
      some { Name := request.Name ++ "-secret"
             Namespace := request.Namespace
             Data := secretData env cr.Spec
             Owner := env.SetControllerReference ⟨cr.Namespace, cr.Name⟩ request.Namespace
               secret.Owner }
  | _ => none

/-- The newServiceForCR: the template service renamed to the request, labelled and selected
by "k8s-app" = name; nil when the template is not a service. Writing the label into a nil
map panics. -/
def newServiceForCR (env : Env) (cr : Orderer) (request : Request) :
    Except String (Option Service) :=
  match (env.GetObjectFromTemplate "orderer/orderer_service.yaml").1 with
  | Object.service service =>
    match service.Labels, service.Selector with
    | some labels, some selector =>
      .ok (some { service with
        Name := request.Name
        Namespace := request.Namespace
        Labels := some (mapSet labels "k8s-app" request.Name)
        Selector := some (mapSet selector "k8s-app" request.Name)
        Owner := env.SetControllerReference ⟨cr.Namespace, cr.Name⟩ request.Namespace
          service.Owner })
    | _, _ => .error "assignment to entry in nil map"
  | _ => .ok none

/-- The assignment `Env[0].ValueFrom.SecretKeyRef.Name = name` of lines 318 and 319. -/
def setSecretKeyRefName (envs : List EnvVar) (name : String) : Except String (List EnvVar) :=
  match envs with
  | [] => .error "index out of range"
  | e :: rest =>
    match e.ValueFrom with
    | none => .error "nil pointer dereference"
    | some src =>
      match src.SecretKeyRef with
      | none => .error "nil pointer dereference"
      | some ref =>
        .ok ({ e with ValueFrom := some { SecretKeyRef := some { ref with Name := name } } }
          :: rest)

/-- The loop of lines 323-327: one EnvVar per extra configuration entry, appended in order. -/
def appendConfigParams (containerEnvs : List EnvVar) (params : List ConfigParam) :
    List EnvVar :=
  params.foldl (fun envs e => envs ++ [{ Name := e.Name, Value := e.Value, ValueFrom := none }])
    containerEnvs

/-- The newSTSForCR: the template stateful set filled in from the request and the spec;
nil when the template is not a stateful set. Every dereference, index and map write of
lines 306-330 that can panic is a crash branch. -/
def newSTSForCR (env : Env) (cr : Orderer) (request : Request) :
    Except String (Option StatefulSet) :=
  match (env.GetObjectFromTemplate "orderer/orderer_statefulset.yaml").1 with
  | Object.statefulSet sts =>
    match sts.MatchLabels with
    | none => .error "nil pointer dereference"
    | some none => .error "assignment to entry in nil map"
    | some (some matchLabels) =>
      match sts.VolumeClaimTemplates with
      | [] => .error "index out of range"
      | claim :: claims =>
        let storageClassName := env.GetDefault cr.Spec.StorageClass "default"
        let storageSize := env.GetDefault cr.Spec.StorageSize "5Gi"
        match claim.Requests, env.MustParse storageSize with
        | none, _ => .error "assignment to entry in nil map"
        | _, none => .error "MustParse"
        | some requests, some quantity =>
          match sts.TemplateLabels with
          | none => .error "assignment to entry in nil map"
          | some templateLabels =>
            match sts.Containers, sts.Volumes, sts.InitContainers with
            | container :: containers, volume :: volumes, initContainer :: initContainers =>
              match volume.SecretName with
              | none => .error "nil pointer dereference"
              | some _ =>
                match setSecretKeyRefName initContainer.Env (request.Name ++ "-secret"),
                      setSecretKeyRefName container.Env (request.Name ++ "-secret") with
                | .ok initEnvs, .ok envs =>
                  .ok (some { sts with
                    Name := request.Name
                    Namespace := request.Namespace
                    ServiceName := request.Name
                    MatchLabels := some (some (mapSet matchLabels "k8s-app" request.Name))
                    VolumeClaimTemplates :=
                      { StorageClassName := some storageClassName
                        Requests := some (mapSet requests "storage" quantity) } :: claims
                    TemplateLabels := some (mapSet templateLabels "k8s-app" request.Name)
                    Containers :=
                      { Image := env.GetDefault cr.Spec.Image "hyperledger/fabric-orderer:1.4.3"
                        Env := appendConfigParams envs cr.Spec.ConfigParams
                        Resources := cr.Spec.Resources } :: containers
                    InitContainers := { initContainer with Env := initEnvs } :: initContainers
                    Volumes :=
                      { volume with SecretName := some (request.Name ++ "-secret") } :: volumes
                    Owner := env.SetControllerReference ⟨cr.Namespace, cr.Name⟩
                      request.Namespace sts.Owner })
                | .error e, _ => .error e
                | _, .error e => .error e
            | _, _, _ => .error "index out of range"
  | _ => .ok none

/-! ## The cluster client and the trace of a pass -/

/-- The calls Reconcile makes on its collaborators with state: the split client
(Get, Create, Status().Update) and the two helpers of the fabric package that take the
client. Each call maps the client state to an answer and the next state. -/
structure Client (σ : Type) where
  CheckAndCreateConfigMap : Request → σ → Option ApiError × σ
  GetOrderer : NamespacedName → σ → Except ApiError Orderer × σ
  GetSecret : NamespacedName → σ → Except ApiError Secret × σ
  GetService : NamespacedName → σ → Except ApiError Service × σ
  GetStatefulSet : NamespacedName → σ → Except ApiError StatefulSet × σ
  CreateSecret : Option Secret → σ → Option ApiError × σ
  CreateService : Service → σ → Option ApiError × σ
  CreateStatefulSet : StatefulSet → σ → Option ApiError × σ
  StatusUpdate : Orderer → σ → Option ApiError × σ
  GetNodeIPaddress : σ → (List String × Option ApiError) × σ

deriving instance DecidableEq for Except

/-- One call of a pass together with the answer it received. -/
inductive Event where
  | checkConfig (answer : Option ApiError)
  | getOrderer (key : NamespacedName) (answer : Except ApiError Orderer)
  | getSecret (key : NamespacedName) (answer : Except ApiError Secret)
  | createSecret (obj : Option Secret) (answer : Option ApiError)
  | getService (key : NamespacedName) (answer : Except ApiError Service)
  | createService (obj : Service) (answer : Option ApiError)
  | getNodeIPs (answer : List String × Option ApiError)
  | statusUpdate (obj : Orderer) (answer : Option ApiError)
  | getStatefulSet (key : NamespacedName) (answer : Except ApiError StatefulSet)
  | createStatefulSet (obj : StatefulSet) (answer : Option ApiError)
deriving DecidableEq

/-- What Reconcile returns: `done` is (Result{}, nil), `retry` is (Result{Requeue: true}, nil),
`fatal err` is (Result{}, err); `crash` is a run-time panic. -/
inductive Outcome where
  | done
  | retry
  | fatal (err : ApiError)
  | crash
deriving DecidableEq, Repr

/-- A finished pass: its outcome, the client state it leaves, its calls in order, and the
local variable `instance` as it stands when the pass ends (none before it is fetched). -/
structure Pass (σ : Type) where
  outcome : Outcome
  state : σ
  calls : List Event
  held : Option Orderer

/-- The pass `p` preceded by the calls `evs`. -/
def Pass.after {σ : Type} (evs : List Event) (p : Pass σ) : Pass σ :=
  { p with calls := evs ++ p.calls }

/-- The zero value of corev1.Service, as `&corev1.Service{}` allocates it. -/
def zeroService : Service :=
  { Namespace := "", Name := "", Labels := none, Selector := none, Ports := [], Owner := none }

/-- Lines 182-192: the access point for the declared hosts, the platform host addresses and
the assigned node port. -/
def accessPoint (hosts allHostIPs : List String) (nodePort : Int) : String :=
  match hosts ++ allHostIPs with
  | publicIP :: _ => "https://" ++ publicIP ++ ":" ++ FormatInt nodePort
  | [] => FormatInt nodePort

/-! ## Reconcile, in the order of the source -/

/-- Lines 204-222 of Reconcile: look the stateful set up, build and create it when it is
not found; an AlreadyExists answer to the create is let through. -/
def reconcileStatefulSet {σ : Type} (env : Env) (c : Client σ) (request : Request)
    (inst : Orderer) (s : σ) : Pass σ :=
  let got := c.GetStatefulSet request s
  match got.1 with
  | .error ApiError.notFound =>
    match newSTSForCR env inst request with
    | .ok (some sts) =>
      let made := c.CreateStatefulSet sts got.2
      let calls := [Event.getStatefulSet request got.1, Event.createStatefulSet sts made.1]
      match made.1 with
      | some err =>
        if err = ApiError.alreadyExists then
          { outcome := .done, state := made.2, calls := calls, held := some inst }
        else
          { outcome := .fatal err, state := made.2, calls := calls, held := some inst }
      | none => { outcome := .done, state := made.2, calls := calls, held := some inst }
    | _ =>
      { outcome := .crash, state := got.2, calls := [Event.getStatefulSet request got.1],
        held := some inst }
  | .error err =>
    { outcome := .fatal err, state := got.2, calls := [Event.getStatefulSet request got.1],
      held := some inst }
  | .ok _ =>
    { outcome := .done, state := got.2, calls := [Event.getStatefulSet request got.1],
      held := some inst }

/-- Lines 176-202 of Reconcile: with an empty access point and a positive node port, read
the instance again, compute the access point and update the status; with an empty access
point and no node port, ask for a retry; with a non-empty access point, go on. The error of
the second read of the instance is dropped; a failed read leaves the instance as it was. -/
def reconcileStatus {σ : Type} (env : Env) (c : Client σ) (request : Request)
    (inst : Orderer) (port : ServicePort) (s : σ) : Pass σ :=
  if inst.Status.AccessPoint = "" then
    if port.NodePort > 0 then
      let again := c.GetOrderer request s
      let inst1 := match again.1 with
        | .ok fresh => fresh
        | .error _ => inst
      let ips := c.GetNodeIPaddress again.2
      let inst2 : Orderer :=
        { inst1 with Status := { AccessPoint := accessPoint inst1.Spec.Hosts ips.1.1 port.NodePort } }
      let upd := c.StatusUpdate inst2 ips.2
      let calls := [Event.getOrderer request again.1, Event.getNodeIPs ips.1,
        Event.statusUpdate inst2 upd.1]
      match upd.1 with
      | some err => { outcome := .fatal err, state := upd.2, calls := calls, held := some inst2 }
      | none => (reconcileStatefulSet env c request inst2 upd.2).after calls
    else
      { outcome := .retry, state := s, calls := [], held := some inst }
  else
    reconcileStatefulSet env c request inst s

/-- Lines 171-174 of Reconcile: without a port on the service the pass asks for a retry. -/
def reconcilePorts {σ : Type} (env : Env) (c : Client σ) (request : Request)
    (inst : Orderer) (foundService : Service) (s : σ) : Pass σ :=
  match foundService.Ports with
  | [] => { outcome := .retry, state := s, calls := [], held := some inst }
  | port :: _ => reconcileStatus env c request inst port s

/-- Lines 152-169 of Reconcile: look the service up, build and create it when it is not
found and read it back (the error of that read is dropped, the zero service stays on a
failure). -/
def reconcileService {σ : Type} (env : Env) (c : Client σ) (request : Request)
    (inst : Orderer) (s : σ) : Pass σ :=
  let got := c.GetService request s
  match got.1 with
  | .error ApiError.notFound =>
    match newServiceForCR env inst request with
    | .ok (some service) =>
      let made := c.CreateService service got.2
      match made.1 with
      | some err =>
        { outcome := .fatal err, state := made.2,
          calls := [Event.getService request got.1, Event.createService service made.1],
          held := some inst }
      | none =>
        let again := c.GetService request made.2
        let foundService := match again.1 with
          | .ok found => found
          | .error _ => zeroService
        (reconcilePorts env c request inst foundService again.2).after
          [Event.getService request got.1, Event.createService service made.1,
           Event.getService request again.1]
    | _ =>
      { outcome := .crash, state := got.2, calls := [Event.getService request got.1],
        held := some inst }
  | .error err =>
    { outcome := .fatal err, state := got.2, calls := [Event.getService request got.1],
      held := some inst }
  | .ok foundService =>
    (reconcilePorts env c request inst foundService got.2).after
      [Event.getService request got.1]

/-- Lines 135-150 of Reconcile: look the secret up under name + "-secret"; when it is not
found, build it and pass the result, nil included, to Create; any error of that Create ends
the pass. Another error of the lookup is not examined. -/
def reconcileSecret {σ : Type} (env : Env) (c : Client σ) (request : Request)
    (inst : Orderer) (s : σ) : Pass σ :=
  let secretID := request.Name ++ "-secret"
  let key : NamespacedName := { Name := secretID, Namespace := request.Namespace }
  let got := c.GetSecret key s
  match got.1 with
  | .error ApiError.notFound =>
    let secret := newSecretForCR env inst request
    let made := c.CreateSecret secret got.2
    match made.1 with
    | some err =>
      { outcome := .fatal err, state := made.2,
        calls := [Event.getSecret key got.1, Event.createSecret secret made.1],
        held := some inst }
    | none =>
      (reconcileService env c request inst made.2).after
        [Event.getSecret key got.1, Event.createSecret secret made.1]
  | _ => (reconcileService env c request inst got.2).after [Event.getSecret key got.1]

/-- The Reconcile of ReconcileOrderer (lines 109-223): one pass for one request. -/
def Reconcile {σ : Type} (env : Env) (c : Client σ) (request : Request) (s : σ) : Pass σ :=
  let cfg := c.CheckAndCreateConfigMap request s
  match cfg.1 with
  | some err =>
    { outcome := .fatal err, state := cfg.2, calls := [Event.checkConfig cfg.1], held := none }
  | none =>
    let got := c.GetOrderer request cfg.2
    match got.1 with
    | .error ApiError.notFound =>
      { outcome := .done, state := got.2,
        calls := [Event.checkConfig cfg.1, Event.getOrderer request got.1], held := none }
    | .error err =>
      { outcome := .fatal err, state := got.2,
        calls := [Event.checkConfig cfg.1, Event.getOrderer request got.1], held := none }
    | .ok inst =>
      (reconcileSecret env c request inst got.2).after
        [Event.checkConfig cfg.1, Event.getOrderer request got.1]

/-! ## A cluster store as explicit state -/

/-- The cluster as explicit state that only the passes modify: the stored objects of each
kind, the fixed answers of the configuration check and of the node address resolver, and the
node ports the API server gives a service when it is created. -/
structure Cluster where
  configError : Option ApiError
  orderers : List Orderer
  secrets : List Secret
  services : List Service
  statefulSets : List StatefulSet
  nodeIPs : List String × Option ApiError
  assignNodePorts : List ServicePort → List ServicePort

/-- The stored Orderer under a key. -/
def Cluster.findOrderer (s : Cluster) (k : NamespacedName) : Option Orderer :=
  s.orderers.find? (fun o => decide (o.Namespace = k.Namespace ∧ o.Name = k.Name))

/-- The stored Secret under a key. -/
def Cluster.findSecret (s : Cluster) (k : NamespacedName) : Option Secret :=
  s.secrets.find? (fun o => decide (o.Namespace = k.Namespace ∧ o.Name = k.Name))

/-- The stored Service under a key. -/
def Cluster.findService (s : Cluster) (k : NamespacedName) : Option Service :=
  s.services.find? (fun o => decide (o.Namespace = k.Namespace ∧ o.Name = k.Name))

/-- The stored StatefulSet under a key. -/
def Cluster.findStatefulSet (s : Cluster) (k : NamespacedName) : Option StatefulSet :=
  s.statefulSets.find? (fun o => decide (o.Namespace = k.Namespace ∧ o.Name = k.Name))

/-- Answer of a Get: the stored object, or NotFound. -/
def getAnswer {α : Type} (found : Option α) : Except ApiError α :=
  match found with
  | some o => .ok o
  | none => .error ApiError.notFound

/-- The status write of the store: every stored Orderer of that key takes the status of obj. -/
def Cluster.writeStatus (s : Cluster) (obj : Orderer) : List Orderer :=
  s.orderers.map (fun o =>
    if o.Namespace = obj.Namespace ∧ o.Name = obj.Name then { o with Status := obj.Status }
    else o)

/-- The deterministic client over `Cluster`: a Get answers the stored object or NotFound, a
Create stores the object unless one of that key exists (AlreadyExists) or the object is nil
(an error), a status update writes the status of an existing Orderer. -/
def clusterClient : Client Cluster where
  CheckAndCreateConfigMap := fun _ s => (s.configError, s)
  GetOrderer := fun k s => (getAnswer (s.findOrderer k), s)
  GetSecret := fun k s => (getAnswer (s.findSecret k), s)
  GetService := fun k s => (getAnswer (s.findService k), s)
  GetStatefulSet := fun k s => (getAnswer (s.findStatefulSet k), s)
  CreateSecret := fun obj s =>
    match obj with
    | none => (some (ApiError.other "expected pointer, but got nil"), s)
    | some o =>
      match s.findSecret { Namespace := o.Namespace, Name := o.Name } with
      | some _ => (some ApiError.alreadyExists, s)
      | none => (none, { s with secrets := o :: s.secrets })
  CreateService := fun o s =>
    match s.findService { Namespace := o.Namespace, Name := o.Name } with
    | some _ => (some ApiError.alreadyExists, s)
    | none => (none, { s with services := { o with Ports := s.assignNodePorts o.Ports } :: s.services })
  CreateStatefulSet := fun o s =>
    match s.findStatefulSet { Namespace := o.Namespace, Name := o.Name } with
    | some _ => (some ApiError.alreadyExists, s)
    | none => (none, { s with statefulSets := o :: s.statefulSets })
  StatusUpdate := fun obj s =>
    match s.findOrderer { Namespace := obj.Namespace, Name := obj.Name } with
    | none => (some ApiError.notFound, s)
    | some _ => (none, { s with orderers := s.writeStatus obj })
  GetNodeIPaddress := fun s => (s.nodeIPs, s)

/-- The cluster after n consecutive passes for one request. -/
def passes (env : Env) (request : Request) (n : Nat) (s : Cluster) : Cluster :=
  match n with
  | 0 => s
  | k + 1 => passes env request k (Reconcile env clusterClient request s).state

/-! ## Properties of a trace -/

/-- The status of `obj` is the access point computed from a service that a call of the pass
found for the request, with a positive node port on its first port, from the hosts that
`obj` declares and from an address list that a call of the pass returned. -/
def ComputedFrom (request : Request) (calls : List Event) (obj : Orderer) : Prop :=
  ∃ (svc : Service) (port : ServicePort) (rest : List ServicePort)
    (ips : List String × Option ApiError),
    Event.getService request (.ok svc) ∈ calls ∧ svc.Ports = port :: rest ∧
    0 < port.NodePort ∧ Event.getNodeIPs ips ∈ calls ∧
    obj.Status.AccessPoint = accessPoint obj.Spec.Hosts ips.1 port.NodePort

/-! ## Sample inputs -/

/-- A request for the orderer "orderer0" of namespace "fabric". -/
def demoRequest : Request := { Namespace := "fabric", Name := "orderer0" }

/-- A complete spec that declares the host 10.0.0.5. -/
def demoSpec : OrdererSpec :=
  { AdminCerts := ["admin"], CaCerts := ["ca"], KeyStore := "key", SignCerts := "cert-OrgA"
    TLSCacerts := ["tlsca"], TLS := { TLSCert := "tlscert", TLSKey := "tlskey" }
    StorageClass := "", StorageSize := "", Image := ""
    Resources := { Limits := none, Requests := none }
    ConfigParams := [{ Name := "ORDERER_GENERAL_LOGLEVEL", Value := "debug" }]
    Hosts := ["10.0.0.5"] }

/-- The orderer of the request, with an empty access point. -/
def demoOrderer : Orderer :=
  { Namespace := "fabric", Name := "orderer0", Spec := demoSpec, Status := { AccessPoint := "" } }

/-- A service template with one port and no node port. -/
def demoServiceTemplate : Service :=
  { Namespace := "", Name := "orderer", Labels := some [("k8s-app", "orderer")]
    Selector := some [("k8s-app", "orderer")], Ports := [{ Port := 7050, NodePort := 0 }]
    Owner := none }

/-- A stateful set template with one container, one init container and one secret volume. -/
def demoStatefulSetTemplate : StatefulSet :=
  { Namespace := "", Name := "orderer", ServiceName := "orderer"
    MatchLabels := some (some [("k8s-app", "orderer")])
    VolumeClaimTemplates := [{ StorageClassName := none, Requests := some [] }]
    TemplateLabels := some [("k8s-app", "orderer")]
    Containers := [{ Image := "", Resources := { Limits := none, Requests := none }
                     Env := [{ Name := "ORDERER_GENERAL_LOCALMSPID", Value := ""
                               ValueFrom := some { SecretKeyRef := some { Name := "", Key := "mspid" } } }] }]
    InitContainers := [{ Image := "busybox", Resources := { Limits := none, Requests := none }
                         Env := [{ Name := "MSPID", Value := ""
                                   ValueFrom := some { SecretKeyRef := some { Name := "", Key := "mspid" } } }] }]
    Volumes := [{ Name := "orderercerts", SecretName := some "" }]
    Owner := none }

/-- Sample collaborators: three templates of the right kinds, a stand-in decoder that
fails on the text "!", a PEM decoder that finds a block in every non-empty input, a
parser that knows four certificates, and an owner helper that always succeeds. -/
def demoEnv : Env where
  GetObjectFromTemplate := fun name =>
    if name = "orderer/orderer_secret.yaml" then
      (Object.secret { Namespace := "", Name := "", Data := [], Owner := none }, none)
    else if name = "orderer/orderer_service.yaml" then (Object.service demoServiceTemplate, none)
    else if name = "orderer/orderer_statefulset.yaml" then
      (Object.statefulSet demoStatefulSetTemplate, none)
    else (Object.nil, some (ApiError.other "no such template"))
  DecodeString := fun text => if text = "!" then ([], false) else (bytesOf text, true)
  pemDecode := fun bytes => if bytes = [] then none else some bytes
  ParseCertificate := fun der =>
    if der = bytesOf "cert-OrgA" then some { Subject := ⟨["OrgA"]⟩, Issuer := ⟨["RootCA"]⟩ }
    else if der = bytesOf "cert-OrgB" then some { Subject := ⟨[]⟩, Issuer := ⟨["OrgB"]⟩ }
    else if der = bytesOf "cert-blank" then some { Subject := ⟨[""]⟩, Issuer := ⟨["OrgB"]⟩ }
    else if der = bytesOf "cert-mixed" then some { Subject := ⟨["OrgA", ""]⟩, Issuer := ⟨[""]⟩ }
    else none
  GetDefault := fun value fallback => if value = "" then fallback else value
  MustParse := fun text => if text = "" then none else some { text := text }
  SetControllerReference := fun owner _ _ => some { Name := owner.Name }

/-- A cluster that holds the sample orderer and nothing else, and gives every new service
the node port 31000. -/
def demoCluster : Cluster :=
  { configError := none, orderers := [demoOrderer], secrets := [], services := []
    statefulSets := [], nodeIPs := ([], none)
    assignNodePorts := fun ports => ports.map (fun p => { p with NodePort := 31000 }) }

/-- The pass `p` wrote no status and ended holding `inst`. -/
def Untouched {σ : Type} (inst : Orderer) (p : Pass σ) : Prop :=
  (∀ obj ans, Event.statusUpdate obj ans ∉ p.calls) ∧ p.held = some inst
/-- The pass `p` reached the stateful set step: it is that step run on an instance `inst`
with a non-empty access point, after calls `pre` that create no stateful set; `inst` is
either the instance `inst0` the earlier steps held, or the last call of `pre` is the
successful status update that wrote it. -/
def ReachesStatefulSet {σ : Type} (env : Env) (c : Client σ) (request : Request)
    (inst0 : Orderer) (p : Pass σ) : Prop :=
  ∃ (inst : Orderer) (s : σ) (pre : List Event),
    p = (reconcileStatefulSet env c request inst s).after pre ∧
    (∀ sts ans, Event.createStatefulSet sts ans ∉ pre) ∧
    inst.Status.AccessPoint ≠ "" ∧
    (inst = inst0 ∨ ∃ pre0, pre = pre0 ++ [Event.statusUpdate inst none])
/-- The sample orderer after it converged: it holds an access point, and its declared
hosts were changed afterwards. -/
def settledOrderer : Orderer :=
  { demoOrderer with
    Spec := { demoSpec with Hosts := ["10.9.9.9"] }
    Status := { AccessPoint := "https://10.0.0.5:31000" } }

/-- The service of the sample request as the cluster stores it, with node port 32000. -/
def demoService : Service :=
  { Namespace := "fabric", Name := "orderer0", Labels := some [("k8s-app", "orderer0")]
    Selector := some [("k8s-app", "orderer0")], Ports := [{ Port := 7050, NodePort := 32000 }]
    Owner := some { Name := "orderer0" } }

/-- A cluster that holds the settled orderer and its service, and reports one node address. -/
def settledCluster : Cluster :=
  { demoCluster with
    orderers := [settledOrderer], services := [demoService], nodeIPs := (["192.168.0.7"], none) }

/-- The stateful set that newSTSForCR builds for the sample request. -/
def demoStatefulSet : StatefulSet :=
  { Namespace := "fabric", Name := "orderer0", ServiceName := "orderer0"
    MatchLabels := some (some [("k8s-app", "orderer0")])
    VolumeClaimTemplates :=
      [{ StorageClassName := some "default", Requests := some [("storage", { text := "5Gi" })] }]
    TemplateLabels := some [("k8s-app", "orderer0")]
    Containers :=
      [{ Image := "hyperledger/fabric-orderer:1.4.3"
         Resources := { Limits := none, Requests := none }
         Env := [{ Name := "ORDERER_GENERAL_LOCALMSPID", Value := ""
                   ValueFrom := some { SecretKeyRef := some { Name := "orderer0-secret", Key := "mspid" } } },
                 { Name := "ORDERER_GENERAL_LOGLEVEL", Value := "debug", ValueFrom := none }] }]
    InitContainers :=
      [{ Image := "busybox", Resources := { Limits := none, Requests := none }
         Env := [{ Name := "MSPID", Value := ""
                   ValueFrom := some { SecretKeyRef := some { Name := "orderer0-secret", Key := "mspid" } } }] }]
    Volumes := [{ Name := "orderercerts", SecretName := some "orderer0-secret" }]
    Owner := some { Name := "orderer0" } }

/-- The cluster client read through a cache that lags: a Get of a lagging kind answers
NotFound whatever the store holds; writes go to the store as in `clusterClient`. -/
def laggingClient (lagSecret lagService lagStatefulSet : Bool) : Client Cluster :=
  { clusterClient with
    GetSecret := fun k s =>
      if lagSecret then (.error ApiError.notFound, s) else clusterClient.GetSecret k s
    GetService := fun k s =>
      if lagService then (.error ApiError.notFound, s) else clusterClient.GetService k s
    GetStatefulSet := fun k s =>
      if lagStatefulSet then (.error ApiError.notFound, s) else clusterClient.GetStatefulSet k s }

/-- The settled cluster after another pass has created the stateful set. -/
def racedCluster : Cluster :=
  { settledCluster with statefulSets := [demoStatefulSet] }

/-- The identity label in the words of the specification: the first non-empty organization
name found in the subject and then in the issuer, the placeholder if there is none. -/
def claimedIdentity (cert : Certificate) : String :=
  ((cert.Subject.Organization ++ cert.Issuer.Organization).find? (fun org => org ≠ "")).getD
    "SampleOrgMSPID"

/-- The sample orderer with another spec. -/
def demoOrdererWith (spec : OrdererSpec) : Orderer := { demoOrderer with Spec := spec }

/-- A parsed certificate whose subject organization is the empty string. -/
def blankCertificate : Certificate := { Subject := ⟨[""]⟩, Issuer := ⟨["OrgB"]⟩ }

/-- A parsed certificate with empty organization names after a first non-empty one. -/
def mixedCertificate : Certificate := { Subject := ⟨["OrgA", ""]⟩, Issuer := ⟨[""]⟩ }

/-- The bundle of the sample request when the sign certificate is the mixed one. -/
def mixedSecret : Secret :=
  { Namespace := "fabric", Name := "orderer0-secret"
    Data := secretData demoEnv { demoSpec with SignCerts := "cert-mixed" }
    Owner := some { Name := "orderer0" } }

/-- The sample spec without a TLS key. -/
def specWithoutTLSKey : OrdererSpec :=
  { demoSpec with TLS := { TLSCert := "tlscert", TLSKey := "" } }

/-- A cluster that holds the sample orderer with the spec without a TLS key. -/
def incompleteCluster : Cluster :=
  { demoCluster with orderers := [demoOrdererWith specWithoutTLSKey] }

/-- A secret stored under the name of the bundle of the sample request. -/
def storedSecret : Secret :=
  { Namespace := "fabric", Name := "orderer0-secret", Data := [], Owner := none }

/-- The sample cluster after another pass has created the bundle and the service. -/
def racedBundleCluster : Cluster :=
  { demoCluster with secrets := [storedSecret], services := [demoService] }

/-- The place of a call in the order of the source: configuration check, instance,
secret lookup and create, service lookup and create, node addresses, status update,
stateful set lookup and create. -/
def Event.kind : Event → Nat
  | .checkConfig _ => 0
  | .getOrderer _ _ => 1
  | .getSecret _ _ => 2
  | .createSecret _ _ => 3
  | .getService _ _ => 4
  | .createService _ _ => 5
  | .getNodeIPs _ => 6
  | .statusUpdate _ _ => 7
  | .getStatefulSet _ _ => 8
  | .createStatefulSet _ _ => 9

/-- The instance `b` declares what `a` declares: same key and same spec (the status may
differ). -/
def SameDesired (a b : Orderer) : Prop :=
  b.Namespace = a.Namespace ∧ b.Name = a.Name ∧ b.Spec = a.Spec

/-- Frame of a step on the store: it leaves the configuration answer, the node addresses
and the port assignment as they are. -/
def SameSettings (s t : Cluster) : Prop :=
  t.configError = s.configError ∧ t.nodeIPs = s.nodeIPs ∧ t.assignNodePorts = s.assignNodePorts

/-- The instance after the status step computed its access point on the store. -/
def written (inst : Orderer) (s : Cluster) (port : ServicePort) : Orderer :=
  { inst with
    Status := { AccessPoint := accessPoint inst.Spec.Hosts s.nodeIPs.1 port.NodePort } }

/-- The error a call was answered with, none when it was answered without error. -/
def Event.failure : Event → Option ApiError
  | .checkConfig answer => answer
  | .getOrderer _ (.error err) => some err
  | .getOrderer _ (.ok _) => none
  | .getSecret _ (.error err) => some err
  | .getSecret _ (.ok _) => none
  | .createSecret _ answer => answer
  | .getService _ (.error err) => some err
  | .getService _ (.ok _) => none
  | .createService _ answer => answer
  | .getNodeIPs answer => answer.2
  | .statusUpdate _ answer => answer
  | .getStatefulSet _ (.error err) => some err
  | .getStatefulSet _ (.ok _) => none
  | .createStatefulSet _ answer => answer

/-- The calls of a trace whose error Reconcile examines: every call except the lookup of
the secret (line 138), the second read of the service (line 165, the read of a pass that
creates the service), the second read of the instance (line 179, the read of a pass that
goes on to ask for the node addresses) and the address list itself (line 181). -/
def Examined (calls : List Event) : Event → Prop
  | .getOrderer _ _ => ∀ x ∈ calls, x.kind ≠ 6
  | .getSecret _ _ => False
  | .getService _ _ => ∀ x ∈ calls, x.kind ≠ 5
  | .getNodeIPs _ => False
  | _ => True

/-- The cluster client with timeouts: when switched on, every lookup of a secret fails,
the read of a service that exists fails, and every status update fails, each with an error
that is neither NotFound nor AlreadyExists. -/
def timeoutClient (onSecret onService onStatus : Bool) : Client Cluster :=
  { clusterClient with
    GetSecret := fun k s =>
      if onSecret then (.error (ApiError.other "timeout"), s) else clusterClient.GetSecret k s
    GetService := fun k s =>
      if onService then
        match s.findService k with
        | some _ => (.error (ApiError.other "timeout"), s)
        | none => (.error ApiError.notFound, s)
      else clusterClient.GetService k s
    StatusUpdate := fun obj s =>
      if onStatus then (some (ApiError.other "timeout"), s) else clusterClient.StatusUpdate obj s }

/-- A pass in which every examined call that fails with an error other than NotFound and
AlreadyExists is the last call, the pass ending with that error as fatal. -/
def AbortsOnError {σ : Type} (p : Pass σ) : Prop :=
  ∀ e ∈ p.calls, ∀ err, e.failure = some err → err ≠ ApiError.notFound →
    err ≠ ApiError.alreadyExists → Examined p.calls e →
    p.calls.getLast? = some e ∧ p.outcome = Outcome.fatal err

/-- The service that newServiceForCR builds for the sample request: no node port yet. -/
def builtService : Service :=
  { Namespace := "fabric", Name := "orderer0", Labels := some [("k8s-app", "orderer0")]
    Selector := some [("k8s-app", "orderer0")], Ports := [{ Port := 7050, NodePort := 0 }]
    Owner := some { Name := "orderer0" } }

/-- The sample cluster with a stored service that has no port. -/
def portlessCluster : Cluster :=
  { demoCluster with services := [{ builtService with Ports := [] }] }

/-- The sample cluster when the API server assigns no node port to a new service. -/
def unassignedCluster : Cluster :=
  { demoCluster with assignNodePorts := fun ports => ports }

/-- The keys `key ++ Itoa 0`, ..., `key ++ Itoa (n - 1)`. -/
def indexedKeys (key : String) (n : Nat) : List String :=
  (List.range n).map (fun i => key ++ Itoa i)

/-- The key set of the bundle in the words of the specification, for a admin certificates,
c CA certificates and t TLS CA certificates. -/
def bundleKeys (a c t : Nat) : List String :=
  indexedKeys "admincert" a ++ indexedKeys "cacert" c ++ ["keystore", "signcert", "mspid"] ++
    indexedKeys "tlscacert" t ++ ["tlscert", "tlskey"]

/-- The entries `key ++ Itoa i` with the decoding of the i-th element of `xs`. -/
def indexedEntries (env : Env) (key : String) (xs : List String) : GoMap Bytes :=
  xs.enum.map (fun ix => (key ++ Itoa ix.1, (env.DecodeString ix.2).1))

/-- The bundle in the words of the specification: every field decoded under its own key,
and the identity label. -/
def bundleEntries (env : Env) (spec : OrdererSpec) : GoMap Bytes :=
  indexedEntries env "admincert" spec.AdminCerts ++ indexedEntries env "cacert" spec.CaCerts ++
    [("keystore", (env.DecodeString spec.KeyStore).1),
     ("signcert", (env.DecodeString spec.SignCerts).1),
     ("mspid", mspid env (env.DecodeString spec.SignCerts).1)] ++
    indexedEntries env "tlscacert" spec.TLSCacerts ++
    [("tlscert", (env.DecodeString spec.TLS.TLSCert).1),
     ("tlskey", (env.DecodeString spec.TLS.TLSKey).1)]

/-- The value of a character of the standard base64 alphabet. -/
def base64Value (ch : Char) : Option Nat :=
  if 'A' ≤ ch ∧ ch ≤ 'Z' then some (ch.toNat - 65)
  else if 'a' ≤ ch ∧ ch ≤ 'z' then some (ch.toNat - 71)
  else if '0' ≤ ch ∧ ch ≤ '9' then some (ch.toNat + 4)
  else if ch = '+' then some 62
  else if ch = '/' then some 63
  else none

/-- The three bytes of a quantum of four 6-bit values. -/
def quantumBytes (v0 v1 v2 v3 : Nat) : Bytes :=
  let val := v0 * 262144 + v1 * 4096 + v2 * 64 + v3
  [UInt8.ofNat (val / 65536 % 256), UInt8.ofNat (val / 256 % 256), UInt8.ofNat (val % 256)]

/-- Decoding quantum by quantum as Go's Encoding.Decode does for the standard padded
encoding, on the characters that are left when the line breaks are skipped: the bytes of
the quanta before the first corrupt position are returned together with the failure. -/
def decodeQuanta : List Char → Bytes × Bool
  | [] => ([], true)
  | c0 :: c1 :: c2 :: c3 :: rest =>
    match base64Value c0, base64Value c1, base64Value c2, base64Value c3 with
    | some v0, some v1, some v2, some v3 =>
      ((quantumBytes v0 v1 v2 v3) ++ (decodeQuanta rest).1, (decodeQuanta rest).2)
    | some v0, some v1, some v2, none =>
      if c3 = '=' then ((quantumBytes v0 v1 v2 0).take 2, decide (rest = [])) else ([], false)
    | some v0, some v1, none, _ =>
      if c2 = '=' ∧ c3 = '=' then ((quantumBytes v0 v1 0 0).take 1, decide (rest = []))
      else ([], false)
    | _, _, _, _ => ([], false)
  | _ => ([], false)

/-- A model of base64.StdEncoding.DecodeString: the decoded bytes, and whether the error
is nil. Carriage returns and line feeds are skipped wherever they stand; on corrupt input
the bytes decoded so far come back with the error. -/
def stdDecodeString (text : String) : Bytes × Bool :=
  decodeQuanta (text.data.filter (fun ch => ch ≠ Char.ofNat 10 ∧ ch ≠ Char.ofNat 13))

/-- The sample collaborators with the base64 decoder of the Go library. -/
def goEnv : Env := { demoEnv with DecodeString := stdDecodeString }

/-- The sample spec with a key store that is corrupt after its first quantum. -/
def corruptSpec : OrdererSpec := { demoSpec with KeyStore := "QUJD!" }

/-- The name in the secret-key reference of the first entry of an environment. -/
def firstSecretRef (envs : List EnvVar) : Option String :=
  match envs with
  | [] => none
  | e :: _ =>
    match e.ValueFrom with
    | none => none
    | some src =>
      match src.SecretKeyRef with
      | none => none
      | some ref => some ref.Name

/-- The EnvVar that line 324 builds from an extra configuration entry. -/
def configEnv (e : ConfigParam) : EnvVar :=
  { Name := e.Name, Value := e.Value, ValueFrom := none }

/-- The keys under which a trace looks objects up agree with the names of the request:
name + "-secret" for the secret, the name itself for the instance, the service and the
stateful set, all in the namespace of the request. -/
def LooksUpByName (request : Request) (calls : List Event) : Prop :=
  ∀ e ∈ calls,
    match e with
    | .getOrderer key _ => key = request
    | .getSecret key _ =>
      key = { Namespace := request.Namespace, Name := request.Name ++ "-secret" }
    | .getService key _ => key = request
    | .getStatefulSet key _ => key = request
    | _ => True

/-- The kinds of the create calls of a trace, in the order of the trace: 3 for the secret,
5 for the service, 9 for the stateful set. -/
def createKinds (calls : List Event) : List Nat :=
  (calls.map Event.kind).filter (fun k => decide (k = 3 ∨ k = 5 ∨ k = 9))

/-- The verb of a call on the cluster. The client of the controller has no delete. -/
def Event.verb : Event → String
  | .checkConfig _ => "check"
  | .getOrderer _ _ => "get"
  | .getSecret _ _ => "get"
  | .createSecret _ _ => "create"
  | .getService _ _ => "get"
  | .createService _ _ => "create"
  | .getNodeIPs _ => "list"
  | .statusUpdate _ _ => "update"
  | .getStatefulSet _ _ => "get"
  | .createStatefulSet _ _ => "create"

/-- Every create of a trace comes directly after the lookup of the same sub-resource, and
that lookup was answered NotFound. -/
def CreatesAfterLookup (request : Request) (calls : List Event) : Prop :=
  (∀ obj ans, Event.createSecret obj ans ∈ calls → ∃ pre post key,
    calls = pre ++ Event.getSecret key (.error ApiError.notFound) ::
      Event.createSecret obj ans :: post) ∧
  (∀ obj ans, Event.createService obj ans ∈ calls → ∃ pre post,
    calls = pre ++ Event.getService request (.error ApiError.notFound) ::
      Event.createService obj ans :: post) ∧
  (∀ obj ans, Event.createStatefulSet obj ans ∈ calls → ∃ pre post,
    calls = pre ++ Event.getStatefulSet request (.error ApiError.notFound) ::
      Event.createStatefulSet obj ans :: post)

/-- The sample collaborators with another answer of the template store for one template. -/
def envWithTemplate (name : String) (answer : Object × Option ApiError) : Env :=
  { demoEnv with
    GetObjectFromTemplate := fun n => if n = name then answer else demoEnv.GetObjectFromTemplate n }

/-- The one environment entry of the first container of the sample stateful set template. -/
def demoTemplateVar : EnvVar :=
  { Name := "ORDERER_GENERAL_LOCALMSPID", Value := ""
    ValueFrom := some { SecretKeyRef := some { Name := "", Key := "mspid" } } }

/-- The first container of the sample stateful set template. -/
def demoTemplateContainer : Container :=
  { Image := "", Resources := { Limits := none, Requests := none }, Env := [demoTemplateVar] }

/-- The environment entry e after line 319: its secret-key reference, which was ref, now
names the secret; every other field is the one of e. -/
def renamedVar (e : EnvVar) (ref : SecretKeySelector) (name : String) : EnvVar :=
  { e with ValueFrom := some { SecretKeyRef := some { ref with Name := name } } }

/-- The cluster client on which the reads whose errors Reconcile drops fail: once a service
is stored every read of the instance times out, and the node addresses are never resolved. -/
def flakyClient : Client Cluster :=
  { clusterClient with
    GetOrderer := fun k s =>
      if s.services = [] then clusterClient.GetOrderer k s
      else (.error (ApiError.other "timeout"), s)
    GetNodeIPaddress := fun s => (([], some (ApiError.other "timeout")), s) }

/-- The sample collaborators with an owner helper that always fails: every object keeps the
controller owner it had. -/
def ownerlessEnv : Env := { demoEnv with SetControllerReference := fun _ _ held => held }

/-! ## Lemmas on the Go values -/

theorem toDigitsCore_ne_nil (b : Nat) :
    ∀ (fuel n : Nat) (ds : List Char), ds ≠ [] → Nat.toDigitsCore b fuel n ds ≠ []
  | 0, _, ds, h => by simpa [Nat.toDigitsCore] using h
  | fuel + 1, n, ds, _ => by
    simp only [Nat.toDigitsCore]
    split
    · simp
    · exact toDigitsCore_ne_nil b fuel _ _ (by simp)

theorem string_ne_empty_of_data {s : String} (h : s.data ≠ []) : s ≠ "" := by
  intro hs
  exact h (by rw [hs])

theorem natRepr_ne_empty (n : Nat) : Nat.repr n ≠ "" := by
  apply string_ne_empty_of_data
  show Nat.toDigits 10 n ≠ []
  unfold Nat.toDigits
  simp only [Nat.toDigitsCore]
  split
  · simp
  · exact toDigitsCore_ne_nil 10 _ _ _ (by simp)

theorem FormatInt_ne_empty (p : Int) : FormatInt p ≠ "" := by
  unfold FormatInt
  cases p with
  | ofNat n => exact natRepr_ne_empty n
  | negSucc n =>
    apply string_ne_empty_of_data
    show ("-" ++ Nat.repr (n + 1)).data ≠ []
    simp [String.data_append]

theorem accessPoint_ne_empty (hosts ips : List String) (p : Int) :
    accessPoint hosts ips p ≠ "" := by
  unfold accessPoint
  split
  · apply string_ne_empty_of_data
    simp [String.data_append]
  · exact FormatInt_ne_empty p

/-! ## Lemmas on traces -/

@[simp]
theorem after_calls {σ : Type} (evs : List Event) (p : Pass σ) :
    (p.after evs).calls = evs ++ p.calls := rfl

@[simp]
theorem after_outcome {σ : Type} (evs : List Event) (p : Pass σ) :
    (p.after evs).outcome = p.outcome := rfl

@[simp]
theorem after_state {σ : Type} (evs : List Event) (p : Pass σ) :
    (p.after evs).state = p.state := rfl

@[simp]
theorem after_held {σ : Type} (evs : List Event) (p : Pass σ) :
    (p.after evs).held = p.held := rfl

theorem computedFrom_mono {request : Request} {calls : List Event} {obj : Orderer}
    (evs : List Event) (h : ComputedFrom request calls obj) :
    ComputedFrom request (evs ++ calls) obj := by
  obtain ⟨svc, port, rest, ips, h1, h2, h3, h4, h5⟩ := h
  exact ⟨svc, port, rest, ips, List.mem_append_right _ h1, h2, h3,
    List.mem_append_right _ h4, h5⟩

/-! ## The access point that a pass writes (C1) -/

theorem sts_calls_no_statusUpdate {σ : Type} (env : Env) (c : Client σ) (request : Request)
    (inst : Orderer) (s : σ) (obj : Orderer) (ans : Option ApiError) :
    Event.statusUpdate obj ans ∉ (reconcileStatefulSet env c request inst s).calls := by
  unfold reconcileStatefulSet
  simp only []
  repeat' split
  all_goals simp

theorem status_update_value {σ : Type} (env : Env) (c : Client σ) (request : Request)
    (inst : Orderer) (port : ServicePort) (s : σ) (obj : Orderer) (ans : Option ApiError)
    (h : Event.statusUpdate obj ans ∈ (reconcileStatus env c request inst port s).calls) :
    0 < port.NodePort ∧
    ∃ ips, Event.getNodeIPs ips ∈ (reconcileStatus env c request inst port s).calls ∧
      obj.Status.AccessPoint = accessPoint obj.Spec.Hosts ips.1 port.NodePort := by
  have hno := sts_calls_no_statusUpdate env c request
  by_cases hap : inst.Status.AccessPoint = ""
  · by_cases hp : port.NodePort > 0
    · refine ⟨hp, (c.GetNodeIPaddress (c.GetOrderer request s).2).1, ?_⟩
      unfold reconcileStatus at h ⊢
      simp only [hap, hp, if_true] at h ⊢
      split at h
      · simp at h
        refine ⟨?_, ?_⟩
        · split <;> simp
        · rw [h.1]
      · simp [hno] at h
        refine ⟨?_, ?_⟩
        · split <;> simp
        · rw [h.1]
    · simp [reconcileStatus, hap, hp] at h
  · simp [reconcileStatus, hap, hno] at h

theorem ports_update_value {σ : Type} (env : Env) (c : Client σ) (request : Request)
    (inst : Orderer) (found : Service) (s : σ) (obj : Orderer) (ans : Option ApiError)
    (h : Event.statusUpdate obj ans ∈ (reconcilePorts env c request inst found s).calls) :
    ComputedFrom request (Event.getService request (.ok found) ::
      (reconcilePorts env c request inst found s).calls) obj := by
  unfold reconcilePorts at h ⊢
  split at h
  · simp at h
  · rename_i port rest hports
    obtain ⟨hp, ips, hips, hval⟩ := status_update_value env c request inst port s obj ans h
    exact ⟨found, port, rest, ips, by simp, hports, hp, by simp [hips], hval⟩

theorem service_update_value {σ : Type} (env : Env) (c : Client σ) (request : Request)
    (inst : Orderer) (s : σ) (obj : Orderer) (ans : Option ApiError)
    (h : Event.statusUpdate obj ans ∈ (reconcileService env c request inst s).calls) :
    ComputedFrom request (reconcileService env c request inst s).calls obj := by
  unfold reconcileService at h ⊢
  simp only [] at h ⊢
  split at h
  · split at h
    · split at h
      · simp at h
      · simp only [after_calls, List.mem_append, List.mem_cons, List.mem_singleton,
          List.not_mem_nil, or_false, false_or, reduceCtorEq] at h
        split at h
        · rename_i found hfound
          have := ports_update_value env c request inst found _ obj ans h
          simp only [after_calls, hfound]
          exact computedFrom_mono [Event.getService request _, Event.createService _ _] (by
            simpa [hfound] using this)
        · unfold reconcilePorts at h
          simp [zeroService] at h
    · simp at h
  · simp at h
  · rename_i found hfound
    simp only [after_calls, List.mem_append, List.mem_cons, List.mem_singleton,
      List.not_mem_nil, or_false, false_or, reduceCtorEq] at h
    have := ports_update_value env c request inst found _ obj ans h
    simpa [hfound] using this

theorem secret_update_value {σ : Type} (env : Env) (c : Client σ) (request : Request)
    (inst : Orderer) (s : σ) (obj : Orderer) (ans : Option ApiError)
    (h : Event.statusUpdate obj ans ∈ (reconcileSecret env c request inst s).calls) :
    ComputedFrom request (reconcileSecret env c request inst s).calls obj := by
  unfold reconcileSecret at h ⊢
  simp only [] at h ⊢
  split at h
  · split at h
    · simp at h
    · simp only [after_calls, List.mem_append, List.mem_cons, List.mem_singleton,
        List.not_mem_nil, or_false, false_or, reduceCtorEq] at h
      exact computedFrom_mono _ (service_update_value env c request inst _ obj ans h)
  · simp only [after_calls, List.mem_append, List.mem_cons, List.mem_singleton,
      List.not_mem_nil, or_false, false_or, reduceCtorEq] at h
    exact computedFrom_mono _ (service_update_value env c request inst _ obj ans h)

theorem reconcile_update_value {σ : Type} (env : Env) (c : Client σ) (request : Request)
    (s : σ) (obj : Orderer) (ans : Option ApiError)
    (h : Event.statusUpdate obj ans ∈ (Reconcile env c request s).calls) :
    ComputedFrom request (Reconcile env c request s).calls obj := by
  unfold Reconcile at h ⊢
  simp only [] at h ⊢
  split at h
  · simp at h
  · split at h
    · simp at h
    · simp at h
    · simp only [after_calls, List.mem_append, List.mem_cons, List.mem_singleton,
        List.not_mem_nil, or_false, false_or, reduceCtorEq] at h
      exact computedFrom_mono _ (secret_update_value env c request _ _ obj ans h)

/-- C1: whenever a pass writes a status (the call `statusUpdate obj ans` is in its trace),
the pass found the service of the request with a node port p > 0 on its first port and
received an address list `ips`, and the access point of `obj` is
"https://" ++ host ++ ":" ++ FormatInt p for the first element `host` of the declared hosts
followed by `ips` when that list is not empty (so a declared host wins over every platform
address), and is FormatInt p when both lists are empty. -/
theorem C1_access_point_value {σ : Type} (env : Env) (c : Client σ) (request : Request)
    (s : σ) (obj : Orderer) (ans : Option ApiError)
    (h : Event.statusUpdate obj ans ∈ (Reconcile env c request s).calls) :
    ∃ (svc : Service) (port : ServicePort) (rest : List ServicePort)
      (ips : List String × Option ApiError),
      Event.getService request (.ok svc) ∈ (Reconcile env c request s).calls ∧
      svc.Ports = port :: rest ∧ 0 < port.NodePort ∧
      Event.getNodeIPs ips ∈ (Reconcile env c request s).calls ∧
      (∀ host hosts, obj.Spec.Hosts ++ ips.1 = host :: hosts →
        obj.Status.AccessPoint = "https://" ++ host ++ ":" ++ FormatInt port.NodePort) ∧
      (∀ host hosts, obj.Spec.Hosts = host :: hosts →
        obj.Status.AccessPoint = "https://" ++ host ++ ":" ++ FormatInt port.NodePort) ∧
      (obj.Spec.Hosts = [] → ips.1 = [] →
        obj.Status.AccessPoint = FormatInt port.NodePort) := by
  obtain ⟨svc, port, rest, ips, h1, h2, h3, h4, h5⟩ :=
    reconcile_update_value env c request s obj ans h
  refine ⟨svc, port, rest, ips, h1, h2, h3, h4, ?_, ?_, ?_⟩
  · intro host hosts hh
    rw [h5, accessPoint, hh]
  · intro host hosts hh
    rw [h5, accessPoint, hh]
    rfl
  · intro hh hi
    rw [h5, accessPoint, hh, hi]
    rfl

/-- The sample pass writes "https://10.0.0.5:31000": port 31000, declared host 10.0.0.5,
no platform address. -/
theorem C1_access_point_value_witness :
    Event.statusUpdate { demoOrderer with Status := { AccessPoint := "https://10.0.0.5:31000" } }
        none ∈ (Reconcile demoEnv clusterClient demoRequest demoCluster).calls ∧
    ∃ (svc : Service) (port : ServicePort) (rest : List ServicePort)
      (ips : List String × Option ApiError),
      Event.getService demoRequest (.ok svc) ∈
        (Reconcile demoEnv clusterClient demoRequest demoCluster).calls ∧
      svc.Ports = port :: rest ∧ 0 < port.NodePort ∧
      Event.getNodeIPs ips ∈ (Reconcile demoEnv clusterClient demoRequest demoCluster).calls ∧
      (∀ host hosts, demoOrderer.Spec.Hosts ++ ips.1 = host :: hosts →
        "https://10.0.0.5:31000" = "https://" ++ host ++ ":" ++ FormatInt port.NodePort) ∧
      (∀ host hosts, demoOrderer.Spec.Hosts = host :: hosts →
        "https://10.0.0.5:31000" = "https://" ++ host ++ ":" ++ FormatInt port.NodePort) ∧
      (demoOrderer.Spec.Hosts = [] → ips.1 = [] →
        "https://10.0.0.5:31000" = FormatInt port.NodePort) :=
  ⟨by decide,
    C1_access_point_value demoEnv clusterClient demoRequest demoCluster
      { demoOrderer with Status := { AccessPoint := "https://10.0.0.5:31000" } } none
      (by decide)⟩

/-- With port 31000 and neither a declared host nor a platform address the sample pass
writes "31000", and the access point function gives the two values of the specification. -/
theorem access_point_examples :
    accessPoint ["10.0.0.5"] [] 31000 = "https://10.0.0.5:31000" ∧
    accessPoint [] [] 31000 = "31000" ∧
    accessPoint ["10.0.0.5"] ["192.168.0.1"] 31000 = "https://10.0.0.5:31000" ∧
    (Reconcile demoEnv clusterClient demoRequest
      { demoCluster with
        orderers := [{ demoOrderer with Spec := { demoSpec with Hosts := [] } }] }).held
      = some { demoOrderer with
          Spec := { demoSpec with Hosts := [] }, Status := { AccessPoint := "31000" } } := by
  decide

/-! ## A pass that starts with an access point (C2) -/

theorem untouched_after {σ : Type} {inst : Orderer} {p : Pass σ} (evs : List Event)
    (hevs : ∀ obj ans, Event.statusUpdate obj ans ∉ evs) (h : Untouched inst p) :
    Untouched inst (p.after evs) := by
  refine ⟨fun obj ans hmem => ?_, h.2⟩
  rcases List.mem_append.1 hmem with h1 | h1
  · exact hevs obj ans h1
  · exact h.1 obj ans h1

theorem sts_held {σ : Type} (env : Env) (c : Client σ) (request : Request)
    (inst : Orderer) (s : σ) :
    (reconcileStatefulSet env c request inst s).held = some inst := by
  unfold reconcileStatefulSet
  simp only []
  repeat' split
  all_goals rfl

theorem status_untouched {σ : Type} (env : Env) (c : Client σ) (request : Request)
    (inst : Orderer) (port : ServicePort) (s : σ) (hap : inst.Status.AccessPoint ≠ "") :
    Untouched inst (reconcileStatus env c request inst port s) := by
  unfold reconcileStatus
  simp only [hap, if_false]
  exact ⟨sts_calls_no_statusUpdate env c request inst s, sts_held env c request inst s⟩

theorem ports_untouched {σ : Type} (env : Env) (c : Client σ) (request : Request)
    (inst : Orderer) (found : Service) (s : σ) (hap : inst.Status.AccessPoint ≠ "") :
    Untouched inst (reconcilePorts env c request inst found s) := by
  unfold reconcilePorts
  split
  · exact ⟨by simp, rfl⟩
  · exact status_untouched env c request inst _ s hap

theorem service_untouched {σ : Type} (env : Env) (c : Client σ) (request : Request)
    (inst : Orderer) (s : σ) (hap : inst.Status.AccessPoint ≠ "") :
    Untouched inst (reconcileService env c request inst s) := by
  unfold reconcileService
  simp only []
  split
  · split
    · split
      · exact ⟨by simp, rfl⟩
      · exact untouched_after _ (by simp) (ports_untouched env c request inst _ _ hap)
    · exact ⟨by simp, rfl⟩
  · exact ⟨by simp, rfl⟩
  · exact untouched_after _ (by simp) (ports_untouched env c request inst _ _ hap)

theorem secret_untouched {σ : Type} (env : Env) (c : Client σ) (request : Request)
    (inst : Orderer) (s : σ) (hap : inst.Status.AccessPoint ≠ "") :
    Untouched inst (reconcileSecret env c request inst s) := by
  unfold reconcileSecret
  simp only []
  split
  · split
    · exact ⟨by simp, rfl⟩
    · exact untouched_after _ (by simp) (service_untouched env c request inst _ hap)
  · exact untouched_after _ (by simp) (service_untouched env c request inst _ hap)

/-- The instance that a pass fetched first, read off its trace. -/
theorem reconcile_of_fetched {σ : Type} (env : Env) (c : Client σ) (request : Request)
    (s : σ) (inst : Orderer) (cfg : Option ApiError) (rest : List Event)
    (h : (Reconcile env c request s).calls =
      Event.checkConfig cfg :: Event.getOrderer request (.ok inst) :: rest) :
    Reconcile env c request s =
      (reconcileSecret env c request inst (c.GetOrderer request
        (c.CheckAndCreateConfigMap request s).2).2).after
        [Event.checkConfig cfg, Event.getOrderer request (.ok inst)] := by
  unfold Reconcile at h ⊢
  simp only [] at h ⊢
  split at h
  · simp at h
  · rename_i hcfg
    simp only [hcfg]
    split at h
    · rename_i hgot
      simp [hgot] at h
    · rename_i hgot
      simp [hgot] at h
    · rename_i inst1 hgot
      simp only [after_calls, List.cons_append, List.nil_append, List.cons.injEq,
        Event.checkConfig.injEq, Event.getOrderer.injEq, true_and] at h
      obtain ⟨h1, h2, -⟩ := h
      rw [hgot] at h2
      cases h2
      simp only [hgot, ← h1, hcfg]

/-- C2: a pass whose first fetch of the instance answers `inst` with a non-empty access
point issues no status update, and the instance it holds when it ends is `inst`, access
point included; nothing is assumed on the declared hosts, on the platform addresses or on
the ports of the service. -/
theorem C2_access_point_stable {σ : Type} (env : Env) (c : Client σ) (request : Request)
    (s : σ) (inst : Orderer) (cfg : Option ApiError) (rest : List Event)
    (hfetch : (Reconcile env c request s).calls =
      Event.checkConfig cfg :: Event.getOrderer request (.ok inst) :: rest)
    (hap : inst.Status.AccessPoint ≠ "") :
    (∀ obj ans, Event.statusUpdate obj ans ∉ (Reconcile env c request s).calls) ∧
    (Reconcile env c request s).held = some inst ∧
    ∀ final, (Reconcile env c request s).held = some final →
      final.Status.AccessPoint = inst.Status.AccessPoint := by
  rw [reconcile_of_fetched env c request s inst cfg rest hfetch]
  have h := untouched_after [Event.checkConfig cfg, Event.getOrderer request (.ok inst)]
    (by simp) (secret_untouched env c request inst
      (c.GetOrderer request (c.CheckAndCreateConfigMap request s).2).2 hap)
  refine ⟨h.1, h.2, fun final hfinal => ?_⟩
  rw [h.2] at hfinal
  cases hfinal
  rfl

/-- The settled sample: the pass starts with the access point "https://10.0.0.5:31000",
the declared host and the node port have changed since, and the pass leaves it as it is. -/
theorem C2_access_point_stable_witness :
    (Reconcile demoEnv clusterClient demoRequest settledCluster).calls =
      Event.checkConfig none :: Event.getOrderer demoRequest (.ok settledOrderer) ::
        (Reconcile demoEnv clusterClient demoRequest settledCluster).calls.drop 2 ∧
    settledOrderer.Status.AccessPoint ≠ "" ∧
    (∀ obj ans, Event.statusUpdate obj ans ∉
      (Reconcile demoEnv clusterClient demoRequest settledCluster).calls) ∧
    (Reconcile demoEnv clusterClient demoRequest settledCluster).held = some settledOrderer ∧
    ∀ final, (Reconcile demoEnv clusterClient demoRequest settledCluster).held = some final →
      final.Status.AccessPoint = settledOrderer.Status.AccessPoint :=
  ⟨by decide, by decide,
    C2_access_point_stable demoEnv clusterClient demoRequest settledCluster settledOrderer none
      ((Reconcile demoEnv clusterClient demoRequest settledCluster).calls.drop 2)
      (by decide) (by decide)⟩

/-! ## Reaching the stateful set step (C8, C9) -/

theorem after_after {σ : Type} (evs evs2 : List Event) (p : Pass σ) :
    (p.after evs).after evs2 = p.after (evs2 ++ evs) := by
  simp [Pass.after]

theorem after_nil {σ : Type} (p : Pass σ) : p.after [] = p := by
  simp [Pass.after]

theorem reaches_after {σ : Type} {env : Env} {c : Client σ} {request : Request}
    {inst0 : Orderer} {p : Pass σ} (evs : List Event)
    (hevs : ∀ sts ans, Event.createStatefulSet sts ans ∉ evs)
    (h : ReachesStatefulSet env c request inst0 p) :
    ReachesStatefulSet env c request inst0 (p.after evs) := by
  obtain ⟨inst, s, pre, hp, hpre, hap, hor⟩ := h
  refine ⟨inst, s, evs ++ pre, ?_, ?_, hap, ?_⟩
  · rw [hp, after_after]
  · intro sts ans hmem
    rcases List.mem_append.1 hmem with h1 | h1
    · exact hevs sts ans h1
    · exact hpre sts ans h1
  · rcases hor with h1 | ⟨pre0, h1⟩
    · exact Or.inl h1
    · exact Or.inr ⟨evs ++ pre0, by rw [h1, List.append_assoc]⟩

theorem status_reaches {σ : Type} (env : Env) (c : Client σ) (request : Request)
    (inst : Orderer) (port : ServicePort) (s : σ) (sts : StatefulSet) (ans : Option ApiError)
    (h : Event.createStatefulSet sts ans ∈ (reconcileStatus env c request inst port s).calls) :
    ReachesStatefulSet env c request inst (reconcileStatus env c request inst port s) := by
  by_cases hap : inst.Status.AccessPoint = ""
  · by_cases hp : port.NodePort > 0
    · unfold reconcileStatus at h ⊢
      simp only [hap, hp, if_true] at h ⊢
      split at h
      · simp at h
      · rename_i hupd
        simp only [hupd]
        refine ⟨_, _, _, rfl, ?_, ?_, ?_⟩
        · simp
        · exact accessPoint_ne_empty _ _ _
        · exact Or.inr ⟨[Event.getOrderer request (c.GetOrderer request s).1,
            Event.getNodeIPs (c.GetNodeIPaddress (c.GetOrderer request s).2).1], rfl⟩
    · simp [reconcileStatus, hap, hp] at h
  · unfold reconcileStatus
    simp only [hap, if_false]
    exact ⟨inst, s, [], (after_nil _).symm, by simp, hap, Or.inl rfl⟩

theorem ports_reaches {σ : Type} (env : Env) (c : Client σ) (request : Request)
    (inst : Orderer) (found : Service) (s : σ) (sts : StatefulSet) (ans : Option ApiError)
    (h : Event.createStatefulSet sts ans ∈ (reconcilePorts env c request inst found s).calls) :
    ReachesStatefulSet env c request inst (reconcilePorts env c request inst found s) := by
  unfold reconcilePorts at h ⊢
  split at h
  · simp at h
  · rename_i port rest hports
    try simp only [hports]
    exact status_reaches env c request inst port s sts ans h

theorem service_reaches {σ : Type} (env : Env) (c : Client σ) (request : Request)
    (inst : Orderer) (s : σ) (sts : StatefulSet) (ans : Option ApiError)
    (h : Event.createStatefulSet sts ans ∈ (reconcileService env c request inst s).calls) :
    ReachesStatefulSet env c request inst (reconcileService env c request inst s) := by
  unfold reconcileService at h ⊢
  simp only [] at h ⊢
  split at h
  · rename_i hgot
    try simp only [hgot]
    split at h
    · rename_i service hnew
      try simp only [hnew]
      split at h
      · simp at h
      · rename_i hmade
        try simp only [hmade]
        simp only [after_calls, List.mem_append, List.mem_cons, List.mem_singleton,
          List.not_mem_nil, or_false, false_or, reduceCtorEq] at h
        exact reaches_after _ (by simp) (ports_reaches env c request inst _ _ sts ans h)
    · simp at h
  · simp at h
  · rename_i found hgot
    try simp only [hgot]
    simp only [after_calls, List.mem_append, List.mem_cons, List.mem_singleton,
      List.not_mem_nil, or_false, false_or, reduceCtorEq] at h
    exact reaches_after _ (by simp) (ports_reaches env c request inst _ _ sts ans h)


theorem secret_reaches {σ : Type} (env : Env) (c : Client σ) (request : Request)
    (inst : Orderer) (s : σ) (sts : StatefulSet) (ans : Option ApiError)
    (h : Event.createStatefulSet sts ans ∈ (reconcileSecret env c request inst s).calls) :
    ReachesStatefulSet env c request inst (reconcileSecret env c request inst s) := by
  unfold reconcileSecret at h ⊢
  simp only [] at h ⊢
  split at h
  · split at h
    · simp at h
    · simp only [after_calls, List.mem_append, List.mem_cons, List.mem_singleton,
        List.not_mem_nil, or_false, false_or, reduceCtorEq] at h
      exact reaches_after _ (by simp) (service_reaches env c request inst _ sts ans h)
  · simp only [after_calls, List.mem_append, List.mem_cons, List.mem_singleton,
      List.not_mem_nil, or_false, false_or, reduceCtorEq] at h
    exact reaches_after _ (by simp) (service_reaches env c request inst _ sts ans h)

theorem reconcile_reaches {σ : Type} (env : Env) (c : Client σ) (request : Request)
    (s : σ) (sts : StatefulSet) (ans : Option ApiError)
    (h : Event.createStatefulSet sts ans ∈ (Reconcile env c request s).calls) :
    ∃ (inst0 : Orderer) (cfg : Option ApiError) (rest : List Event),
      (Reconcile env c request s).calls =
        Event.checkConfig cfg :: Event.getOrderer request (.ok inst0) :: rest ∧
      ReachesStatefulSet env c request inst0 (Reconcile env c request s) := by
  unfold Reconcile at h ⊢
  simp only [] at h ⊢
  split at h
  · simp at h
  · split at h
    · simp at h
    · simp at h
    · rename_i inst0 hgot
      simp only [after_calls, List.mem_append, List.mem_cons, List.mem_singleton,
        List.not_mem_nil, or_false, false_or, reduceCtorEq] at h
      refine ⟨inst0, (c.CheckAndCreateConfigMap request s).1,
        (reconcileSecret env c request inst0
          (c.GetOrderer request (c.CheckAndCreateConfigMap request s).2).2).calls, ?_,
        reaches_after _ (by simp)
          (secret_reaches env c request inst0 _ sts ans h)⟩
      simp only [after_calls, List.cons_append, List.nil_append, hgot]

theorem sts_create_answer {σ : Type} (env : Env) (c : Client σ) (request : Request)
    (inst : Orderer) (s : σ) (sts : StatefulSet) (ans : Option ApiError)
    (h : Event.createStatefulSet sts ans ∈ (reconcileStatefulSet env c request inst s).calls) :
    Event.getStatefulSet request (.error ApiError.notFound) ∈
      (reconcileStatefulSet env c request inst s).calls ∧
    (ans = none ∨ ans = some ApiError.alreadyExists →
      (reconcileStatefulSet env c request inst s).outcome = Outcome.done) ∧
    (∀ err, ans = some err → err ≠ ApiError.alreadyExists →
      (reconcileStatefulSet env c request inst s).outcome = Outcome.fatal err) := by
  unfold reconcileStatefulSet at h ⊢
  simp only [] at h ⊢
  split at h
  · rename_i hgot
    split at h
    · split at h
      · rename_i err hmade
        split at h
        · rename_i hae
          simp at h
          simp [hgot, h.2, hmade, hae]
        · rename_i hae
          simp at h
          simp [hgot, h.2, hmade, hae]
      · rename_i hmade
        simp at h
        simp [hgot, h.2, hmade]
    · simp at h
  · simp at h
  · simp at h

/-- C8: when a pass issues the create of the stateful set, the instance it holds has a
non-empty access point, and either that instance is the one the pass fetched at its start
(the access point was not computed in this pass), or the trace shows, before the create, the
status update of exactly that instance answered without error. -/
theorem C8_workload_needs_access_point {σ : Type} (env : Env) (c : Client σ)
    (request : Request) (s : σ) (sts : StatefulSet) (ans : Option ApiError)
    (h : Event.createStatefulSet sts ans ∈ (Reconcile env c request s).calls) :
    ∃ inst, (Reconcile env c request s).held = some inst ∧
      inst.Status.AccessPoint ≠ "" ∧
      ((∃ cfg rest, (Reconcile env c request s).calls =
          Event.checkConfig cfg :: Event.getOrderer request (.ok inst) :: rest) ∨
       (∃ pre post, (Reconcile env c request s).calls =
          pre ++ Event.statusUpdate inst none :: post ∧
          Event.createStatefulSet sts ans ∈ post)) := by
  obtain ⟨inst0, cfg, rest, hcalls, inst, s1, pre, hp, hpre, hap, hor⟩ :=
    reconcile_reaches env c request s sts ans h
  refine ⟨inst, ?_, hap, ?_⟩
  · rw [hp, after_held, sts_held]
  · rcases hor with h1 | ⟨pre0, h1⟩
    · exact Or.inl ⟨cfg, rest, by rw [hcalls, h1]⟩
    · refine Or.inr ⟨pre0, (reconcileStatefulSet env c request inst s1).calls, ?_, ?_⟩
      · rw [hp, after_calls, h1, List.append_assoc]
        rfl
      · rw [hp, after_calls] at h
        rcases List.mem_append.1 h with h2 | h2
        · exact absurd h2 (hpre sts ans)
        · exact h2

/-- C9: when the create of the stateful set is answered AlreadyExists, the pass had found
no stateful set and returns done (no error, no retry), which is also what it returns when
the create is answered without error. -/
theorem C9_already_exists_is_done {σ : Type} (env : Env) (c : Client σ)
    (request : Request) (s : σ) (sts : StatefulSet) (ans : Option ApiError)
    (h : Event.createStatefulSet sts ans ∈ (Reconcile env c request s).calls)
    (hans : ans = none ∨ ans = some ApiError.alreadyExists) :
    (Reconcile env c request s).outcome = Outcome.done ∧
    Event.getStatefulSet request (.error ApiError.notFound) ∈
      (Reconcile env c request s).calls := by
  obtain ⟨inst0, cfg, rest, -, inst, s1, pre, hp, hpre, -, -⟩ :=
    reconcile_reaches env c request s sts ans h
  rw [hp, after_calls] at h
  have h2 : Event.createStatefulSet sts ans ∈
      (reconcileStatefulSet env c request inst s1).calls := by
    rcases List.mem_append.1 h with h2 | h2
    · exact absurd h2 (hpre sts ans)
    · exact h2
  obtain ⟨hget, hdone, -⟩ := sts_create_answer env c request inst s1 sts ans h2
  rw [hp]
  exact ⟨hdone hans, List.mem_append_right _ hget⟩

/-- The stateful set of the sample request, as the factory builds it. -/
theorem demoStatefulSet_built :
    newSTSForCR demoEnv demoOrderer demoRequest = .ok (some demoStatefulSet) ∧
    newSTSForCR demoEnv settledOrderer demoRequest = .ok (some demoStatefulSet) := by
  decide

/-- The sample pass creates the stateful set after it has written the access point. -/
theorem C8_workload_needs_access_point_witness :
    Event.createStatefulSet demoStatefulSet none ∈
      (Reconcile demoEnv clusterClient demoRequest demoCluster).calls ∧
    ∃ inst, (Reconcile demoEnv clusterClient demoRequest demoCluster).held = some inst ∧
      inst.Status.AccessPoint ≠ "" ∧
      ((∃ cfg rest, (Reconcile demoEnv clusterClient demoRequest demoCluster).calls =
          Event.checkConfig cfg :: Event.getOrderer demoRequest (.ok inst) :: rest) ∨
       (∃ pre post, (Reconcile demoEnv clusterClient demoRequest demoCluster).calls =
          pre ++ Event.statusUpdate inst none :: post ∧
          Event.createStatefulSet demoStatefulSet none ∈ post)) :=
  ⟨by decide,
    C8_workload_needs_access_point demoEnv clusterClient demoRequest demoCluster
      demoStatefulSet none (by decide)⟩

/-- A stale read of the stateful set: the lookup answers NotFound, the create answers
AlreadyExists, the pass returns done. -/
theorem C9_already_exists_is_done_witness :
    Event.createStatefulSet demoStatefulSet (some ApiError.alreadyExists) ∈
      (Reconcile demoEnv (laggingClient false false true) demoRequest racedCluster).calls ∧
    (Reconcile demoEnv (laggingClient false false true) demoRequest racedCluster).outcome =
      Outcome.done ∧
    Event.getStatefulSet demoRequest (.error ApiError.notFound) ∈
      (Reconcile demoEnv (laggingClient false false true) demoRequest racedCluster).calls :=
  ⟨by decide,
    C9_already_exists_is_done demoEnv (laggingClient false false true) demoRequest racedCluster
      demoStatefulSet (some ApiError.alreadyExists) (by decide) (Or.inr rfl)⟩

/-! ## The credential bundle (C4, C6, C7) -/

theorem utf8EncodeChar_ne_nil (c : Char) : String.utf8EncodeChar c ≠ [] := by
  unfold String.utf8EncodeChar
  simp only []
  split_ifs <;> simp

theorem bytesOf_eq_nil (s : String) : bytesOf s = [] ↔ s = "" := by
  rcases s with ⟨cs⟩
  cases cs with
  | nil => simp [bytesOf]
  | cons ch cs =>
    simp [bytesOf, utf8EncodeChar_ne_nil]
    intro h
    exact absurd (congrArg String.data h) (by simp)

theorem len_eq_zero (s : String) : len s = 0 ↔ s = "" := by
  rcases s with ⟨cs⟩
  cases cs with
  | nil => simp [len, String.utf8ByteSize, String.utf8ByteSize.go]
  | cons ch cs =>
    have := Char.utf8Size_pos ch
    simp [len, String.utf8ByteSize, String.utf8ByteSize.go]
    constructor
    · omega
    · intro h
      exact absurd (congrArg String.data h) (by simp)

theorem missingEntry_iff (spec : OrdererSpec) :
    missingEntry spec = true ↔
      spec.AdminCerts = [] ∨ spec.CaCerts = [] ∨ spec.KeyStore = "" ∨ spec.SignCerts = "" ∨
      spec.TLSCacerts = [] ∨ spec.TLS.TLSCert = "" ∨ spec.TLS.TLSKey = "" := by
  simp [missingEntry, len_eq_zero, or_assoc]

/-- C4: with a secret template, newSecretForCR returns no bundle exactly when one of the
seven required inputs (admin certificates, CA certificates, key store, sign certificate,
TLS CA certificates, TLS certificate, TLS key) is empty, and returns a bundle when all
seven are non-empty. -/
theorem C4_bundle_iff_complete (env : Env) (cr : Orderer) (request : Request) (t : Secret)
    (htemplate : (env.GetObjectFromTemplate "orderer/orderer_secret.yaml").1 = Object.secret t) :
    (newSecretForCR env cr request = none ↔
      cr.Spec.AdminCerts = [] ∨ cr.Spec.CaCerts = [] ∨ cr.Spec.KeyStore = "" ∨
      cr.Spec.SignCerts = "" ∨ cr.Spec.TLSCacerts = [] ∨ cr.Spec.TLS.TLSCert = "" ∨
      cr.Spec.TLS.TLSKey = "") ∧
    (cr.Spec.AdminCerts ≠ [] ∧ cr.Spec.CaCerts ≠ [] ∧ cr.Spec.KeyStore ≠ "" ∧
      cr.Spec.SignCerts ≠ "" ∧ cr.Spec.TLSCacerts ≠ [] ∧ cr.Spec.TLS.TLSCert ≠ "" ∧
      cr.Spec.TLS.TLSKey ≠ "" →
      ∃ secret, newSecretForCR env cr request = some secret) := by
  have hiff := missingEntry_iff cr.Spec
  unfold newSecretForCR
  rw [htemplate]
  simp only []
  by_cases hm : missingEntry cr.Spec = true
  · simp only [hm, if_true, true_iff]
    refine ⟨hiff.1 hm, ?_⟩
    intro hall
    have := hiff.1 hm
    tauto
  · simp only [hm]
    refine ⟨?_, fun _ => ⟨_, rfl⟩⟩
    constructor
    · intro h
      simp at h
    · intro h
      exact absurd (hiff.2 h) hm

/-- The sample spec without a TLS key yields no bundle; the complete sample spec yields
one. -/
theorem C4_bundle_iff_complete_witness :
    (demoEnv.GetObjectFromTemplate "orderer/orderer_secret.yaml").1 =
      Object.secret { Namespace := "", Name := "", Data := [], Owner := none } ∧
    newSecretForCR demoEnv
      (demoOrdererWith { demoSpec with TLS := { TLSCert := "tlscert", TLSKey := "" } })
      demoRequest = none ∧
    (newSecretForCR demoEnv demoOrderer demoRequest).isSome = true ∧
    ((newSecretForCR demoEnv demoOrderer demoRequest = none ↔
      demoOrderer.Spec.AdminCerts = [] ∨ demoOrderer.Spec.CaCerts = [] ∨
      demoOrderer.Spec.KeyStore = "" ∨ demoOrderer.Spec.SignCerts = "" ∨
      demoOrderer.Spec.TLSCacerts = [] ∨ demoOrderer.Spec.TLS.TLSCert = "" ∨
      demoOrderer.Spec.TLS.TLSKey = "") ∧
    (demoOrderer.Spec.AdminCerts ≠ [] ∧ demoOrderer.Spec.CaCerts ≠ [] ∧
      demoOrderer.Spec.KeyStore ≠ "" ∧ demoOrderer.Spec.SignCerts ≠ "" ∧
      demoOrderer.Spec.TLSCacerts ≠ [] ∧ demoOrderer.Spec.TLS.TLSCert ≠ "" ∧
      demoOrderer.Spec.TLS.TLSKey ≠ "" →
      ∃ secret, newSecretForCR demoEnv demoOrderer demoRequest = some secret)) :=
  ⟨by decide, by decide, by decide,
    C4_bundle_iff_complete demoEnv demoOrderer demoRequest
      { Namespace := "", Name := "", Data := [], Owner := none } (by decide)⟩

theorem mapGet_mapSet_same {α : Type} (m : GoMap α) (k : String) (v : α) :
    mapGet (mapSet m k v) k = some v := by
  induction m with
  | nil => simp [mapSet, mapGet]
  | cons e rest ih =>
    obtain ⟨k0, v0⟩ := e
    by_cases h : k0 = k
    · simp [mapSet, mapGet, h]
    · simp [mapSet, mapGet, h, ih]

theorem mapGet_mapSet_ne {α : Type} (m : GoMap α) (k k1 : String) (v : α) (hne : k ≠ k1) :
    mapGet (mapSet m k v) k1 = mapGet m k1 := by
  induction m with
  | nil => simp [mapSet, mapGet, hne]
  | cons e rest ih =>
    obtain ⟨k0, v0⟩ := e
    by_cases h : k0 = k
    · subst h
      simp [mapSet, mapGet, hne]
    · by_cases h1 : k0 = k1
      · subst h1
        simp [mapSet, mapGet, h]
      · simp [mapSet, mapGet, h, h1, ih]

theorem mapGet_foldl_ne (env : Env) (key k1 : String)
    (hne : ∀ i : Nat, key ++ Itoa i ≠ k1) (l : List (Nat × String)) (data : GoMap Bytes) :
    mapGet (l.foldl (fun d ix => mapSet d (key ++ Itoa ix.1) (env.DecodeString ix.2).1) data) k1
      = mapGet data k1 := by
  induction l generalizing data with
  | nil => rfl
  | cons ix rest ih =>
    simp only [List.foldl_cons]
    rw [ih, mapGet_mapSet_ne _ _ _ _ (hne ix.1)]

theorem mapGet_decodeIndexed_ne (env : Env) (key k1 : String)
    (hne : ∀ i : Nat, key ++ Itoa i ≠ k1) (xs : List String) (data : GoMap Bytes) :
    mapGet (decodeIndexed env key xs data) k1 = mapGet data k1 :=
  mapGet_foldl_ne env key k1 hne xs.enum data

theorem append_ne_of_head {a b k : String} {x y : Char} {xs ys : List Char}
    (ha : a.data = x :: xs) (hk : k.data = y :: ys) (hxy : x ≠ y) : a ++ b ≠ k := by
  intro h
  have := congrArg String.data h
  rw [String.data_append, ha, hk] at this
  simp at this
  exact hxy this.1

theorem secretData_mspid (env : Env) (spec : OrdererSpec) :
    mapGet (secretData env spec) "mspid" = some (mspid env (env.DecodeString spec.SignCerts).1) := by
  unfold secretData
  simp only []
  rw [mapGet_mapSet_ne _ _ _ _ (by decide), mapGet_mapSet_ne _ _ _ _ (by decide),
    mapGet_decodeIndexed_ne env "tlscacert" "mspid"
      (fun i => append_ne_of_head (x := 't') (y := 'm') rfl rfl (by decide)),
    mapGet_mapSet_same, mapGet_mapSet_same]
  rfl

theorem newSecretForCR_data (env : Env) (cr : Orderer) (request : Request) (secret : Secret)
    (h : newSecretForCR env cr request = some secret) :
    secret.Data = secretData env cr.Spec := by
  unfold newSecretForCR at h
  split at h
  · split at h
    · simp at h
    · simp only [Option.some.injEq] at h
      rw [← h]
  · simp at h

/-- C6: in the bundle that newSecretForCR returns, the entry "mspid" is the first entry of
the subject organization list when the decoded sign certificate has a PEM block that parses
and that list is non-empty; otherwise the first entry of the issuer organization list when
that list is non-empty; and the placeholder "SampleOrgMSPID" when both lists are empty,
when there is no PEM block, or when the block does not parse. -/
theorem C6_identity_label (env : Env) (cr : Orderer) (request : Request) (secret : Secret)
    (h : newSecretForCR env cr request = some secret) :
    (∀ block cert org rest,
      env.pemDecode (env.DecodeString cr.Spec.SignCerts).1 = some block →
      env.ParseCertificate block = some cert → cert.Subject.Organization = org :: rest →
      mapGet secret.Data "mspid" = some (bytesOf org)) ∧
    (∀ block cert org rest,
      env.pemDecode (env.DecodeString cr.Spec.SignCerts).1 = some block →
      env.ParseCertificate block = some cert → cert.Subject.Organization = [] →
      cert.Issuer.Organization = org :: rest →
      mapGet secret.Data "mspid" = some (bytesOf org)) ∧
    (∀ block cert,
      env.pemDecode (env.DecodeString cr.Spec.SignCerts).1 = some block →
      env.ParseCertificate block = some cert → cert.Subject.Organization = [] →
      cert.Issuer.Organization = [] →
      mapGet secret.Data "mspid" = some (bytesOf "SampleOrgMSPID")) ∧
    (env.pemDecode (env.DecodeString cr.Spec.SignCerts).1 = none →
      mapGet secret.Data "mspid" = some (bytesOf "SampleOrgMSPID")) ∧
    (∀ block,
      env.pemDecode (env.DecodeString cr.Spec.SignCerts).1 = some block →
      env.ParseCertificate block = none →
      mapGet secret.Data "mspid" = some (bytesOf "SampleOrgMSPID")) := by
  rw [newSecretForCR_data env cr request secret h, secretData_mspid]
  refine ⟨?_, ?_, ?_, ?_, ?_⟩
  · intro block cert org rest h1 h2 h3
    simp [mspid, h1, h2, h3]
  · intro block cert org rest h1 h2 h3 h4
    simp [mspid, h1, h2, h3, h4]
  · intro block cert h1 h2 h3 h4
    simp [mspid, h1, h2, h3, h4]
  · intro h1
    simp [mspid, h1]
  · intro block h1 h2
    simp [mspid, h1, h2]

/-- The three sample certificates: Subject.Organization = ["OrgA"] gives "OrgA", an empty
subject list with Issuer.Organization = ["OrgB"] gives "OrgB", an unparsable sign
certificate gives the placeholder. -/
theorem identity_label_examples :
    (newSecretForCR demoEnv demoOrderer demoRequest).map (fun b => mapGet b.Data "mspid")
      = some (some (bytesOf "OrgA")) ∧
    (newSecretForCR demoEnv (demoOrdererWith { demoSpec with SignCerts := "cert-OrgB" })
      demoRequest).map (fun b => mapGet b.Data "mspid") = some (some (bytesOf "OrgB")) ∧
    (newSecretForCR demoEnv (demoOrdererWith { demoSpec with SignCerts := "garbage" })
      demoRequest).map (fun b => mapGet b.Data "mspid")
      = some (some (bytesOf "SampleOrgMSPID")) ∧
    (newSecretForCR demoEnv (demoOrdererWith { demoSpec with SignCerts := "!" })
      demoRequest).map (fun b => mapGet b.Data "mspid")
      = some (some (bytesOf "SampleOrgMSPID")) := by
  decide

/-- The sample bundle: its sign certificate parses with Subject.Organization = ["OrgA"]. -/
theorem C6_identity_label_witness :
    newSecretForCR demoEnv demoOrderer demoRequest =
      some { Namespace := "fabric", Name := "orderer0-secret"
             Data := secretData demoEnv demoSpec
             Owner := some { Name := "orderer0" } } ∧
    mapGet (secretData demoEnv demoSpec) "mspid" = some (bytesOf "OrgA") :=
  ⟨by decide,
    (C6_identity_label demoEnv demoOrderer demoRequest
      { Namespace := "fabric", Name := "orderer0-secret"
        Data := secretData demoEnv demoSpec
        Owner := some { Name := "orderer0" } } (by decide)).1
      (bytesOf "cert-OrgA") { Subject := ⟨["OrgA"]⟩, Issuer := ⟨["RootCA"]⟩ } "OrgA" []
      (by decide) (by decide) rfl⟩

/-- C7 as stated fails: a sign certificate that parses with Subject.Organization = [""]
and Issuer.Organization = ["OrgB"] gets the empty identity label, while the first
non-empty organization name is "OrgB". -/
theorem C7_counterexample :
    demoEnv.pemDecode (demoEnv.DecodeString "cert-blank").1 = some (bytesOf "cert-blank") ∧
    demoEnv.ParseCertificate (bytesOf "cert-blank") = some blankCertificate ∧
    claimedIdentity blankCertificate = "OrgB" ∧
    (newSecretForCR demoEnv (demoOrdererWith { demoSpec with SignCerts := "cert-blank" })
      demoRequest).map (fun b => mapGet b.Data "mspid") = some (some [])  ∧
    (newSecretForCR demoEnv (demoOrdererWith { demoSpec with SignCerts := "cert-blank" })
      demoRequest).map (fun b => mapGet b.Data "mspid")
      ≠ some (some (bytesOf (claimedIdentity blankCertificate))) := by
  decide

/-- C7, amended: for a sign certificate that parses and whose first organization entry (the
first of the subject list or, when that list is empty, the first of the issuer list) is not
the empty string, the identity label is the first non-empty organization name found in the
subject and then in the issuer, the placeholder if both lists are empty, and is not empty.
The entries after the first may be any strings. -/
theorem C7_identity_label_non_empty (env : Env) (cr : Orderer) (request : Request)
    (secret : Secret) (block : Bytes) (cert : Certificate)
    (h : newSecretForCR env cr request = some secret)
    (hpem : env.pemDecode (env.DecodeString cr.Spec.SignCerts).1 = some block)
    (hparse : env.ParseCertificate block = some cert)
    (hfirst : (cert.Subject.Organization ++ cert.Issuer.Organization).head? ≠ some "") :
    mapGet secret.Data "mspid" = some (bytesOf (claimedIdentity cert)) ∧
    mapGet secret.Data "mspid" ≠ some [] ∧
    bytesOf (claimedIdentity cert) ≠ [] := by
  rw [newSecretForCR_data env cr request secret h, secretData_mspid]
  have hlabel : mspid env (env.DecodeString cr.Spec.SignCerts).1
      = bytesOf (claimedIdentity cert) := by
    unfold mspid claimedIdentity
    simp only [hpem, hparse]
    cases hs : cert.Subject.Organization with
    | cons org rest =>
      have : org ≠ "" := by
        intro hempty
        exact hfirst (by simp [hs, hempty])
      simp [this]
    | nil =>
      cases hi : cert.Issuer.Organization with
      | cons org rest =>
        have : org ≠ "" := by
          intro hempty
          exact hfirst (by simp [hs, hi, hempty])
        simp [this]
      | nil => simp
  have hne : bytesOf (claimedIdentity cert) ≠ [] := by
    intro hempty
    have hstr := (bytesOf_eq_nil _).1 hempty
    unfold claimedIdentity at hstr
    cases hf : (cert.Subject.Organization ++ cert.Issuer.Organization).find? (fun org => org ≠ "") with
    | none =>
      rw [hf] at hstr
      simp at hstr
    | some org =>
      rw [hf] at hstr
      have hp := List.find?_some hf
      simp only [Option.getD_some] at hstr
      simp [hstr] at hp
  refine ⟨by rw [hlabel], ?_, hne⟩
  rw [hlabel]
  intro hsame
  exact hne (Option.some.inj hsame)

/-- The sample certificate with Subject.Organization = ["OrgA", ""] and
Issuer.Organization = [""]: empty strings after the first entry, the label is "OrgA". -/
theorem C7_identity_label_non_empty_witness :
    newSecretForCR demoEnv (demoOrdererWith { demoSpec with SignCerts := "cert-mixed" })
      demoRequest = some (mixedSecret) ∧
    demoEnv.ParseCertificate (bytesOf "cert-mixed") = some mixedCertificate ∧
    (mixedCertificate.Subject.Organization ++ mixedCertificate.Issuer.Organization)
      = ["OrgA", "", ""] ∧
    claimedIdentity mixedCertificate = "OrgA" ∧
    mapGet mixedSecret.Data "mspid" = some (bytesOf (claimedIdentity mixedCertificate)) ∧
    mapGet mixedSecret.Data "mspid" ≠ some [] ∧
    bytesOf (claimedIdentity mixedCertificate) ≠ [] :=
  ⟨by decide, by decide, by decide, by decide,
    C7_identity_label_non_empty demoEnv
      (demoOrdererWith { demoSpec with SignCerts := "cert-mixed" }) demoRequest
      mixedSecret (bytesOf "cert-mixed") mixedCertificate
      (by decide) (by decide) (by decide) (by decide)⟩

/-- The condition on the first organization entry is needed: whenever the first entry of a
parsed sign certificate is the empty string, the identity label is empty, whatever the later
entries are. -/
theorem empty_first_organization_gives_empty_label (env : Env) (cr : Orderer)
    (request : Request) (secret : Secret) (block : Bytes) (cert : Certificate)
    (h : newSecretForCR env cr request = some secret)
    (hpem : env.pemDecode (env.DecodeString cr.Spec.SignCerts).1 = some block)
    (hparse : env.ParseCertificate block = some cert)
    (hfirst : (cert.Subject.Organization ++ cert.Issuer.Organization).head? = some "") :
    mapGet secret.Data "mspid" = some [] := by
  rw [newSecretForCR_data env cr request secret h, secretData_mspid]
  unfold mspid
  simp only [hpem, hparse]
  cases hs : cert.Subject.Organization with
  | cons org rest =>
    simp only [hs, List.cons_append, List.head?_cons, Option.some.injEq] at hfirst
    subst hfirst
    rfl
  | nil =>
    cases hi : cert.Issuer.Organization with
    | cons org rest =>
      simp only [hs, hi, List.nil_append, List.head?_cons, Option.some.injEq] at hfirst
      subst hfirst
      rfl
    | nil => simp [hs, hi] at hfirst

/-! ## A failed validation and the answers to a create (C5, C10) -/

theorem sts_calls_kind {σ : Type} (env : Env) (c : Client σ) (request : Request)
    (inst : Orderer) (s : σ) :
    ∀ e ∈ (reconcileStatefulSet env c request inst s).calls, 8 ≤ e.kind := by
  unfold reconcileStatefulSet
  simp only []
  repeat' split
  all_goals simp [Event.kind]

theorem status_calls_kind {σ : Type} (env : Env) (c : Client σ) (request : Request)
    (inst : Orderer) (port : ServicePort) (s : σ) :
    ∀ e ∈ (reconcileStatus env c request inst port s).calls, e.kind = 1 ∨ 6 ≤ e.kind := by
  have hsts : ∀ (inst1 : Orderer) (s1 : σ),
      ∀ e ∈ (reconcileStatefulSet env c request inst1 s1).calls, e.kind = 1 ∨ 6 ≤ e.kind :=
    fun inst1 s1 e he => Or.inr (le_trans (by decide) (sts_calls_kind env c request inst1 s1 e he))
  by_cases hap : inst.Status.AccessPoint = ""
  · by_cases hp : port.NodePort > 0
    · unfold reconcileStatus
      simp only [hap, hp, if_true]
      split
      · simp [Event.kind]
      · simp only [after_calls, List.forall_mem_append]
        exact ⟨by simp [Event.kind], hsts _ _⟩
    · simp [reconcileStatus, hap, hp]
  · unfold reconcileStatus
    simp only [hap, if_false]
    exact hsts _ _

theorem ports_calls_kind {σ : Type} (env : Env) (c : Client σ) (request : Request)
    (inst : Orderer) (found : Service) (s : σ) :
    ∀ e ∈ (reconcilePorts env c request inst found s).calls, e.kind = 1 ∨ 4 ≤ e.kind := by
  intro e he
  unfold reconcilePorts at he
  split at he
  · simp at he
  · rcases status_calls_kind env c request inst _ s e he with h | h
    · exact Or.inl h
    · exact Or.inr (le_trans (by decide) h)

theorem service_calls_kind {σ : Type} (env : Env) (c : Client σ) (request : Request)
    (inst : Orderer) (s : σ) :
    ∀ e ∈ (reconcileService env c request inst s).calls, e.kind = 1 ∨ 4 ≤ e.kind := by
  have hports := ports_calls_kind env c request inst
  unfold reconcileService
  simp only []
  split
  · split
    · split
      · simp [Event.kind]
      · simp only [after_calls, List.forall_mem_append]
        exact ⟨by simp [Event.kind], hports _ _⟩
    · simp [Event.kind]
  · simp [Event.kind]
  · simp only [after_calls, List.forall_mem_append]
    exact ⟨by simp [Event.kind], hports _ _⟩

theorem service_calls_head {σ : Type} (env : Env) (c : Client σ) (request : Request)
    (inst : Orderer) (s : σ) :
    ∃ got more, (reconcileService env c request inst s).calls =
      Event.getService request got :: more := by
  unfold reconcileService
  simp only []
  split
  · split
    · split
      · exact ⟨_, _, rfl⟩
      · exact ⟨_, _, rfl⟩
    · exact ⟨_, _, rfl⟩
  · exact ⟨_, _, rfl⟩
  · exact ⟨_, _, rfl⟩

theorem secret_calls_on_failure {σ : Type} (env : Env) (c : Client σ) (request : Request)
    (inst : Orderer) (s : σ) (key : NamespacedName) (rest : List Event)
    (hcalls : (reconcileSecret env c request inst s).calls =
      Event.getSecret key (.error ApiError.notFound) :: rest) :
    ∃ ans, (∀ obj ans1, Event.createSecret obj ans1 ∈ rest →
        obj = newSecretForCR env inst request ∧ ans1 = ans) ∧
      ∃ tail, rest = Event.createSecret (newSecretForCR env inst request) ans :: tail ∧
      (ans = none → ∃ got more, tail = Event.getService request got :: more) ∧
      (∀ err, ans = some err →
        tail = [] ∧ (reconcileSecret env c request inst s).outcome = Outcome.fatal err) := by
  have hkind := service_calls_kind env c request inst
  unfold reconcileSecret at hcalls ⊢
  simp only [] at hcalls ⊢
  split at hcalls
  · rename_i hgot
    split at hcalls
    · rename_i err hmade
      simp only [List.cons.injEq] at hcalls
      obtain ⟨-, hrest⟩ := hcalls
      subst hrest
      refine ⟨some err, ?_, [], by rw [hmade], by simp, ?_⟩
      · intro obj ans1 hmem
        simp only [List.mem_singleton, Event.createSecret.injEq] at hmem
        rw [← hmade]
        exact hmem
      · intro err1 herr
        simp only [Option.some.injEq] at herr
        subst herr
        exact ⟨rfl, rfl⟩
    · rename_i hmade
      simp only [after_calls, List.cons_append, List.nil_append, List.cons.injEq] at hcalls
      obtain ⟨-, hrest⟩ := hcalls
      subst hrest
      refine ⟨none, ?_, _, by rw [hmade], ?_, by simp⟩
      · intro obj ans1 hmem
        simp only [List.mem_cons, Event.createSecret.injEq] at hmem
        rcases hmem with hmem | hmem
        · rw [← hmade]
          exact hmem
        · have := hkind _ _ hmem
          simp [Event.kind] at this
      · intro _
        exact service_calls_head env c request inst _
  · rename_i hne
    simp only [after_calls, List.cons_append, List.nil_append, List.cons.injEq,
      Event.getSecret.injEq] at hcalls
    exact absurd hcalls.1.2 (by
      intro h
      exact hne h)

/-- C5 as stated fails: with the sample spec without a TLS key no bundle is built, yet the
pass calls Create with the nil bundle; the store answers with an error, the pass ends
there with that error and never looks the service up. -/
theorem C5_counterexample :
    newSecretForCR demoEnv (demoOrdererWith specWithoutTLSKey) demoRequest = none ∧
    (Reconcile demoEnv clusterClient demoRequest incompleteCluster).calls =
      [Event.checkConfig none,
       Event.getOrderer demoRequest (.ok (demoOrdererWith specWithoutTLSKey)),
       Event.getSecret { Namespace := "fabric", Name := "orderer0-secret" }
         (.error ApiError.notFound),
       Event.createSecret none (some (ApiError.other "expected pointer, but got nil"))] ∧
    (Reconcile demoEnv clusterClient demoRequest incompleteCluster).outcome =
      Outcome.fatal (ApiError.other "expected pointer, but got nil") ∧
    ¬ ((∀ obj ans, Event.createSecret obj ans ∉
          (Reconcile demoEnv clusterClient demoRequest incompleteCluster).calls) ∧
       ∃ ans, Event.getService demoRequest ans ∈
          (Reconcile demoEnv clusterClient demoRequest incompleteCluster).calls) := by
  refine ⟨by decide, by decide, by decide, ?_⟩
  intro h
  exact h.1 none (some (ApiError.other "expected pointer, but got nil")) (by decide)

/-- C5, amended: in a pass that finds no bundle and whose construction yields none, the
only create of a bundle is the call with the nil bundle, so no bundle description reaches
the cluster; when that call is answered without error the next call of the pass is the
lookup of the service, and when it is answered with an error the pass ends there with that
error as its fatal result. -/
theorem C5_validation_failure {σ : Type} (env : Env) (c : Client σ) (request : Request)
    (s : σ) (inst : Orderer) (cfg : Option ApiError) (key : NamespacedName)
    (rest : List Event)
    (hcalls : (Reconcile env c request s).calls =
      Event.checkConfig cfg :: Event.getOrderer request (.ok inst) ::
        Event.getSecret key (.error ApiError.notFound) :: rest)
    (hnone : newSecretForCR env inst request = none) :
    (∀ obj ans, Event.createSecret (some obj) ans ∉ (Reconcile env c request s).calls) ∧
    ∃ ans tail, rest = Event.createSecret none ans :: tail ∧
      (ans = none → ∃ got more, tail = Event.getService request got :: more) ∧
      (∀ err, ans = some err →
        tail = [] ∧ (Reconcile env c request s).outcome = Outcome.fatal err) := by
  have hrec := reconcile_of_fetched env c request s inst cfg _ hcalls
  rw [hrec] at hcalls ⊢
  simp only [after_calls, List.cons_append, List.nil_append, List.cons.injEq, true_and]
    at hcalls
  obtain ⟨ans, honly, tail, hrest, hok, herr⟩ :=
    secret_calls_on_failure env c request inst _ key rest hcalls
  rw [hnone] at honly hrest
  refine ⟨?_, ans, tail, hrest, hok, ?_⟩
  · intro obj ans1 hmem
    simp only [after_calls, List.cons_append, List.nil_append, hcalls, List.mem_cons,
      reduceCtorEq, false_or] at hmem
    have := (honly _ _ hmem).1
    simp at this
  · intro err he
    simpa using herr err he

/-- The sample pass on the cluster without a TLS key: the amended C5 at a concrete input. -/
theorem C5_validation_failure_witness :
    (Reconcile demoEnv clusterClient demoRequest incompleteCluster).calls =
      Event.checkConfig none ::
        Event.getOrderer demoRequest (.ok (demoOrdererWith specWithoutTLSKey)) ::
        Event.getSecret { Namespace := "fabric", Name := "orderer0-secret" }
          (.error ApiError.notFound) ::
        [Event.createSecret none (some (ApiError.other "expected pointer, but got nil"))] ∧
    newSecretForCR demoEnv (demoOrdererWith specWithoutTLSKey) demoRequest = none ∧
    (∀ obj ans, Event.createSecret (some obj) ans ∉
      (Reconcile demoEnv clusterClient demoRequest incompleteCluster).calls) ∧
    ∃ ans tail,
      [Event.createSecret none (some (ApiError.other "expected pointer, but got nil"))] =
        Event.createSecret none ans :: tail ∧
      (ans = none → ∃ got more, tail = Event.getService demoRequest got :: more) ∧
      (∀ err, ans = some err →
        tail = [] ∧
        (Reconcile demoEnv clusterClient demoRequest incompleteCluster).outcome =
          Outcome.fatal err) :=
  ⟨by decide, by decide,
    C5_validation_failure demoEnv clusterClient demoRequest incompleteCluster
      (demoOrdererWith specWithoutTLSKey) none
      { Namespace := "fabric", Name := "orderer0-secret" }
      [Event.createSecret none (some (ApiError.other "expected pointer, but got nil"))]
      (by decide) (by decide)⟩

/-- C10 at its failing inputs: the bundle, respectively the service, exists in the store
but the lookup through a lagging cache answers NotFound; the create is answered
AlreadyExists and the pass ends with that answer as a fatal error, at the create of the
secret (line 146) and at the create of the service (line 163). The same race on the
stateful set ends in done (line 212). -/
theorem C10_already_exists_is_fatal :
    (Reconcile demoEnv (laggingClient true false false) demoRequest racedBundleCluster).outcome
      = Outcome.fatal ApiError.alreadyExists ∧
    (Reconcile demoEnv (laggingClient true false false) demoRequest racedBundleCluster).calls
      = [Event.checkConfig none, Event.getOrderer demoRequest (.ok demoOrderer),
         Event.getSecret { Namespace := "fabric", Name := "orderer0-secret" }
           (.error ApiError.notFound),
         Event.createSecret (newSecretForCR demoEnv demoOrderer demoRequest)
           (some ApiError.alreadyExists)] ∧
    (Reconcile demoEnv (laggingClient false true false) demoRequest racedBundleCluster).outcome
      = Outcome.fatal ApiError.alreadyExists ∧
    (Reconcile demoEnv (laggingClient false true false) demoRequest
      racedBundleCluster).calls.map Event.kind = [0, 1, 2, 4, 5] ∧
    (Reconcile demoEnv (laggingClient false true false) demoRequest
      racedBundleCluster).calls.getLast? =
      some (Event.createService
        { demoServiceTemplate with
          Namespace := "fabric", Name := "orderer0"
          Labels := some [("k8s-app", "orderer0")], Selector := some [("k8s-app", "orderer0")]
          Owner := some { Name := "orderer0" } }
        (some ApiError.alreadyExists)) ∧
    (Reconcile demoEnv (laggingClient false false true) demoRequest racedCluster).outcome
      = Outcome.done := by
  decide

/-! ## Idempotence on the cluster store (C3) -/

theorem sameDesired_refl (a : Orderer) : SameDesired a a := ⟨rfl, rfl, rfl⟩

theorem newSTSForCR_congr (env : Env) (request : Request) {a b : Orderer}
    (h : SameDesired a b) : newSTSForCR env b request = newSTSForCR env a request := by
  obtain ⟨ns, name, spec, st⟩ := a
  obtain ⟨ns1, name1, spec1, st1⟩ := b
  obtain ⟨h1, h2, h3⟩ := h
  simp only at h1 h2 h3
  subst h1 h2 h3
  rfl

theorem newSTSForCR_key (env : Env) (cr : Orderer) (request : Request) (sts : StatefulSet)
    (h : newSTSForCR env cr request = .ok (some sts)) :
    sts.Namespace = request.Namespace ∧ sts.Name = request.Name := by
  unfold newSTSForCR at h
  simp only [] at h
  repeat' split at h
  all_goals first
    | (simp only [Except.ok.injEq, Option.some.injEq] at h
       rw [← h]
       exact ⟨rfl, rfl⟩)
    | simp at h

theorem newServiceForCR_key (env : Env) (cr : Orderer) (request : Request) (svc : Service)
    (h : newServiceForCR env cr request = .ok (some svc)) :
    svc.Namespace = request.Namespace ∧ svc.Name = request.Name := by
  unfold newServiceForCR at h
  repeat' split at h
  all_goals first
    | (simp only [Except.ok.injEq, Option.some.injEq] at h
       rw [← h]
       exact ⟨rfl, rfl⟩)
    | simp at h

theorem newSecretForCR_key (env : Env) (cr : Orderer) (request : Request) (secret : Secret)
    (h : newSecretForCR env cr request = some secret) :
    secret.Namespace = request.Namespace ∧ secret.Name = request.Name ++ "-secret" := by
  unfold newSecretForCR at h
  repeat' split at h
  all_goals first
    | (simp only [Option.some.injEq] at h
       rw [← h]
       exact ⟨rfl, rfl⟩)
    | simp at h

theorem sts_rerun (env : Env) (request : Request) (inst : Orderer) (s : Cluster) :
    SameSettings s (reconcileStatefulSet env clusterClient request inst s).state ∧
    (reconcileStatefulSet env clusterClient request inst s).state.orderers = s.orderers ∧
    (reconcileStatefulSet env clusterClient request inst s).state.secrets = s.secrets ∧
    (reconcileStatefulSet env clusterClient request inst s).state.services = s.services ∧
    ∀ inst1, SameDesired inst inst1 →
      (reconcileStatefulSet env clusterClient request inst1
        (reconcileStatefulSet env clusterClient request inst s).state).state =
      (reconcileStatefulSet env clusterClient request inst s).state := by
  cases hf : s.findStatefulSet request with
  | some found =>
    have hrun : ∀ inst0, (reconcileStatefulSet env clusterClient request inst0 s).state = s := by
      intro inst0
      simp [reconcileStatefulSet, clusterClient, hf, getAnswer]
    rw [hrun]
    exact ⟨⟨rfl, rfl, rfl⟩, rfl, rfl, rfl, fun inst1 _ => hrun inst1⟩
  | none =>
    cases hnew : newSTSForCR env inst request with
    | error e =>
      have hrun : ∀ inst0, SameDesired inst inst0 →
          (reconcileStatefulSet env clusterClient request inst0 s).state = s := by
        intro inst0 h0
        simp [reconcileStatefulSet, clusterClient, hf, getAnswer,
          newSTSForCR_congr env request h0, hnew]
      rw [hrun inst (sameDesired_refl inst)]
      exact ⟨⟨rfl, rfl, rfl⟩, rfl, rfl, rfl, fun inst1 h1 => hrun inst1 h1⟩
    | ok built =>
      cases built with
      | none =>
        have hrun : ∀ inst0, SameDesired inst inst0 →
            (reconcileStatefulSet env clusterClient request inst0 s).state = s := by
          intro inst0 h0
          simp [reconcileStatefulSet, clusterClient, hf, getAnswer,
            newSTSForCR_congr env request h0, hnew]
        rw [hrun inst (sameDesired_refl inst)]
        exact ⟨⟨rfl, rfl, rfl⟩, rfl, rfl, rfl, fun inst1 h1 => hrun inst1 h1⟩
      | some sts =>
        obtain ⟨hns, hname⟩ := newSTSForCR_key env inst request sts hnew
        have hf1 : s.findStatefulSet { Namespace := sts.Namespace, Name := sts.Name } = none := by
          rw [← hf]
          simp [Cluster.findStatefulSet, hns, hname]
        have hrun : (reconcileStatefulSet env clusterClient request inst s).state =
            { s with statefulSets := sts :: s.statefulSets } := by
          simp [reconcileStatefulSet, clusterClient, hf, getAnswer, hnew, hf1]
        rw [hrun]
        refine ⟨⟨rfl, rfl, rfl⟩, rfl, rfl, rfl, fun inst1 _ => ?_⟩
        have hf2 : Cluster.findStatefulSet { s with statefulSets := sts :: s.statefulSets }
            request = some sts := by
          simp [Cluster.findStatefulSet, hns, hname]
        simp [reconcileStatefulSet, clusterClient, hf2, getAnswer]

theorem findOrderer_key (s : Cluster) (request : Request) (inst : Orderer)
    (h : s.findOrderer request = some inst) :
    inst.Namespace = request.Namespace ∧ inst.Name = request.Name := by
  have := List.find?_some h
  simpa using this

theorem find_writeStatus (l : List Orderer) (request : Request) (inst obj : Orderer)
    (hns : obj.Namespace = request.Namespace) (hname : obj.Name = request.Name)
    (h : l.find? (fun o => decide (o.Namespace = request.Namespace ∧ o.Name = request.Name))
      = some inst) :
    (l.map (fun o =>
        if o.Namespace = obj.Namespace ∧ o.Name = obj.Name then { o with Status := obj.Status }
        else o)).find?
      (fun o => decide (o.Namespace = request.Namespace ∧ o.Name = request.Name))
      = some { inst with Status := obj.Status } := by
  induction l with
  | nil => simp at h
  | cons o rest ih =>
    by_cases hk : o.Namespace = request.Namespace ∧ o.Name = request.Name
    · have hin : o = inst := by
        simpa [List.find?_cons, hk] using h
      subst hin
      simp [List.find?_cons, hk, hns, hname]
    · have hrest : rest.find?
          (fun o => decide (o.Namespace = request.Namespace ∧ o.Name = request.Name))
          = some inst := by
        simpa [List.find?_cons, hk] using h
      simp only [List.map_cons, hns, hname, hk, if_false, List.find?_cons, decide_False]
      simpa [hns, hname] using ih hrest

theorem status_rerun (env : Env) (request : Request) (inst : Orderer) (port : ServicePort)
    (s : Cluster) (hfind : s.findOrderer request = some inst) :
    SameSettings s (reconcileStatus env clusterClient request inst port s).state ∧
    (reconcileStatus env clusterClient request inst port s).state.secrets = s.secrets ∧
    (reconcileStatus env clusterClient request inst port s).state.services = s.services ∧
    ∃ inst1, SameDesired inst inst1 ∧
      (reconcileStatus env clusterClient request inst port s).state.findOrderer request
        = some inst1 ∧
      (reconcileStatus env clusterClient request inst1 port
        (reconcileStatus env clusterClient request inst port s).state).state =
      (reconcileStatus env clusterClient request inst port s).state := by
  obtain ⟨hns, hname⟩ := findOrderer_key s request inst hfind
  by_cases hap : inst.Status.AccessPoint = ""
  · by_cases hp : port.NodePort > 0
    · -- the access point is computed and written
      have hfind1 : s.findOrderer { Namespace := inst.Namespace, Name := inst.Name }
          = some inst := by
        rw [← hfind]
        simp [Cluster.findOrderer, hns, hname]
      have hrun : reconcileStatus env clusterClient request inst port s =
          (reconcileStatefulSet env clusterClient request
            (written inst s port)
            { s with orderers := s.writeStatus (written inst s port) }).after
            [Event.getOrderer request (.ok inst), Event.getNodeIPs s.nodeIPs,
             Event.statusUpdate
               (written inst s port) none] := by
        simp [reconcileStatus, hap, hp, clusterClient, hfind, getAnswer, hfind1, written]
      rw [hrun, after_state]
      obtain ⟨hset, hord, hsec, hsvc, hre⟩ := sts_rerun env request
        (written inst s port)
        { s with orderers := s.writeStatus (written inst s port) }
      refine ⟨hset, hsec, hsvc, written inst s port, ⟨rfl, rfl, rfl⟩, ?_, ?_⟩
      · unfold Cluster.findOrderer
        rw [hord]
        exact find_writeStatus s.orderers request inst (written inst s port) hns hname hfind
      · have hne : (written inst s port).Status.AccessPoint ≠ "" :=
          accessPoint_ne_empty inst.Spec.Hosts s.nodeIPs.1 port.NodePort
        unfold reconcileStatus
        simp only [hne, if_false]
        exact hre _ (sameDesired_refl _)
    · have hrun : (reconcileStatus env clusterClient request inst port s).state = s := by
        simp [reconcileStatus, hap, hp]
      rw [hrun]
      exact ⟨⟨rfl, rfl, rfl⟩, rfl, rfl, inst, sameDesired_refl inst, hfind, hrun⟩
  · have hrun : ∀ t, reconcileStatus env clusterClient request inst port t =
        reconcileStatefulSet env clusterClient request inst t := by
      intro t
      simp [reconcileStatus, hap]
    rw [hrun]
    obtain ⟨hset, hord, hsec, hsvc, hre⟩ := sts_rerun env request inst s
    refine ⟨hset, hsec, hsvc, inst, sameDesired_refl inst, ?_, ?_⟩
    · unfold Cluster.findOrderer
      rw [hord]
      exact hfind
    · rw [hrun]
      exact hre inst (sameDesired_refl inst)

theorem ports_rerun (env : Env) (request : Request) (inst : Orderer) (found : Service)
    (s : Cluster) (hfind : s.findOrderer request = some inst) :
    SameSettings s (reconcilePorts env clusterClient request inst found s).state ∧
    (reconcilePorts env clusterClient request inst found s).state.secrets = s.secrets ∧
    (reconcilePorts env clusterClient request inst found s).state.services = s.services ∧
    ∃ inst1, SameDesired inst inst1 ∧
      (reconcilePorts env clusterClient request inst found s).state.findOrderer request
        = some inst1 ∧
      (reconcilePorts env clusterClient request inst1 found
        (reconcilePorts env clusterClient request inst found s).state).state =
      (reconcilePorts env clusterClient request inst found s).state := by
  cases hports : found.Ports with
  | nil =>
    have hrun : ∀ inst0 t, (reconcilePorts env clusterClient request inst0 found t).state = t := by
      intro inst0 t
      simp [reconcilePorts, hports]
    rw [hrun]
    exact ⟨⟨rfl, rfl, rfl⟩, rfl, rfl, inst, sameDesired_refl inst, hfind, hrun inst s⟩
  | cons port rest =>
    have hrun : ∀ inst0 t, reconcilePorts env clusterClient request inst0 found t =
        reconcileStatus env clusterClient request inst0 port t := by
      intro inst0 t
      simp [reconcilePorts, hports]
    simp only [hrun]
    exact status_rerun env request inst port s hfind

theorem service_found (env : Env) (request : Request) (inst : Orderer) (found : Service)
    (s : Cluster) (hf : s.findService request = some found) :
    (reconcileService env clusterClient request inst s).state =
      (reconcilePorts env clusterClient request inst found s).state := by
  simp [reconcileService, clusterClient, hf, getAnswer]

theorem service_rerun (env : Env) (request : Request) (inst : Orderer)
    (s : Cluster) (hfind : s.findOrderer request = some inst) :
    SameSettings s (reconcileService env clusterClient request inst s).state ∧
    (reconcileService env clusterClient request inst s).state.secrets = s.secrets ∧
    ∃ inst1, SameDesired inst inst1 ∧
      (reconcileService env clusterClient request inst s).state.findOrderer request
        = some inst1 ∧
      (reconcileService env clusterClient request inst1
        (reconcileService env clusterClient request inst s).state).state =
      (reconcileService env clusterClient request inst s).state := by
  cases hf : s.findService request with
  | some found =>
    rw [service_found env request inst found s hf]
    obtain ⟨hset, hsec, hsvc, inst1, hsame, hfind1, hre⟩ :=
      ports_rerun env request inst found s hfind
    refine ⟨hset, hsec, inst1, hsame, hfind1, ?_⟩
    rw [service_found env request inst1 found _ (by
      unfold Cluster.findService
      rw [hsvc]
      exact hf)]
    exact hre
  | none =>
    cases hnew : newServiceForCR env inst request with
    | error e =>
      have hrun : (reconcileService env clusterClient request inst s).state = s := by
        simp [reconcileService, clusterClient, hf, getAnswer, hnew]
      rw [hrun]
      exact ⟨⟨rfl, rfl, rfl⟩, rfl, inst, sameDesired_refl inst, hfind, hrun⟩
    | ok built =>
      cases built with
      | none =>
        have hrun : (reconcileService env clusterClient request inst s).state = s := by
          simp [reconcileService, clusterClient, hf, getAnswer, hnew]
        rw [hrun]
        exact ⟨⟨rfl, rfl, rfl⟩, rfl, inst, sameDesired_refl inst, hfind, hrun⟩
      | some svc =>
        obtain ⟨hns, hname⟩ := newServiceForCR_key env inst request svc hnew
        have hf1 : s.findService { Namespace := svc.Namespace, Name := svc.Name } = none := by
          rw [← hf]
          simp [Cluster.findService, hns, hname]
        have hf2 : Cluster.findService
            { s with services := { svc with Ports := s.assignNodePorts svc.Ports } :: s.services }
            request = some { svc with Ports := s.assignNodePorts svc.Ports } := by
          simp [Cluster.findService, hns, hname]
        have hrun : (reconcileService env clusterClient request inst s).state =
            (reconcilePorts env clusterClient request inst
              { svc with Ports := s.assignNodePorts svc.Ports }
              { s with services :=
                  { svc with Ports := s.assignNodePorts svc.Ports } :: s.services }).state := by
          simp [reconcileService, clusterClient, hf, getAnswer, hnew, hf1, hf2]
        rw [hrun]
        obtain ⟨hset, hsec, hsvc, inst1, hsame, hfind1, hre⟩ :=
          ports_rerun env request inst { svc with Ports := s.assignNodePorts svc.Ports }
            { s with services :=
                { svc with Ports := s.assignNodePorts svc.Ports } :: s.services } hfind
        refine ⟨hset, hsec, inst1, hsame, hfind1, ?_⟩
        rw [service_found env request inst1 { svc with Ports := s.assignNodePorts svc.Ports } _
          (by
            unfold Cluster.findService
            rw [hsvc]
            exact hf2)]
        exact hre

theorem secret_found (env : Env) (request : Request) (inst : Orderer) (found : Secret)
    (s : Cluster)
    (hf : s.findSecret { Namespace := request.Namespace, Name := request.Name ++ "-secret" }
      = some found) :
    (reconcileSecret env clusterClient request inst s).state =
      (reconcileService env clusterClient request inst s).state := by
  simp [reconcileSecret, clusterClient, hf, getAnswer]

theorem secret_rerun (env : Env) (request : Request) (inst : Orderer)
    (s : Cluster) (hfind : s.findOrderer request = some inst) :
    SameSettings s (reconcileSecret env clusterClient request inst s).state ∧
    ∃ inst1, SameDesired inst inst1 ∧
      (reconcileSecret env clusterClient request inst s).state.findOrderer request
        = some inst1 ∧
      (reconcileSecret env clusterClient request inst1
        (reconcileSecret env clusterClient request inst s).state).state =
      (reconcileSecret env clusterClient request inst s).state := by
  cases hf : s.findSecret { Namespace := request.Namespace, Name := request.Name ++ "-secret" } with
  | some found =>
    rw [secret_found env request inst found s hf]
    obtain ⟨hset, hsec, inst1, hsame, hfind1, hre⟩ := service_rerun env request inst s hfind
    refine ⟨hset, inst1, hsame, hfind1, ?_⟩
    rw [secret_found env request inst1 found _ (by
      unfold Cluster.findSecret
      rw [hsec]
      exact hf)]
    exact hre
  | none =>
    cases hnew : newSecretForCR env inst request with
    | none =>
      have hrun : (reconcileSecret env clusterClient request inst s).state = s := by
        simp [reconcileSecret, clusterClient, hf, getAnswer, hnew]
      rw [hrun]
      exact ⟨⟨rfl, rfl, rfl⟩, inst, sameDesired_refl inst, hfind, hrun⟩
    | some secret =>
      obtain ⟨hns, hname⟩ := newSecretForCR_key env inst request secret hnew
      have hf1 : s.findSecret { Namespace := secret.Namespace, Name := secret.Name } = none := by
        rw [← hf]
        simp [Cluster.findSecret, hns, hname]
      have hf2 : Cluster.findSecret { s with secrets := secret :: s.secrets }
          { Namespace := request.Namespace, Name := request.Name ++ "-secret" }
          = some secret := by
        simp [Cluster.findSecret, hns, hname]
      have hrun : (reconcileSecret env clusterClient request inst s).state =
          (reconcileService env clusterClient request inst
            { s with secrets := secret :: s.secrets }).state := by
        simp [reconcileSecret, clusterClient, hf, getAnswer, hnew, hf1]
      rw [hrun]
      obtain ⟨hset, hsec, inst1, hsame, hfind1, hre⟩ :=
        service_rerun env request inst { s with secrets := secret :: s.secrets } hfind
      refine ⟨hset, inst1, hsame, hfind1, ?_⟩
      rw [secret_found env request inst1 secret _ (by
        unfold Cluster.findSecret
        rw [hsec]
        exact hf2)]
      exact hre

theorem reconcile_rerun (env : Env) (request : Request) (s : Cluster) :
    (Reconcile env clusterClient request
      (Reconcile env clusterClient request s).state).state =
    (Reconcile env clusterClient request s).state := by
  cases hcfg : s.configError with
  | some err =>
    have hrun : (Reconcile env clusterClient request s).state = s := by
      simp [Reconcile, clusterClient, hcfg]
    rw [hrun, hrun]
  | none =>
    cases hfind : s.findOrderer request with
    | none =>
      have hrun : (Reconcile env clusterClient request s).state = s := by
        simp [Reconcile, clusterClient, hcfg, hfind, getAnswer]
      rw [hrun, hrun]
    | some inst =>
      have hrun : ∀ inst0 t, t.configError = none → t.findOrderer request = some inst0 →
          (Reconcile env clusterClient request t).state =
            (reconcileSecret env clusterClient request inst0 t).state := by
        intro inst0 t h1 h2
        simp [Reconcile, clusterClient, h1, h2, getAnswer]
      rw [hrun inst s hcfg hfind]
      obtain ⟨hset, inst1, -, hfind1, hre⟩ := secret_rerun env request inst s hfind
      rw [hrun inst1 _ (by rw [hset.1, hcfg]) hfind1]
      exact hre

theorem passes_fixed (env : Env) (request : Request) (t : Cluster)
    (h : (Reconcile env clusterClient request t).state = t) :
    ∀ n, passes env request n t = t
  | 0 => rfl
  | n + 1 => by
    rw [passes, h]
    exact passes_fixed env request t h n

/-- C3: on the cluster store, which answers every call from its state and which only the
passes modify, any number N ≥ 1 of consecutive passes for a request leaves the same
cluster (secrets, services, stateful sets and the status of the orderer included) as one
pass, for every initial cluster and every desired state in it. -/
theorem C3_reconcile_idempotent (env : Env) (request : Request) (s : Cluster) (N : Nat)
    (hN : 1 ≤ N) :
    passes env request N s = passes env request 1 s ∧
    (passes env request N s).secrets = (passes env request 1 s).secrets ∧
    (passes env request N s).services = (passes env request 1 s).services ∧
    (passes env request N s).statefulSets = (passes env request 1 s).statefulSets ∧
    (passes env request N s).orderers = (passes env request 1 s).orderers := by
  have hmain : passes env request N s = passes env request 1 s := by
    obtain ⟨n, rfl⟩ : ∃ n, N = n + 1 := ⟨N - 1, by omega⟩
    show passes env request n (Reconcile env clusterClient request s).state =
      (Reconcile env clusterClient request s).state
    exact passes_fixed env request _ (reconcile_rerun env request s) n
  rw [hmain]
  exact ⟨rfl, rfl, rfl, rfl, rfl⟩

/-- Three passes on the sample cluster leave what one pass leaves: the bundle, the service
with its node port, the stateful set and the access point. -/
theorem C3_reconcile_idempotent_witness :
    1 ≤ 3 ∧
    (passes demoEnv demoRequest 1 demoCluster).orderers =
      [{ demoOrderer with Status := { AccessPoint := "https://10.0.0.5:31000" } }] ∧
    (passes demoEnv demoRequest 1 demoCluster).statefulSets = [demoStatefulSet] ∧
    (passes demoEnv demoRequest 1 demoCluster).secrets.map (fun b => b.Name) =
      ["orderer0-secret"] ∧
    (passes demoEnv demoRequest 1 demoCluster).services.map (fun e => e.Ports) =
      [[{ Port := 7050, NodePort := 31000 }]] ∧
    (passes demoEnv demoRequest 3 demoCluster = passes demoEnv demoRequest 1 demoCluster ∧
    (passes demoEnv demoRequest 3 demoCluster).secrets =
      (passes demoEnv demoRequest 1 demoCluster).secrets ∧
    (passes demoEnv demoRequest 3 demoCluster).services =
      (passes demoEnv demoRequest 1 demoCluster).services ∧
    (passes demoEnv demoRequest 3 demoCluster).statefulSets =
      (passes demoEnv demoRequest 1 demoCluster).statefulSets ∧
    (passes demoEnv demoRequest 3 demoCluster).orderers =
      (passes demoEnv demoRequest 1 demoCluster).orderers) :=
  ⟨by decide, by decide, by decide, by decide, by decide,
    C3_reconcile_idempotent demoEnv demoRequest demoCluster 3 (by decide)⟩

/-! ## Errors of the cluster calls (C11) -/

theorem examined_of_append (evs l : List Event) (e : Event) (h : Examined (evs ++ l) e) :
    Examined l e := by
  cases e <;> simp only [Examined] at h ⊢
  all_goals exact fun x hx => h x (List.mem_append_right _ hx)

theorem aborts_after {σ : Type} (evs : List Event) (p : Pass σ)
    (hevs : ∀ e ∈ evs, ∀ err, e.failure = some err → err ≠ ApiError.notFound →
      err ≠ ApiError.alreadyExists → ¬ Examined (evs ++ p.calls) e)
    (h : AbortsOnError p) : AbortsOnError (p.after evs) := by
  intro e he err hfail h1 h2 hex
  simp only [after_calls] at he hex ⊢
  rcases List.mem_append.1 he with hmem | hmem
  · exact absurd hex (hevs e hmem err hfail h1 h2)
  · obtain ⟨hlast, hout⟩ := h e hmem err hfail h1 h2 (examined_of_append evs p.calls e hex)
    refine ⟨?_, by simpa using hout⟩
    rw [List.getLast?_append, hlast]
    rfl

theorem sts_aborts {σ : Type} (env : Env) (c : Client σ) (request : Request)
    (inst : Orderer) (s : σ) : AbortsOnError (reconcileStatefulSet env c request inst s) := by
  intro e he err hfail h1 h2 _
  unfold reconcileStatefulSet at he ⊢
  simp only [] at he ⊢
  split at he
  · rename_i hgot
    split at he
    · split at he
      · rename_i err1 hmade
        split at he
        · rename_i hae
          simp only [List.mem_cons, List.mem_singleton, List.not_mem_nil, or_false] at he
          rcases he with he | he
          · subst he
            simp [Event.failure, hgot] at hfail
            exact absurd hfail.symm h1
          · subst he
            simp [Event.failure, hmade] at hfail
            exact absurd (hfail ▸ hae) h2
        · rename_i hae
          simp only [List.mem_cons, List.mem_singleton, List.not_mem_nil, or_false] at he
          rcases he with he | he
          · subst he
            simp [Event.failure, hgot] at hfail
            exact absurd hfail.symm h1
          · subst he
            simp [Event.failure, hmade] at hfail
            subst hfail
            simp [hgot, hmade, hae]
      · rename_i hmade
        simp only [List.mem_cons, List.mem_singleton, List.not_mem_nil, or_false] at he
        rcases he with he | he
        · subst he
          simp [Event.failure, hgot] at hfail
          exact absurd hfail.symm h1
        · subst he
          simp [Event.failure, hmade] at hfail
    · simp only [List.mem_singleton] at he
      subst he
      simp [Event.failure, hgot] at hfail
      exact absurd hfail.symm h1
  · rename_i err1 hne hgot
    simp only [List.mem_singleton] at he
    subst he
    simp [Event.failure, hgot] at hfail
    subst hfail
    simp [hgot]
  · rename_i hgot
    simp only [List.mem_singleton] at he
    subst he
    simp [Event.failure, hgot] at hfail

theorem status_aborts {σ : Type} (env : Env) (c : Client σ) (request : Request)
    (inst : Orderer) (port : ServicePort) (s : σ) :
    AbortsOnError (reconcileStatus env c request inst port s) := by
  by_cases hap : inst.Status.AccessPoint = ""
  · by_cases hp : port.NodePort > 0
    · unfold reconcileStatus
      simp only [hap, hp, if_true]
      split
      · rename_i err1 hupd
        intro e he err hfail h1 h2 hex
        simp only [List.mem_cons, List.mem_singleton, List.not_mem_nil, or_false] at he
        rcases he with he | he | he
        · subst he
          simp only [Examined] at hex
          exact absurd rfl (hex _ (List.mem_cons_of_mem _ (List.mem_cons_self _ _)))
        · subst he
          simp only [Examined] at hex
        · subst he
          simp only [Event.failure] at hfail
          rw [hupd] at hfail
          simp only [Option.some.injEq] at hfail
          subst hfail
          exact ⟨by simp, rfl⟩
      · rename_i hupd
        apply aborts_after _ _ _ (sts_aborts env c request _ _)
        intro e he err hfail h1 h2 hex
        simp only [List.mem_cons, List.mem_singleton, List.not_mem_nil, or_false] at he
        rcases he with he | he | he
        · subst he
          simp only [Examined] at hex
          exact absurd rfl (hex _ (List.mem_cons_of_mem _ (List.mem_cons_self _ _)))
        · subst he
          simp only [Examined] at hex
        · subst he
          simp only [Event.failure] at hfail
          rw [hupd] at hfail
          simp at hfail
    · intro e he
      simp [reconcileStatus, hap, hp] at he
  · unfold reconcileStatus
    simp only [hap, if_false]
    exact sts_aborts env c request inst s

theorem ports_aborts {σ : Type} (env : Env) (c : Client σ) (request : Request)
    (inst : Orderer) (found : Service) (s : σ) :
    AbortsOnError (reconcilePorts env c request inst found s) := by
  unfold reconcilePorts
  split
  · intro e he
    simp at he
  · exact status_aborts env c request inst _ s

theorem service_aborts {σ : Type} (env : Env) (c : Client σ) (request : Request)
    (inst : Orderer) (s : σ) : AbortsOnError (reconcileService env c request inst s) := by
  unfold reconcileService
  simp only []
  split
  · rename_i hgot
    split
    · split
      · rename_i err1 hmade
        intro e he err hfail h1 h2 hex
        simp only [List.mem_cons, List.mem_singleton, List.not_mem_nil, or_false] at he
        rcases he with he | he
        · subst he
          simp only [Event.failure, hgot, Option.some.injEq] at hfail
          exact absurd hfail.symm h1
        · subst he
          simp only [Event.failure] at hfail
          rw [hmade] at hfail
          simp only [Option.some.injEq] at hfail
          subst hfail
          exact ⟨by simp, rfl⟩
      · rename_i hmade
        apply aborts_after _ _ _ (ports_aborts env c request inst _ _)
        intro e he err hfail h1 h2 hex
        simp only [List.mem_cons, List.mem_singleton, List.not_mem_nil, or_false] at he
        rcases he with he | he | he
        · subst he
          simp only [Event.failure, hgot, Option.some.injEq] at hfail
          exact absurd hfail.symm h1
        · subst he
          simp only [Event.failure] at hfail
          rw [hmade] at hfail
          simp at hfail
        · subst he
          simp only [Examined] at hex
          exact absurd rfl (hex _ (List.mem_cons_of_mem _ (List.mem_cons_self _ _)))
    · intro e he err hfail h1 h2 hex
      simp only [List.mem_singleton] at he
      subst he
      simp only [Event.failure, hgot, Option.some.injEq] at hfail
      exact absurd hfail.symm h1
  · rename_i err1 hne hgot
    intro e he err hfail h1 h2 hex
    simp only [List.mem_singleton] at he
    subst he
    simp only [Event.failure, hgot, Option.some.injEq] at hfail
    subst hfail
    exact ⟨by simp, rfl⟩
  · rename_i found hgot
    apply aborts_after _ _ _ (ports_aborts env c request inst _ _)
    intro e he err hfail h1 h2 hex
    simp only [List.mem_singleton] at he
    subst he
    simp [Event.failure, hgot] at hfail

theorem secret_aborts {σ : Type} (env : Env) (c : Client σ) (request : Request)
    (inst : Orderer) (s : σ) : AbortsOnError (reconcileSecret env c request inst s) := by
  unfold reconcileSecret
  simp only []
  split
  · rename_i hgot
    split
    · rename_i err1 hmade
      intro e he err hfail h1 h2 hex
      simp only [List.mem_cons, List.mem_singleton, List.not_mem_nil, or_false] at he
      rcases he with he | he
      · subst he
        simp only [Examined] at hex
      · subst he
        simp only [Event.failure] at hfail
        rw [hmade] at hfail
        simp only [Option.some.injEq] at hfail
        subst hfail
        exact ⟨by simp, rfl⟩
    · rename_i hmade
      apply aborts_after _ _ _ (service_aborts env c request inst _)
      intro e he err hfail h1 h2 hex
      simp only [List.mem_cons, List.mem_singleton, List.not_mem_nil, or_false] at he
      rcases he with he | he
      · subst he
        simp only [Examined] at hex
      · subst he
        simp only [Event.failure] at hfail
        rw [hmade] at hfail
        simp at hfail
  · apply aborts_after _ _ _ (service_aborts env c request inst _)
    intro e he err hfail h1 h2 hex
    simp only [List.mem_singleton] at he
    subst he
    simp only [Examined] at hex

theorem reconcile_aborts {σ : Type} (env : Env) (c : Client σ) (request : Request) (s : σ) :
    AbortsOnError (Reconcile env c request s) := by
  unfold Reconcile
  simp only []
  split
  · rename_i err1 hcfg
    intro e he err hfail h1 h2 hex
    simp only [List.mem_singleton] at he
    subst he
    simp only [Event.failure] at hfail
    rw [hcfg] at hfail
    simp only [Option.some.injEq] at hfail
    subst hfail
    exact ⟨by simp, rfl⟩
  · rename_i hcfg
    split
    · rename_i hgot
      intro e he err hfail h1 h2 hex
      simp only [List.mem_cons, List.mem_singleton, List.not_mem_nil, or_false] at he
      rcases he with he | he
      · subst he
        simp only [Event.failure] at hfail
        rw [hcfg] at hfail
        simp at hfail
      · subst he
        simp only [Event.failure, hgot, Option.some.injEq] at hfail
        exact absurd hfail.symm h1
    · rename_i err1 hne hgot
      intro e he err hfail h1 h2 hex
      simp only [List.mem_cons, List.mem_singleton, List.not_mem_nil, or_false] at he
      rcases he with he | he
      · subst he
        simp only [Event.failure] at hfail
        rw [hcfg] at hfail
        simp at hfail
      · subst he
        simp only [Event.failure, hgot, Option.some.injEq] at hfail
        subst hfail
        exact ⟨by simp, rfl⟩
    · rename_i inst hgot
      apply aborts_after _ _ _ (secret_aborts env c request inst _)
      intro e he err hfail h1 h2 hex
      simp only [List.mem_cons, List.mem_singleton, List.not_mem_nil, or_false] at he
      rcases he with he | he
      · subst he
        simp only [Event.failure] at hfail
        rw [hcfg] at hfail
        simp at hfail
      · subst he
        simp [Event.failure, hgot] at hfail

/-- C11 as stated fails: the read of the service after its create (line 165) fails with a
timeout, an error that is neither NotFound nor AlreadyExists; the error is dropped, the
pass goes on to the port check and returns retry, not a fatal error. -/
theorem C11_counterexample :
    Event.getService demoRequest (.error (ApiError.other "timeout")) ∈
      (Reconcile demoEnv (timeoutClient false true false) demoRequest demoCluster).calls ∧
    (Reconcile demoEnv (timeoutClient false true false) demoRequest demoCluster).outcome =
      Outcome.retry ∧
    (Reconcile demoEnv (timeoutClient false true false) demoRequest demoCluster).outcome ≠
      Outcome.fatal (ApiError.other "timeout") := by
  decide

/-- The lookup of the secret (line 138) has no branch for an error other than NotFound:
when it times out the pass goes on, here to the end, and returns done. -/
theorem secret_lookup_error_is_dropped :
    Event.getSecret { Namespace := "fabric", Name := "orderer0-secret" }
        (.error (ApiError.other "timeout")) ∈
      (Reconcile demoEnv (timeoutClient true false false) demoRequest demoCluster).calls ∧
    (Reconcile demoEnv (timeoutClient true false false) demoRequest demoCluster).calls.map
      Event.kind = [0, 1, 2, 4, 5, 4, 1, 6, 7, 8, 9] ∧
    (Reconcile demoEnv (timeoutClient true false false) demoRequest demoCluster).outcome =
      Outcome.done := by
  decide

/-- The second read of the instance (line 179) and the resolver of the node addresses
(line 181) fail with a timeout: both errors are dropped, the status is written from the
instance of the first fetch and the pass goes on to the end and returns done. -/
theorem reread_errors_are_dropped :
    Event.getOrderer demoRequest (.error (ApiError.other "timeout")) ∈
      (Reconcile demoEnv flakyClient demoRequest demoCluster).calls ∧
    Event.getNodeIPs ([], some (ApiError.other "timeout")) ∈
      (Reconcile demoEnv flakyClient demoRequest demoCluster).calls ∧
    (Reconcile demoEnv flakyClient demoRequest demoCluster).calls.map Event.kind =
      [0, 1, 2, 3, 4, 5, 4, 1, 6, 7, 8, 9] ∧
    (Reconcile demoEnv flakyClient demoRequest demoCluster).held.map
      (fun inst => inst.Status.AccessPoint) = some "https://10.0.0.5:31000" ∧
    (Reconcile demoEnv flakyClient demoRequest demoCluster).outcome = Outcome.done := by
  decide

/-- C11, amended: when a call whose error Reconcile examines (the configuration check, the
first fetch of the instance, the create of the secret, the first lookup and the create of
the service, the status update, the lookup and the create of the stateful set) is answered
with an error that is neither NotFound nor AlreadyExists, that call is the last call of the
pass and the pass ends with that error as fatal. -/
theorem C11_examined_error_is_fatal {σ : Type} (env : Env) (c : Client σ)
    (request : Request) (s : σ) (e : Event) (err : ApiError)
    (he : e ∈ (Reconcile env c request s).calls)
    (hfail : e.failure = some err)
    (hnf : err ≠ ApiError.notFound) (hae : err ≠ ApiError.alreadyExists)
    (hex : Examined (Reconcile env c request s).calls e) :
    (Reconcile env c request s).calls.getLast? = some e ∧
    (Reconcile env c request s).outcome = Outcome.fatal err :=
  reconcile_aborts env c request s e he err hfail hnf hae hex

/-- A status update that times out on the sample cluster ends the pass with that error. -/
theorem C11_examined_error_is_fatal_witness :
    Event.statusUpdate (written demoOrderer demoCluster { Port := 7050, NodePort := 31000 })
        (some (ApiError.other "timeout")) ∈
      (Reconcile demoEnv (timeoutClient false false true) demoRequest demoCluster).calls ∧
    (Reconcile demoEnv (timeoutClient false false true) demoRequest demoCluster).calls.getLast?
      = some (Event.statusUpdate
          (written demoOrderer demoCluster { Port := 7050, NodePort := 31000 })
          (some (ApiError.other "timeout"))) ∧
    (Reconcile demoEnv (timeoutClient false false true) demoRequest demoCluster).outcome =
      Outcome.fatal (ApiError.other "timeout") :=
  ⟨by decide,
    C11_examined_error_is_fatal demoEnv (timeoutClient false false true) demoRequest
      demoCluster
      (Event.statusUpdate (written demoOrderer demoCluster { Port := 7050, NodePort := 31000 })
        (some (ApiError.other "timeout")))
      (ApiError.other "timeout") (by decide) rfl (by decide) (by decide) trivial⟩

/-! ## A deleted instance and an endpoint without a port (C12, C13) -/

/-- C12: when the configuration check succeeds and the fetch of the instance is answered
NotFound, the pass returns done (no error, no retry) and makes no further call: no create
and no status update. -/
theorem C12_deleted_instance_is_done {σ : Type} (env : Env) (c : Client σ)
    (request : Request) (s : σ) (rest : List Event)
    (hcalls : (Reconcile env c request s).calls =
      Event.checkConfig none :: Event.getOrderer request (.error ApiError.notFound) :: rest) :
    (Reconcile env c request s).outcome = Outcome.done ∧ rest = [] ∧
    (∀ obj ans, Event.createSecret obj ans ∉ (Reconcile env c request s).calls) ∧
    (∀ obj ans, Event.createService obj ans ∉ (Reconcile env c request s).calls) ∧
    (∀ obj ans, Event.createStatefulSet obj ans ∉ (Reconcile env c request s).calls) ∧
    (∀ obj ans, Event.statusUpdate obj ans ∉ (Reconcile env c request s).calls) := by
  have hrest : (Reconcile env c request s).outcome = Outcome.done ∧ rest = [] := by
    unfold Reconcile at hcalls ⊢
    simp only [] at hcalls ⊢
    split at hcalls
    · simp at hcalls
    · split at hcalls
      · simp only [List.cons.injEq] at hcalls
        exact ⟨rfl, hcalls.2.2.symm⟩
      · rename_i err hne hgot
        simp only [List.cons.injEq, Event.getOrderer.injEq] at hcalls
        rw [hgot] at hcalls
        simp only [Except.error.injEq] at hcalls
        exact absurd hcalls.2.1.2 hne
      · rename_i inst hgot
        simp only [after_calls, List.cons_append, List.nil_append, List.cons.injEq,
          Event.getOrderer.injEq] at hcalls
        rw [hgot] at hcalls
        simp at hcalls
  obtain ⟨hdone, hnil⟩ := hrest
  subst hnil
  rw [hcalls]
  exact ⟨hdone, rfl, by simp, by simp, by simp, by simp⟩

/-- A cluster without the orderer of the request. -/
theorem C12_deleted_instance_is_done_witness :
    (Reconcile demoEnv clusterClient demoRequest { demoCluster with orderers := [] }).calls =
      Event.checkConfig none :: Event.getOrderer demoRequest (.error ApiError.notFound) :: [] ∧
    (Reconcile demoEnv clusterClient demoRequest { demoCluster with orderers := [] }).outcome
      = Outcome.done ∧ ([] : List Event) = [] ∧
    (∀ obj ans, Event.createSecret obj ans ∉
      (Reconcile demoEnv clusterClient demoRequest { demoCluster with orderers := [] }).calls) ∧
    (∀ obj ans, Event.createService obj ans ∉
      (Reconcile demoEnv clusterClient demoRequest { demoCluster with orderers := [] }).calls) ∧
    (∀ obj ans, Event.createStatefulSet obj ans ∉
      (Reconcile demoEnv clusterClient demoRequest { demoCluster with orderers := [] }).calls) ∧
    (∀ obj ans, Event.statusUpdate obj ans ∉
      (Reconcile demoEnv clusterClient demoRequest { demoCluster with orderers := [] }).calls) :=
  ⟨by decide,
    C12_deleted_instance_is_done demoEnv clusterClient demoRequest
      { demoCluster with orderers := [] } [] (by decide)⟩

theorem ports_calls_late {σ : Type} (env : Env) (c : Client σ) (request : Request)
    (inst : Orderer) (found : Service) (s : σ) :
    ∀ e ∈ (reconcilePorts env c request inst found s).calls, e.kind = 1 ∨ 6 ≤ e.kind := by
  intro e he
  unfold reconcilePorts at he
  split at he
  · simp at he
  · exact status_calls_kind env c request inst _ s e he

theorem service_found_ports {σ : Type} (env : Env) (c : Client σ) (request : Request)
    (inst : Orderer) (s : σ) (svc : Service)
    (h : Event.getService request (.ok svc) ∈ (reconcileService env c request inst s).calls) :
    ∃ s1 evs, reconcileService env c request inst s =
        (reconcilePorts env c request inst svc s1).after evs ∧
      ∀ e ∈ evs, e.kind = 4 ∨ e.kind = 5 := by
  have hlate := ports_calls_late env c request inst
  have hnot : ∀ found s1,
      Event.getService request (.ok svc) ∉ (reconcilePorts env c request inst found s1).calls := by
    intro found s1 hmem
    have := hlate found s1 _ hmem
    simp [Event.kind] at this
  unfold reconcileService at h ⊢
  simp only [] at h ⊢
  split at h
  · rename_i hgot
    split at h
    · split at h
      · rename_i err hmade
        simp only [List.mem_cons, List.mem_singleton, List.not_mem_nil, or_false,
          Event.getService.injEq, true_and, reduceCtorEq] at h
        rw [hgot] at h
        simp at h
      · rename_i hmade
        simp only [after_calls, List.mem_append, List.mem_cons, List.mem_singleton,
          List.not_mem_nil, or_false, Event.getService.injEq, true_and, reduceCtorEq,
          false_or] at h
        rcases h with (h | h) | h
        · rw [hgot] at h
          simp at h
        · rw [← h]
          exact ⟨_, _, rfl, by simp [Event.kind]⟩
        · exact absurd h (hnot _ _)
    · simp only [List.mem_singleton, Event.getService.injEq, true_and] at h
      rw [hgot] at h
      simp at h
  · rename_i err hne hgot
    simp only [List.mem_singleton, Event.getService.injEq, true_and] at h
    rw [hgot] at h
    simp at h
  · rename_i found hgot
    simp only [after_calls, List.mem_append, List.mem_singleton, Event.getService.injEq,
      true_and] at h
    rcases h with h | h
    · rw [hgot] at h
      simp only [Except.ok.injEq] at h
      subst h
      exact ⟨_, _, rfl, by simp [Event.kind]⟩
    · exact absurd h (hnot _ _)

theorem secret_found_ports {σ : Type} (env : Env) (c : Client σ) (request : Request)
    (inst : Orderer) (s : σ) (svc : Service)
    (h : Event.getService request (.ok svc) ∈ (reconcileSecret env c request inst s).calls) :
    ∃ s1 evs, reconcileSecret env c request inst s =
        (reconcilePorts env c request inst svc s1).after evs ∧
      ∀ e ∈ evs, 2 ≤ e.kind ∧ e.kind ≤ 5 := by
  have hlift : ∀ (s0 : σ) (pre : List Event), (∀ e ∈ pre, 2 ≤ e.kind ∧ e.kind ≤ 5) →
      Event.getService request (.ok svc) ∈ (reconcileService env c request inst s0).calls →
      ∃ s1 evs, (reconcileService env c request inst s0).after pre =
          (reconcilePorts env c request inst svc s1).after evs ∧
        ∀ e ∈ evs, 2 ≤ e.kind ∧ e.kind ≤ 5 := by
    intro s0 pre hpre hmem
    obtain ⟨s1, evs, heq, hevs⟩ := service_found_ports env c request inst s0 svc hmem
    refine ⟨s1, pre ++ evs, by rw [heq, after_after], ?_⟩
    intro e he
    rcases List.mem_append.1 he with h1 | h1
    · exact hpre e h1
    · rcases hevs e h1 with h2 | h2 <;> omega
  unfold reconcileSecret at h ⊢
  simp only [] at h ⊢
  split at h
  · split at h
    · simp at h
    · simp only [after_calls, List.mem_append, List.mem_cons, List.mem_singleton,
        List.not_mem_nil, or_false, false_or, reduceCtorEq] at h
      exact hlift _ _ (by simp [Event.kind]) h
  · simp only [after_calls, List.mem_append, List.mem_cons, List.mem_singleton,
      List.not_mem_nil, or_false, false_or, reduceCtorEq] at h
    exact hlift _ _ (by simp [Event.kind]) h

theorem reconcile_found_ports {σ : Type} (env : Env) (c : Client σ) (request : Request)
    (s : σ) (svc : Service)
    (h : Event.getService request (.ok svc) ∈ (Reconcile env c request s).calls) :
    ∃ inst cfg s1 evs, Reconcile env c request s =
        (reconcilePorts env c request inst svc s1).after
          (Event.checkConfig cfg :: Event.getOrderer request (.ok inst) :: evs) ∧
      ∀ e ∈ evs, 2 ≤ e.kind ∧ e.kind ≤ 5 := by
  unfold Reconcile at h ⊢
  simp only [] at h ⊢
  split at h
  · simp at h
  · split at h
    · simp at h
    · simp at h
    · rename_i inst hgot
      simp only [after_calls, List.mem_append, List.mem_cons, List.mem_singleton,
        List.not_mem_nil, or_false, false_or, reduceCtorEq] at h
      obtain ⟨s1, evs, heq, hevs⟩ := secret_found_ports env c request inst _ svc h
      refine ⟨inst, (c.CheckAndCreateConfigMap request s).1, s1, evs, ?_, hevs⟩
      rw [heq, after_after, hgot]
      rfl

/-- C13: in a pass that found the instance and the service, (1) when the service has no
port the pass returns retry, without a status update and without a create of the stateful
set; (2) when the fetched instance has an empty access point and the first port of the
service has no positive node port, the pass returns retry, again without a status update
and without a create of the stateful set. -/
theorem C13_no_port_is_retry {σ : Type} (env : Env) (c : Client σ) (request : Request)
    (s : σ) (svc : Service)
    (hsvc : Event.getService request (.ok svc) ∈ (Reconcile env c request s).calls) :
    (svc.Ports = [] →
      (Reconcile env c request s).outcome = Outcome.retry ∧
      (∀ obj ans, Event.statusUpdate obj ans ∉ (Reconcile env c request s).calls) ∧
      (∀ obj ans, Event.createStatefulSet obj ans ∉ (Reconcile env c request s).calls)) ∧
    (∀ inst cfg tail port rest,
      (Reconcile env c request s).calls =
        Event.checkConfig cfg :: Event.getOrderer request (.ok inst) :: tail →
      inst.Status.AccessPoint = "" → svc.Ports = port :: rest → ¬ 0 < port.NodePort →
      (Reconcile env c request s).outcome = Outcome.retry ∧
      (∀ obj ans, Event.statusUpdate obj ans ∉ (Reconcile env c request s).calls) ∧
      (∀ obj ans, Event.createStatefulSet obj ans ∉ (Reconcile env c request s).calls)) := by
  obtain ⟨inst0, cfg0, s1, evs, heq, hevs⟩ := reconcile_found_ports env c request s svc hsvc
  have hpre : ∀ e ∈ Event.checkConfig cfg0 :: Event.getOrderer request (.ok inst0) :: evs,
      e.kind ≤ 5 := by
    intro e he
    simp only [List.mem_cons] at he
    rcases he with he | he | he
    · simp [he, Event.kind]
    · simp [he, Event.kind]
    · exact (hevs e he).2
  have hfin : ∀ (p : Pass σ), p.outcome = Outcome.retry → p.calls = [] →
      (p.after (Event.checkConfig cfg0 :: Event.getOrderer request (.ok inst0) :: evs)).outcome
        = Outcome.retry ∧
      (∀ obj ans, Event.statusUpdate obj ans ∉
        (p.after (Event.checkConfig cfg0 :: Event.getOrderer request (.ok inst0) :: evs)).calls) ∧
      (∀ obj ans, Event.createStatefulSet obj ans ∉
        (p.after (Event.checkConfig cfg0 :: Event.getOrderer request (.ok inst0) :: evs)).calls)
      := by
    intro p hout hcalls
    refine ⟨by simpa using hout, ?_, ?_⟩
    · intro obj ans hmem
      rw [after_calls, hcalls, List.append_nil] at hmem
      have := hpre _ hmem
      simp [Event.kind] at this
    · intro obj ans hmem
      rw [after_calls, hcalls, List.append_nil] at hmem
      have := hpre _ hmem
      simp [Event.kind] at this
  rw [heq]
  constructor
  · intro hports
    apply hfin
    · simp [reconcilePorts, hports]
    · simp [reconcilePorts, hports]
  · intro inst cfg tail port rest hcalls hap hports hnp
    have hinst : inst = inst0 := by
      simp only [after_calls, List.cons_append, List.cons.injEq, Event.getOrderer.injEq,
        Except.ok.injEq, true_and] at hcalls
      exact hcalls.2.1.symm
    subst hinst
    apply hfin
    · simp [reconcilePorts, hports, reconcileStatus, hap, hnp]
    · simp [reconcilePorts, hports, reconcileStatus, hap, hnp]

/-- Two sample passes: a stored service without a port, and a new service without a node
port; both return retry, write no status and create no stateful set. -/
theorem C13_no_port_is_retry_witness :
    Event.getService demoRequest (.ok { builtService with Ports := [] }) ∈
      (Reconcile demoEnv clusterClient demoRequest portlessCluster).calls ∧
    Event.getService demoRequest (.ok builtService) ∈
      (Reconcile demoEnv clusterClient demoRequest unassignedCluster).calls ∧
    ((Reconcile demoEnv clusterClient demoRequest portlessCluster).outcome = Outcome.retry ∧
      (∀ obj ans, Event.statusUpdate obj ans ∉
        (Reconcile demoEnv clusterClient demoRequest portlessCluster).calls) ∧
      (∀ obj ans, Event.createStatefulSet obj ans ∉
        (Reconcile demoEnv clusterClient demoRequest portlessCluster).calls)) ∧
    ((Reconcile demoEnv clusterClient demoRequest unassignedCluster).outcome = Outcome.retry ∧
      (∀ obj ans, Event.statusUpdate obj ans ∉
        (Reconcile demoEnv clusterClient demoRequest unassignedCluster).calls) ∧
      (∀ obj ans, Event.createStatefulSet obj ans ∉
        (Reconcile demoEnv clusterClient demoRequest unassignedCluster).calls)) :=
  ⟨by decide, by decide,
    (C13_no_port_is_retry demoEnv clusterClient demoRequest portlessCluster
      { builtService with Ports := [] } (by decide)).1 rfl,
    (C13_no_port_is_retry demoEnv clusterClient demoRequest unassignedCluster
      builtService (by decide)).2 demoOrderer none
      ((Reconcile demoEnv clusterClient demoRequest unassignedCluster).calls.drop 2)
      { Port := 7050, NodePort := 0 } [] (by decide) rfl rfl (by decide)⟩

/-! ## The entries of the credential bundle (C14, C15) -/

theorem digitChar_inj : ∀ a < 10, ∀ b < 10, Nat.digitChar a = Nat.digitChar b → a = b := by
  decide

theorem toDigitsCore_acc (b : Nat) : ∀ (fuel n : Nat) (ds : List Char),
    Nat.toDigitsCore b fuel n ds = Nat.toDigitsCore b fuel n [] ++ ds
  | 0, _, ds => by simp [Nat.toDigitsCore]
  | fuel + 1, n, ds => by
    simp only [Nat.toDigitsCore]
    split
    · simp
    · rw [toDigitsCore_acc b fuel _ (_ :: ds), toDigitsCore_acc b fuel _ [_]]
      simp

theorem toDigitsCore_fuel : ∀ (fuel1 fuel2 n : Nat), n < fuel1 → n < fuel2 →
    Nat.toDigitsCore 10 fuel1 n [] = Nat.toDigitsCore 10 fuel2 n []
  | 0, _, _, h, _ => by omega
  | _, 0, _, _, h => by omega
  | fuel1 + 1, fuel2 + 1, n, h1, h2 => by
    simp only [Nat.toDigitsCore]
    split
    · rfl
    · rename_i hne
      have hlt : n / 10 < n := Nat.div_lt_self (by omega) (by decide)
      rw [toDigitsCore_acc 10 fuel1, toDigitsCore_acc 10 fuel2,
        toDigitsCore_fuel fuel1 fuel2 (n / 10) (by omega) (by omega)]

theorem toDigits_small (n : Nat) (h : n < 10) : Nat.toDigits 10 n = [Nat.digitChar n] := by
  unfold Nat.toDigits
  simp only [Nat.toDigitsCore]
  have h0 : n / 10 = 0 := Nat.div_eq_of_lt h
  simp [h0, Nat.mod_eq_of_lt h]

theorem toDigits_large (n : Nat) (h : 10 ≤ n) :
    Nat.toDigits 10 n = Nat.toDigits 10 (n / 10) ++ [Nat.digitChar (n % 10)] := by
  have hne : n / 10 ≠ 0 := by
    have : 1 ≤ n / 10 := (Nat.le_div_iff_mul_le (by decide)).2 (by omega)
    omega
  have hlt : n / 10 < n := Nat.div_lt_self (by omega) (by decide)
  have hstep : Nat.toDigitsCore 10 (n + 1) n [] =
      Nat.toDigitsCore 10 n (n / 10) [Nat.digitChar (n % 10)] := by
    simp [Nat.toDigitsCore, hne]
  rw [Nat.toDigits, Nat.toDigits, hstep, toDigitsCore_acc,
    toDigitsCore_fuel n (n / 10 + 1) (n / 10) hlt (by omega)]

theorem toDigits_injective : ∀ (n m : Nat), Nat.toDigits 10 n = Nat.toDigits 10 m → n = m := by
  intro n
  induction n using Nat.strong_induction_on with
  | _ n ih =>
    intro m h
    by_cases hn : n < 10
    · by_cases hm : m < 10
      · rw [toDigits_small n hn, toDigits_small m hm] at h
        exact digitChar_inj n hn m hm (by simpa using h)
      · rw [toDigits_small n hn, toDigits_large m (by omega)] at h
        have hlen := congrArg List.length h
        have hpos : Nat.toDigits 10 (m / 10) ≠ [] := by
          unfold Nat.toDigits
          simp only [Nat.toDigitsCore]
          split
          · simp
          · exact toDigitsCore_ne_nil 10 _ _ _ (by simp)
        have : 0 < (Nat.toDigits 10 (m / 10)).length := List.length_pos.2 hpos
        simp only [List.length_append, List.length_singleton, List.length_cons,
          List.length_nil] at hlen
        omega
    · by_cases hm : m < 10
      · rw [toDigits_small m hm, toDigits_large n (by omega)] at h
        have hlen := congrArg List.length h
        have hpos : Nat.toDigits 10 (n / 10) ≠ [] := by
          unfold Nat.toDigits
          simp only [Nat.toDigitsCore]
          split
          · simp
          · exact toDigitsCore_ne_nil 10 _ _ _ (by simp)
        have : 0 < (Nat.toDigits 10 (n / 10)).length := List.length_pos.2 hpos
        simp only [List.length_append, List.length_singleton, List.length_cons,
          List.length_nil] at hlen
        omega
      · rw [toDigits_large n (by omega), toDigits_large m (by omega)] at h
        have h2 := List.append_inj' h rfl
        have hq : n / 10 = m / 10 := ih (n / 10) (Nat.div_lt_self (by omega) (by decide)) _ h2.1
        have hr : n % 10 = m % 10 :=
          digitChar_inj _ (Nat.mod_lt _ (by decide)) _ (Nat.mod_lt _ (by decide))
            (by simpa using h2.2)
        omega

theorem Itoa_injective (i j : Nat) (h : Itoa i = Itoa j) : i = j := by
  apply toDigits_injective
  have := congrArg String.data h
  exact this


theorem indexedKey_injective (key : String) (i j : Nat)
    (h : key ++ Itoa i = key ++ Itoa j) : i = j := by
  apply Itoa_injective
  have := congrArg String.data h
  rw [String.data_append, String.data_append] at this
  exact String.ext (List.append_cancel_left this)

theorem nodup_indexedKeys (key : String) (n : Nat) : (indexedKeys key n).Nodup :=
  List.Nodup.map (fun i j h => indexedKey_injective key i j h) (List.nodup_range n)

theorem mem_indexedKeys (key k : String) (n : Nat) :
    k ∈ indexedKeys key n ↔ ∃ i, i < n ∧ key ++ Itoa i = k := by
  simp [indexedKeys]

theorem disjoint_indexedKeys (key1 key2 : String) (n m : Nat)
    (h : ∀ s t : String, key1 ++ s ≠ key2 ++ t) :
    List.Disjoint (indexedKeys key1 n) (indexedKeys key2 m) := by
  intro k h1 h2
  obtain ⟨i, -, hi⟩ := (mem_indexedKeys key1 k n).1 h1
  obtain ⟨j, -, hj⟩ := (mem_indexedKeys key2 k m).1 h2
  exact h _ _ (hi.trans hj.symm)

theorem not_mem_indexedKeys (key k : String) (n : Nat) (h : ∀ s : String, key ++ s ≠ k) :
    k ∉ indexedKeys key n := by
  intro hk
  obtain ⟨i, -, hi⟩ := (mem_indexedKeys key k n).1 hk
  exact h _ hi

theorem admincert_ne_cacert (s t : String) : "admincert" ++ s ≠ "cacert" ++ t := by
  intro h
  have := congrArg String.data h
  simp at this

theorem admincert_ne_tlscacert (s t : String) : "admincert" ++ s ≠ "tlscacert" ++ t := by
  intro h
  have := congrArg String.data h
  simp at this

theorem cacert_ne_tlscacert (s t : String) : "cacert" ++ s ≠ "tlscacert" ++ t := by
  intro h
  have := congrArg String.data h
  simp at this

theorem indexed_ne_fixed (s : String) :
    ("admincert" ++ s ≠ "keystore" ∧ "admincert" ++ s ≠ "signcert" ∧
      "admincert" ++ s ≠ "mspid" ∧ "admincert" ++ s ≠ "tlscert" ∧
      "admincert" ++ s ≠ "tlskey") ∧
    ("cacert" ++ s ≠ "keystore" ∧ "cacert" ++ s ≠ "signcert" ∧ "cacert" ++ s ≠ "mspid" ∧
      "cacert" ++ s ≠ "tlscert" ∧ "cacert" ++ s ≠ "tlskey") ∧
    ("tlscacert" ++ s ≠ "keystore" ∧ "tlscacert" ++ s ≠ "signcert" ∧
      "tlscacert" ++ s ≠ "mspid" ∧ "tlscacert" ++ s ≠ "tlscert" ∧
      "tlscacert" ++ s ≠ "tlskey") := by
  refine ⟨⟨?_, ?_, ?_, ?_, ?_⟩, ⟨?_, ?_, ?_, ?_, ?_⟩, ⟨?_, ?_, ?_, ?_, ?_⟩⟩
  all_goals
    intro h
    have := congrArg String.data h
    simp at this

theorem nodup_bundleKeys (a c t : Nat) : (bundleKeys a c t).Nodup := by
  have hA := nodup_indexedKeys "admincert" a
  have hC := nodup_indexedKeys "cacert" c
  have hT := nodup_indexedKeys "tlscacert" t
  have hAC := disjoint_indexedKeys "admincert" "cacert" a c admincert_ne_cacert
  have hAT := disjoint_indexedKeys "admincert" "tlscacert" a t admincert_ne_tlscacert
  have hCT := disjoint_indexedKeys "cacert" "tlscacert" c t cacert_ne_tlscacert
  have hfa : ∀ k ∈ ["keystore", "signcert", "mspid", "tlscert", "tlskey"],
      k ∉ indexedKeys "admincert" a := by
    intro k hk
    simp only [List.mem_cons, List.mem_singleton, List.not_mem_nil, or_false] at hk
    rcases hk with rfl | rfl | rfl | rfl | rfl
    · exact not_mem_indexedKeys _ _ _ (fun s => (indexed_ne_fixed s).1.1)
    · exact not_mem_indexedKeys _ _ _ (fun s => (indexed_ne_fixed s).1.2.1)
    · exact not_mem_indexedKeys _ _ _ (fun s => (indexed_ne_fixed s).1.2.2.1)
    · exact not_mem_indexedKeys _ _ _ (fun s => (indexed_ne_fixed s).1.2.2.2.1)
    · exact not_mem_indexedKeys _ _ _ (fun s => (indexed_ne_fixed s).1.2.2.2.2)
  have hfc : ∀ k ∈ ["keystore", "signcert", "mspid", "tlscert", "tlskey"],
      k ∉ indexedKeys "cacert" c := by
    intro k hk
    simp only [List.mem_cons, List.mem_singleton, List.not_mem_nil, or_false] at hk
    rcases hk with rfl | rfl | rfl | rfl | rfl
    · exact not_mem_indexedKeys _ _ _ (fun s => (indexed_ne_fixed s).2.1.1)
    · exact not_mem_indexedKeys _ _ _ (fun s => (indexed_ne_fixed s).2.1.2.1)
    · exact not_mem_indexedKeys _ _ _ (fun s => (indexed_ne_fixed s).2.1.2.2.1)
    · exact not_mem_indexedKeys _ _ _ (fun s => (indexed_ne_fixed s).2.1.2.2.2.1)
    · exact not_mem_indexedKeys _ _ _ (fun s => (indexed_ne_fixed s).2.1.2.2.2.2)
  have hft : ∀ k ∈ ["keystore", "signcert", "mspid", "tlscert", "tlskey"],
      k ∉ indexedKeys "tlscacert" t := by
    intro k hk
    simp only [List.mem_cons, List.mem_singleton, List.not_mem_nil, or_false] at hk
    rcases hk with rfl | rfl | rfl | rfl | rfl
    · exact not_mem_indexedKeys _ _ _ (fun s => (indexed_ne_fixed s).2.2.1)
    · exact not_mem_indexedKeys _ _ _ (fun s => (indexed_ne_fixed s).2.2.2.1)
    · exact not_mem_indexedKeys _ _ _ (fun s => (indexed_ne_fixed s).2.2.2.2.1)
    · exact not_mem_indexedKeys _ _ _ (fun s => (indexed_ne_fixed s).2.2.2.2.2.1)
    · exact not_mem_indexedKeys _ _ _ (fun s => (indexed_ne_fixed s).2.2.2.2.2.2)
  unfold bundleKeys
  simp only [List.nodup_append, List.nodup_cons, List.disjoint_append_left,
    List.disjoint_cons_right, List.disjoint_cons_left, List.mem_append, List.mem_cons,
    List.mem_singleton, List.not_mem_nil, List.nodup_nil, List.disjoint_nil_right,
    List.disjoint_nil_left, or_false, not_or, not_false_eq_true, and_true, true_and]
  simp only [List.mem_cons, List.mem_singleton, List.not_mem_nil, or_false, forall_eq_or_imp,
    forall_eq] at hfa hfc hft
  obtain ⟨ha1, ha2, ha3, ha4, ha5⟩ := hfa
  obtain ⟨hc1, hc2, hc3, hc4, hc5⟩ := hfc
  obtain ⟨ht1, ht2, ht3, ht4, ht5⟩ := hft
  repeat' apply And.intro
  all_goals first
    | assumption
    | decide

theorem mapKeys_append {α : Type} (m l : GoMap α) :
    mapKeys (m ++ l) = mapKeys m ++ mapKeys l := by
  simp [mapKeys]

theorem mapKeys_nil {α : Type} : mapKeys ([] : GoMap α) = [] := rfl

theorem mapKeys_cons {α : Type} (k : String) (v : α) (m : GoMap α) :
    mapKeys ((k, v) :: m) = k :: mapKeys m := rfl

theorem mapSet_new {α : Type} (m : GoMap α) (k : String) (v : α) (h : k ∉ mapKeys m) :
    mapSet m k v = m ++ [(k, v)] := by
  induction m with
  | nil => rfl
  | cons e rest ih =>
    obtain ⟨k0, v0⟩ := e
    simp only [mapKeys, List.map_cons, List.mem_cons, not_or] at h
    have hne : k0 ≠ k := fun hk => h.1 hk.symm
    simp only [mapSet, hne, if_false, List.cons_append]
    rw [ih (by simpa [mapKeys] using h.2)]

theorem setAll_new (kvs : GoMap Bytes) :
    ∀ m : GoMap Bytes, (mapKeys m ++ mapKeys kvs).Nodup →
      kvs.foldl (fun d kv => mapSet d kv.1 kv.2) m = m ++ kvs := by
  induction kvs with
  | nil => intro m _; simp
  | cons kv rest ih =>
    intro m h
    have hk : kv.1 ∉ mapKeys m := by
      intro hmem
      have hdis := (List.nodup_append.1 h).2.2
      exact hdis hmem (by simp [mapKeys])
    simp only [List.foldl_cons]
    rw [mapSet_new m kv.1 kv.2 hk, ih]
    · simp
    · rw [mapKeys_append]
      simpa [mapKeys, List.append_assoc] using h

theorem mapKeys_indexedEntries (env : Env) (key : String) (xs : List String) :
    mapKeys (indexedEntries env key xs) = indexedKeys key xs.length := by
  unfold mapKeys indexedEntries indexedKeys
  rw [List.map_map, ← List.enum_map_fst xs, List.map_map]
  rfl

theorem decodeIndexed_new (env : Env) (key : String) (xs : List String) (m : GoMap Bytes)
    (h : (mapKeys m ++ indexedKeys key xs.length).Nodup) :
    decodeIndexed env key xs m = m ++ indexedEntries env key xs := by
  rw [← mapKeys_indexedEntries env key xs] at h
  rw [← setAll_new (indexedEntries env key xs) m h]
  unfold decodeIndexed indexedEntries
  rw [List.foldl_map]

theorem mapSet_fresh (m : GoMap Bytes) (k : String) (v : Bytes)
    (h : (mapKeys m ++ [k]).Nodup) : mapSet m k v = m ++ [(k, v)] := by
  apply mapSet_new
  intro hmem
  exact (List.nodup_append.1 h).2.2 hmem (by simp)

theorem secretData_eq (env : Env) (spec : OrdererSpec) :
    secretData env spec = bundleEntries env spec := by
  have hK := nodup_bundleKeys spec.AdminCerts.length spec.CaCerts.length spec.TLSCacerts.length
  have hK8 : (indexedKeys "admincert" spec.AdminCerts.length ++
      indexedKeys "cacert" spec.CaCerts.length ++ ["keystore"] ++ ["signcert"] ++ ["mspid"] ++
      indexedKeys "tlscacert" spec.TLSCacerts.length ++ ["tlscert"] ++ ["tlskey"]).Nodup := by
    simpa [bundleKeys, List.append_assoc] using hK
  have hK7 := hK8.of_append_left
  have hK6 := hK7.of_append_left
  have hK5 := hK6.of_append_left
  have hK4 := hK5.of_append_left
  have hK3 := hK4.of_append_left
  have hK2 := hK3.of_append_left
  have hK1 := hK2.of_append_left
  unfold secretData
  simp only []
  rw [decodeIndexed_new env "admincert" spec.AdminCerts [] (by simpa [mapKeys_nil] using hK1)]
  rw [decodeIndexed_new env "cacert" spec.CaCerts _ (by
    simpa [mapKeys_append, mapKeys_indexedEntries, mapKeys_cons, mapKeys_nil] using hK2)]
  rw [mapSet_fresh _ "keystore" _ (by
    simpa [mapKeys_append, mapKeys_indexedEntries, mapKeys_cons, mapKeys_nil] using hK3)]
  rw [mapSet_fresh _ "signcert" _ (by
    simpa [mapKeys_append, mapKeys_indexedEntries, mapKeys_cons, mapKeys_nil] using hK4)]
  have hsign : mapGet ([] ++ indexedEntries env "admincert" spec.AdminCerts ++
      indexedEntries env "cacert" spec.CaCerts ++
      [("keystore", (env.DecodeString spec.KeyStore).1)] ++
      [("signcert", (env.DecodeString spec.SignCerts).1)]) "signcert" =
      some (env.DecodeString spec.SignCerts).1 := by
    rw [← mapSet_fresh _ "signcert" _ (by
      simpa [mapKeys_append, mapKeys_indexedEntries, mapKeys_cons, mapKeys_nil] using hK4)]
    exact mapGet_mapSet_same _ _ _
  rw [hsign]
  rw [mapSet_fresh _ "mspid" _ (by
    simpa [mapKeys_append, mapKeys_indexedEntries, mapKeys_cons, mapKeys_nil] using hK5)]
  rw [decodeIndexed_new env "tlscacert" spec.TLSCacerts _ (by
    simpa [mapKeys_append, mapKeys_indexedEntries, mapKeys_cons, mapKeys_nil] using hK6)]
  rw [mapSet_fresh _ "tlscert" _ (by
    simpa [mapKeys_append, mapKeys_indexedEntries, mapKeys_cons, mapKeys_nil] using hK7)]
  rw [mapSet_fresh _ "tlskey" _ (by
    simpa [mapKeys_append, mapKeys_indexedEntries, mapKeys_cons, mapKeys_nil] using hK8)]
  simp [bundleEntries, List.append_assoc]

theorem mapGet_of_mem {α : Type} (m : GoMap α) (k : String) (v : α)
    (hnodup : (mapKeys m).Nodup) (hmem : (k, v) ∈ m) : mapGet m k = some v := by
  induction m with
  | nil => simp at hmem
  | cons e rest ih =>
    obtain ⟨k0, v0⟩ := e
    rw [mapKeys_cons, List.nodup_cons] at hnodup
    rcases List.mem_cons.1 hmem with h | h
    · simp only [Prod.mk.injEq] at h
      simp [mapGet, h.1, h.2]
    · have hne : k0 ≠ k := by
        intro hk
        apply hnodup.1
        rw [hk]
        exact List.mem_map.2 ⟨(k, v), h, rfl⟩
      simp only [mapGet, hne, if_false]
      exact ih hnodup.2 h

theorem mapGet_isSome_iff {α : Type} (m : GoMap α) (k : String) :
    (mapGet m k).isSome = true ↔ k ∈ mapKeys m := by
  induction m with
  | nil => simp [mapGet, mapKeys]
  | cons e rest ih =>
    obtain ⟨k0, v0⟩ := e
    by_cases h : k0 = k
    · simp [mapGet, mapKeys_cons, h]
    · have h1 : ¬ k = k0 := fun hk => h hk.symm
      simp [mapGet, mapKeys_cons, h, h1, ih]

theorem mapKeys_bundleEntries (env : Env) (spec : OrdererSpec) :
    mapKeys (bundleEntries env spec) =
      bundleKeys spec.AdminCerts.length spec.CaCerts.length spec.TLSCacerts.length := by
  simp [bundleEntries, bundleKeys, mapKeys_append, mapKeys_indexedEntries, mapKeys_cons,
    mapKeys_nil]

theorem mem_indexedEntries (env : Env) (key : String) (xs : List String) (i : Nat)
    (x : String) (h : xs[i]? = some x) :
    (key ++ Itoa i, (env.DecodeString x).1) ∈ indexedEntries env key xs :=
  List.mem_map.2 ⟨(i, x), List.mk_mem_enum_iff_getElem?.2 h, rfl⟩

theorem length_bundleKeys (a c t : Nat) : (bundleKeys a c t).length = a + c + t + 5 := by
  simp only [bundleKeys, indexedKeys, List.length_append, List.length_map, List.length_range,
    List.length_cons, List.length_nil]
  omega

/-- C14: the bundle that newSecretForCR returns for a admin certificates, c CA certificates
and t TLS CA certificates has exactly the keys admincert0.., cacert0.., keystore, signcert,
mspid, tlscacert0.., tlscert, tlskey; these a + c + t + 5 keys are pairwise distinct; and
the entries admincert i, cacert i, tlscacert i, keystore, signcert, tlscert and tlskey hold
what DecodeString returns for the i-th admin certificate, the i-th CA certificate, the i-th
TLS CA certificate, the key store, the sign certificate, the TLS certificate and the TLS
key. -/
theorem C14_bundle_entries (env : Env) (cr : Orderer) (request : Request) (secret : Secret)
    (h : newSecretForCR env cr request = some secret) :
    mapKeys secret.Data =
      bundleKeys cr.Spec.AdminCerts.length cr.Spec.CaCerts.length cr.Spec.TLSCacerts.length ∧
    (∀ k, (mapGet secret.Data k).isSome = true ↔
      k ∈ bundleKeys cr.Spec.AdminCerts.length cr.Spec.CaCerts.length
        cr.Spec.TLSCacerts.length) ∧
    (bundleKeys cr.Spec.AdminCerts.length cr.Spec.CaCerts.length
      cr.Spec.TLSCacerts.length).Nodup ∧
    (bundleKeys cr.Spec.AdminCerts.length cr.Spec.CaCerts.length
      cr.Spec.TLSCacerts.length).length =
      cr.Spec.AdminCerts.length + cr.Spec.CaCerts.length + cr.Spec.TLSCacerts.length + 5 ∧
    (∀ i x, cr.Spec.AdminCerts[i]? = some x →
      mapGet secret.Data ("admincert" ++ Itoa i) = some (env.DecodeString x).1) ∧
    (∀ i x, cr.Spec.CaCerts[i]? = some x →
      mapGet secret.Data ("cacert" ++ Itoa i) = some (env.DecodeString x).1) ∧
    (∀ i x, cr.Spec.TLSCacerts[i]? = some x →
      mapGet secret.Data ("tlscacert" ++ Itoa i) = some (env.DecodeString x).1) ∧
    mapGet secret.Data "keystore" = some (env.DecodeString cr.Spec.KeyStore).1 ∧
    mapGet secret.Data "signcert" = some (env.DecodeString cr.Spec.SignCerts).1 ∧
    mapGet secret.Data "tlscert" = some (env.DecodeString cr.Spec.TLS.TLSCert).1 ∧
    mapGet secret.Data "tlskey" = some (env.DecodeString cr.Spec.TLS.TLSKey).1 := by
  have hdata : secret.Data = bundleEntries env cr.Spec := by
    rw [newSecretForCR_data env cr request secret h, secretData_eq]
  have hkeys := mapKeys_bundleEntries env cr.Spec
  have hnodup := nodup_bundleKeys cr.Spec.AdminCerts.length cr.Spec.CaCerts.length
    cr.Spec.TLSCacerts.length
  have hget : ∀ k v, (k, v) ∈ bundleEntries env cr.Spec →
      mapGet (bundleEntries env cr.Spec) k = some v := by
    intro k v hmem
    exact mapGet_of_mem _ k v (by rw [hkeys]; exact hnodup) hmem
  rw [hdata]
  refine ⟨hkeys, ?_, hnodup, length_bundleKeys _ _ _, ?_, ?_, ?_, ?_, ?_, ?_, ?_⟩
  · intro k
    rw [mapGet_isSome_iff, hkeys]
  · intro i x hx
    apply hget
    have := mem_indexedEntries env "admincert" _ i x hx
    simp [bundleEntries, this]
  · intro i x hx
    apply hget
    have := mem_indexedEntries env "cacert" _ i x hx
    simp [bundleEntries, this]
  · intro i x hx
    apply hget
    have := mem_indexedEntries env "tlscacert" _ i x hx
    simp [bundleEntries, this]
  · apply hget
    simp [bundleEntries]
  · apply hget
    simp [bundleEntries]
  · apply hget
    simp [bundleEntries]
  · apply hget
    simp [bundleEntries]

/-- The sample bundle has the eight keys of one admin, one CA and one TLS CA certificate. -/
theorem C14_bundle_entries_witness :
    newSecretForCR demoEnv demoOrderer demoRequest =
      some { Namespace := "fabric", Name := "orderer0-secret"
             Data := secretData demoEnv demoSpec
             Owner := some { Name := "orderer0" } } ∧
    mapKeys (secretData demoEnv demoSpec) =
      ["admincert0", "cacert0", "keystore", "signcert", "mspid", "tlscacert0", "tlscert",
       "tlskey"] ∧
    mapKeys (secretData demoEnv demoSpec) = bundleKeys 1 1 1 ∧
    mapGet (secretData demoEnv demoSpec) ("admincert" ++ Itoa 0) = some (bytesOf "admin") :=
  ⟨by decide, by decide,
    (C14_bundle_entries demoEnv demoOrderer demoRequest
      { Namespace := "fabric", Name := "orderer0-secret"
        Data := secretData demoEnv demoSpec
        Owner := some { Name := "orderer0" } } (by decide)).1,
    (C14_bundle_entries demoEnv demoOrderer demoRequest
      { Namespace := "fabric", Name := "orderer0-secret"
        Data := secretData demoEnv demoSpec
        Owner := some { Name := "orderer0" } }
      (by decide)).2.2.2.2.1 0 "admin" rfl⟩

theorem bundleEntries_get (env : Env) (spec : OrdererSpec) (k : String) (v : Bytes)
    (hmem : (k, v) ∈ bundleEntries env spec) :
    mapGet (bundleEntries env spec) k = some v := by
  apply mapGet_of_mem _ k v _ hmem
  rw [mapKeys_bundleEntries]
  exact nodup_bundleKeys _ _ _

/-- C15 as stated fails: with the decoder of the Go library the key store "QUJD!" fails to
decode after its first quantum, and the bundle entry "keystore" holds the three bytes
decoded before the corrupt position, not the empty value. -/
theorem C15_counterexample :
    missingEntry corruptSpec = false ∧
    (goEnv.DecodeString corruptSpec.KeyStore).2 = false ∧
    (newSecretForCR goEnv (demoOrdererWith corruptSpec) demoRequest).map
      (fun b => mapGet b.Data "keystore") = some (some [65, 66, 67]) ∧
    (newSecretForCR goEnv (demoOrdererWith corruptSpec) demoRequest).map
      (fun b => mapGet b.Data "keystore") ≠ some (some []) := by
  decide

/-- C15, amended: for a spec that passes validation, a bundle is returned whether or not
the fields decode (newSecretForCR has no error result), and the entry of every field whose
decoding fails holds the bytes that DecodeString returned together with its error. -/
theorem C15_failed_decoding_is_silent (env : Env) (cr : Orderer) (request : Request)
    (t : Secret)
    (htemplate : (env.GetObjectFromTemplate "orderer/orderer_secret.yaml").1 = Object.secret t)
    (hvalid : missingEntry cr.Spec = false) :
    ∃ secret, newSecretForCR env cr request = some secret ∧
      (∀ i x, cr.Spec.AdminCerts[i]? = some x → (env.DecodeString x).2 = false →
        mapGet secret.Data ("admincert" ++ Itoa i) = some (env.DecodeString x).1) ∧
      (∀ i x, cr.Spec.CaCerts[i]? = some x → (env.DecodeString x).2 = false →
        mapGet secret.Data ("cacert" ++ Itoa i) = some (env.DecodeString x).1) ∧
      (∀ i x, cr.Spec.TLSCacerts[i]? = some x → (env.DecodeString x).2 = false →
        mapGet secret.Data ("tlscacert" ++ Itoa i) = some (env.DecodeString x).1) ∧
      ((env.DecodeString cr.Spec.KeyStore).2 = false →
        mapGet secret.Data "keystore" = some (env.DecodeString cr.Spec.KeyStore).1) ∧
      ((env.DecodeString cr.Spec.SignCerts).2 = false →
        mapGet secret.Data "signcert" = some (env.DecodeString cr.Spec.SignCerts).1) ∧
      ((env.DecodeString cr.Spec.TLS.TLSCert).2 = false →
        mapGet secret.Data "tlscert" = some (env.DecodeString cr.Spec.TLS.TLSCert).1) ∧
      ((env.DecodeString cr.Spec.TLS.TLSKey).2 = false →
        mapGet secret.Data "tlskey" = some (env.DecodeString cr.Spec.TLS.TLSKey).1) := by
  have hsome : newSecretForCR env cr request =
      some { Name := request.Name ++ "-secret", Namespace := request.Namespace,
             Data := secretData env cr.Spec,
             Owner := env.SetControllerReference ⟨cr.Namespace, cr.Name⟩ request.Namespace
               t.Owner } := by
    unfold newSecretForCR
    rw [htemplate]
    simp [hvalid]
  refine ⟨_, hsome, ?_⟩
  simp only [secretData_eq]
  refine ⟨?_, ?_, ?_, ?_, ?_, ?_, ?_⟩
  · intro i x hx _
    apply bundleEntries_get
    have := mem_indexedEntries env "admincert" _ i x hx
    simp [bundleEntries, this]
  · intro i x hx _
    apply bundleEntries_get
    have := mem_indexedEntries env "cacert" _ i x hx
    simp [bundleEntries, this]
  · intro i x hx _
    apply bundleEntries_get
    have := mem_indexedEntries env "tlscacert" _ i x hx
    simp [bundleEntries, this]
  · intro _
    apply bundleEntries_get
    simp [bundleEntries]
  · intro _
    apply bundleEntries_get
    simp [bundleEntries]
  · intro _
    apply bundleEntries_get
    simp [bundleEntries]
  · intro _
    apply bundleEntries_get
    simp [bundleEntries]

/-- The corrupt key store of the sample: a bundle is returned and its entry holds the
bytes "ABC" that the decoder returned with its error. -/
theorem C15_failed_decoding_is_silent_witness :
    (goEnv.GetObjectFromTemplate "orderer/orderer_secret.yaml").1 =
      Object.secret { Namespace := "", Name := "", Data := [], Owner := none } ∧
    missingEntry (demoOrdererWith corruptSpec).Spec = false ∧
    goEnv.DecodeString "QUJD!" = ([65, 66, 67], false) ∧
    ∃ secret, newSecretForCR goEnv (demoOrdererWith corruptSpec) demoRequest = some secret ∧
      mapGet secret.Data "keystore" = some (goEnv.DecodeString "QUJD!").1 :=
  ⟨by decide, by decide, by decide,
    (C15_failed_decoding_is_silent goEnv (demoOrdererWith corruptSpec) demoRequest
      { Namespace := "", Name := "", Data := [], Owner := none } (by decide) (by decide)).elim
      (fun secret hs => ⟨secret, hs.1, hs.2.2.2.2.1 (by decide)⟩)⟩

/-- Line breaks in base64 text are skipped by the decoder: "QU", a line feed, "JD" decodes
to "ABC" without an error, and so does the text with a carriage return and a line feed at
the end; a character outside the alphabet is still corrupt input. -/
theorem stdDecodeString_skips_line_breaks :
    stdDecodeString (String.mk ['Q', 'U', Char.ofNat 10, 'J', 'D']) = (bytesOf "ABC", true) ∧
    stdDecodeString (String.mk ['Q', 'U', 'J', 'D', Char.ofNat 13, Char.ofNat 10])
      = (bytesOf "ABC", true) ∧
    stdDecodeString "QUJD" = (bytesOf "ABC", true) ∧
    stdDecodeString "QUJD!" = (bytesOf "ABC", false) := by
  decide

/-- The error of SetControllerReference is dropped (lines 275, 291, 331): when the helper
fails, the three objects are built and created without a controller owner and the pass ends
as it does when the helper succeeds. -/
theorem failed_owner_reference_is_dropped :
    (newSecretForCR ownerlessEnv demoOrderer demoRequest).map (fun o => o.Owner)
      = some none ∧
    (newSecretForCR demoEnv demoOrderer demoRequest).map (fun o => o.Owner)
      = some (some { Name := "orderer0" }) ∧
    (Reconcile ownerlessEnv clusterClient demoRequest demoCluster).outcome = Outcome.done ∧
    (Reconcile ownerlessEnv clusterClient demoRequest demoCluster).calls.map Event.kind =
      (Reconcile demoEnv clusterClient demoRequest demoCluster).calls.map Event.kind ∧
    (Reconcile ownerlessEnv clusterClient demoRequest demoCluster).state.secrets.map
      (fun o => o.Owner) = [none] ∧
    (Reconcile ownerlessEnv clusterClient demoRequest demoCluster).state.services.map
      (fun o => o.Owner) = [none] ∧
    (Reconcile ownerlessEnv clusterClient demoRequest demoCluster).state.statefulSets.map
      (fun o => o.Owner) = [none] := by
  decide

/-! ## Names of the sub-resources (C16) -/

theorem looksUp_append (request : Request) (evs l : List Event)
    (h1 : LooksUpByName request evs) (h2 : LooksUpByName request l) :
    LooksUpByName request (evs ++ l) := by
  intro e he
  rcases List.mem_append.1 he with h | h
  · exact h1 e h
  · exact h2 e h

theorem sts_looksUp {σ : Type} (env : Env) (c : Client σ) (request : Request)
    (inst : Orderer) (s : σ) :
    LooksUpByName request (reconcileStatefulSet env c request inst s).calls := by
  unfold reconcileStatefulSet
  simp only []
  repeat' split
  all_goals
    intro e he
    simp only [List.mem_cons, List.mem_singleton, List.not_mem_nil, or_false] at he
    rcases he with rfl | rfl <;> trivial

theorem status_looksUp {σ : Type} (env : Env) (c : Client σ) (request : Request)
    (inst : Orderer) (port : ServicePort) (s : σ) :
    LooksUpByName request (reconcileStatus env c request inst port s).calls := by
  by_cases hap : inst.Status.AccessPoint = ""
  · by_cases hp : port.NodePort > 0
    · unfold reconcileStatus
      simp only [hap, hp, if_true]
      split
      · intro e he
        simp only [List.mem_cons, List.mem_singleton, List.not_mem_nil, or_false] at he
        rcases he with rfl | rfl | rfl <;> trivial
      · rw [after_calls]
        apply looksUp_append _ _ _ _ (sts_looksUp env c request _ _)
        intro e he
        simp only [List.mem_cons, List.mem_singleton, List.not_mem_nil, or_false] at he
        rcases he with rfl | rfl | rfl <;> trivial
    · intro e he
      simp [reconcileStatus, hap, hp] at he
  · unfold reconcileStatus
    simp only [hap, if_false]
    exact sts_looksUp env c request inst s

theorem ports_looksUp {σ : Type} (env : Env) (c : Client σ) (request : Request)
    (inst : Orderer) (found : Service) (s : σ) :
    LooksUpByName request (reconcilePorts env c request inst found s).calls := by
  unfold reconcilePorts
  split
  · intro e he
    simp at he
  · exact status_looksUp env c request inst _ s

theorem service_looksUp {σ : Type} (env : Env) (c : Client σ) (request : Request)
    (inst : Orderer) (s : σ) :
    LooksUpByName request (reconcileService env c request inst s).calls := by
  have hports := ports_looksUp env c request inst
  unfold reconcileService
  simp only []
  split
  · split
    · split
      · intro e he
        simp only [List.mem_cons, List.mem_singleton, List.not_mem_nil, or_false] at he
        rcases he with rfl | rfl <;> trivial
      · rw [after_calls]
        apply looksUp_append _ _ _ _ (hports _ _)
        intro e he
        simp only [List.mem_cons, List.mem_singleton, List.not_mem_nil, or_false] at he
        rcases he with rfl | rfl | rfl <;> trivial
    · intro e he
      simp only [List.mem_singleton] at he
      subst he
      trivial
  · intro e he
    simp only [List.mem_singleton] at he
    subst he
    trivial
  · rw [after_calls]
    apply looksUp_append _ _ _ _ (hports _ _)
    intro e he
    simp only [List.mem_singleton] at he
    subst he
    trivial

theorem secret_looksUp {σ : Type} (env : Env) (c : Client σ) (request : Request)
    (inst : Orderer) (s : σ) :
    LooksUpByName request (reconcileSecret env c request inst s).calls := by
  have hsvc := service_looksUp env c request inst
  unfold reconcileSecret
  simp only []
  split
  · split
    · intro e he
      simp only [List.mem_cons, List.mem_singleton, List.not_mem_nil, or_false] at he
      rcases he with rfl | rfl <;> trivial
    · rw [after_calls]
      apply looksUp_append _ _ _ _ (hsvc _)
      intro e he
      simp only [List.mem_cons, List.mem_singleton, List.not_mem_nil, or_false] at he
      rcases he with rfl | rfl <;> trivial
  · rw [after_calls]
    apply looksUp_append _ _ _ _ (hsvc _)
    intro e he
    simp only [List.mem_singleton] at he
    subst he
    trivial

theorem reconcile_looksUp {σ : Type} (env : Env) (c : Client σ) (request : Request)
    (s : σ) : LooksUpByName request (Reconcile env c request s).calls := by
  unfold Reconcile
  simp only []
  split
  · intro e he
    simp only [List.mem_singleton] at he
    subst he
    trivial
  · split
    · intro e he
      simp only [List.mem_cons, List.mem_singleton, List.not_mem_nil, or_false] at he
      rcases he with rfl | rfl <;> trivial
    · intro e he
      simp only [List.mem_cons, List.mem_singleton, List.not_mem_nil, or_false] at he
      rcases he with rfl | rfl <;> trivial
    · rw [after_calls]
      apply looksUp_append _ _ _ _ (secret_looksUp env c request _ _)
      intro e he
      simp only [List.mem_cons, List.mem_singleton, List.not_mem_nil, or_false] at he
      rcases he with rfl | rfl <;> trivial

theorem appendConfigParams_eq (envs : List EnvVar) (params : List ConfigParam) :
    appendConfigParams envs params = envs ++ params.map configEnv := by
  unfold appendConfigParams
  induction params generalizing envs with
  | nil => simp
  | cons e rest ih =>
    simp only [List.foldl_cons, List.map_cons]
    rw [ih]
    simp [configEnv]

theorem setSecretKeyRefName_ok (envs out : List EnvVar) (name : String)
    (h : setSecretKeyRefName envs name = .ok out) :
    ∃ e rest src ref, envs = e :: rest ∧ e.ValueFrom = some src ∧
      src.SecretKeyRef = some ref ∧
      out = { e with ValueFrom := some { SecretKeyRef := some { ref with Name := name } } }
        :: rest := by
  unfold setSecretKeyRefName at h
  split at h
  · simp at h
  · rename_i e rest
    split at h
    · simp at h
    · rename_i src hsrc
      split at h
      · simp at h
      · rename_i ref href
        simp only [Except.ok.injEq] at h
        exact ⟨e, rest, src, ref, rfl, hsrc, href, h.symm⟩

theorem newSTSForCR_ok (env : Env) (cr : Orderer) (request : Request) (sts : StatefulSet)
    (h : newSTSForCR env cr request = .ok (some sts)) :
    ∃ tpl, (env.GetObjectFromTemplate "orderer/orderer_statefulset.yaml").1
        = Object.statefulSet tpl ∧
      (∃ container containers envs, tpl.Containers = container :: containers ∧
        setSecretKeyRefName container.Env (request.Name ++ "-secret") = .ok envs ∧
        sts.Containers =
          { Image := env.GetDefault cr.Spec.Image "hyperledger/fabric-orderer:1.4.3"
            Env := appendConfigParams envs cr.Spec.ConfigParams
            Resources := cr.Spec.Resources } :: containers) ∧
      (∃ initContainer initContainers initEnvs,
        tpl.InitContainers = initContainer :: initContainers ∧
        setSecretKeyRefName initContainer.Env (request.Name ++ "-secret") = .ok initEnvs ∧
        sts.InitContainers = { initContainer with Env := initEnvs } :: initContainers) ∧
      (∃ volume volumes, tpl.Volumes = volume :: volumes ∧
        sts.Volumes =
          { volume with SecretName := some (request.Name ++ "-secret") } :: volumes) := by
  unfold newSTSForCR at h
  simp only [] at h
  repeat' split at h
  all_goals first
    | (simp only [Except.ok.injEq, Option.some.injEq] at h
       subst h
       exact ⟨_, by assumption, ⟨_, _, _, by assumption, by assumption, rfl⟩,
         ⟨_, _, _, by assumption, by assumption, rfl⟩, ⟨_, _, by assumption, rfl⟩⟩)
    | simp at h

theorem firstSecretRef_set (envs out : List EnvVar) (name : String)
    (h : setSecretKeyRefName envs name = .ok out) (more : List EnvVar) :
    firstSecretRef (out ++ more) = some name := by
  obtain ⟨e, rest, src, ref, -, -, -, hout⟩ := setSecretKeyRefName_ok envs out name h
  rw [hout]
  rfl

/-- C16: the bundle that newSecretForCR builds is named name + "-secret" in the namespace
of the request, the key of every secret lookup of Reconcile; the service and the stateful
set that newServiceForCR and newSTSForCR build are named name in that namespace, the key of
every service and stateful set lookup of Reconcile; and the stateful set refers to
name + "-secret" in its first volume and in the secret-key reference of the first
environment entry of its first init container and of its first container. -/
theorem C16_names {σ : Type} (env : Env) (c : Client σ) (cr : Orderer) (request : Request)
    (s : σ) :
    (∀ secret, newSecretForCR env cr request = some secret →
      secret.Name = request.Name ++ "-secret" ∧ secret.Namespace = request.Namespace) ∧
    (∀ key ans, Event.getSecret key ans ∈ (Reconcile env c request s).calls →
      key = { Namespace := request.Namespace, Name := request.Name ++ "-secret" }) ∧
    (∀ svc, newServiceForCR env cr request = .ok (some svc) →
      svc.Name = request.Name ∧ svc.Namespace = request.Namespace) ∧
    (∀ key ans, Event.getService key ans ∈ (Reconcile env c request s).calls →
      key = request) ∧
    (∀ sts, newSTSForCR env cr request = .ok (some sts) →
      sts.Name = request.Name ∧ sts.Namespace = request.Namespace ∧
      sts.Volumes.head?.bind (fun v => v.SecretName) = some (request.Name ++ "-secret") ∧
      sts.InitContainers.head?.bind (fun ic => firstSecretRef ic.Env)
        = some (request.Name ++ "-secret") ∧
      sts.Containers.head?.bind (fun ct => firstSecretRef ct.Env)
        = some (request.Name ++ "-secret")) ∧
    (∀ key ans, Event.getStatefulSet key ans ∈ (Reconcile env c request s).calls →
      key = request) := by
  have hlook := reconcile_looksUp env c request s
  refine ⟨?_, ?_, ?_, ?_, ?_, ?_⟩
  · intro secret h
    obtain ⟨h1, h2⟩ := newSecretForCR_key env cr request secret h
    exact ⟨h2, h1⟩
  · intro key ans hmem
    exact hlook _ hmem
  · intro svc h
    obtain ⟨h1, h2⟩ := newServiceForCR_key env cr request svc h
    exact ⟨h2, h1⟩
  · intro key ans hmem
    exact hlook _ hmem
  · intro sts h
    obtain ⟨h1, h2⟩ := newSTSForCR_key env cr request sts h
    obtain ⟨tpl, -, ⟨ct, cts, envs, -, henvs, hct⟩, ⟨ic, ics, initEnvs, -, hinit, hic⟩,
      ⟨vol, vols, -, hvol⟩⟩ := newSTSForCR_ok env cr request sts h
    refine ⟨h2, h1, ?_, ?_, ?_⟩
    · rw [hvol]
      rfl
    · rw [hic]
      have := firstSecretRef_set ic.Env initEnvs _ hinit []
      simpa using this
    · rw [hct, appendConfigParams_eq]
      exact firstSecretRef_set ct.Env envs _ henvs _
  · intro key ans hmem
    exact hlook _ hmem

/-- The names for the sample request "orderer0" in "fabric". -/
theorem C16_names_witness :
    newSTSForCR demoEnv demoOrderer demoRequest = .ok (some demoStatefulSet) ∧
    (demoStatefulSet.Name = "orderer0" ∧ demoStatefulSet.Namespace = "fabric" ∧
      demoStatefulSet.Volumes.head?.bind (fun v => v.SecretName) = some "orderer0-secret" ∧
      demoStatefulSet.InitContainers.head?.bind (fun ic => firstSecretRef ic.Env)
        = some "orderer0-secret" ∧
      demoStatefulSet.Containers.head?.bind (fun ct => firstSecretRef ct.Env)
        = some "orderer0-secret") ∧
    (∀ key ans, Event.getSecret key ans ∈
        (Reconcile demoEnv clusterClient demoRequest demoCluster).calls →
      key = { Namespace := "fabric", Name := "orderer0-secret" }) :=
  ⟨by decide,
    (C16_names demoEnv clusterClient demoOrderer demoRequest demoCluster).2.2.2.2.1
      demoStatefulSet (by decide),
    (C16_names demoEnv clusterClient demoOrderer demoRequest demoCluster).2.1⟩

/-! ## Creates follow lookups, once and in order (C17) -/

theorem createsAfterLookup_append (request : Request) (evs l : List Event)
    (h1 : CreatesAfterLookup request evs) (h2 : CreatesAfterLookup request l) :
    CreatesAfterLookup request (evs ++ l) := by
  refine ⟨?_, ?_, ?_⟩
  · intro obj ans hmem
    rcases List.mem_append.1 hmem with h | h
    · obtain ⟨pre, post, key, heq⟩ := h1.1 obj ans h
      exact ⟨pre, post ++ l, key, by rw [heq]; simp⟩
    · obtain ⟨pre, post, key, heq⟩ := h2.1 obj ans h
      exact ⟨evs ++ pre, post, key, by rw [heq]; simp⟩
  · intro obj ans hmem
    rcases List.mem_append.1 hmem with h | h
    · obtain ⟨pre, post, heq⟩ := h1.2.1 obj ans h
      exact ⟨pre, post ++ l, by rw [heq]; simp⟩
    · obtain ⟨pre, post, heq⟩ := h2.2.1 obj ans h
      exact ⟨evs ++ pre, post, by rw [heq]; simp⟩
  · intro obj ans hmem
    rcases List.mem_append.1 hmem with h | h
    · obtain ⟨pre, post, heq⟩ := h1.2.2 obj ans h
      exact ⟨pre, post ++ l, by rw [heq]; simp⟩
    · obtain ⟨pre, post, heq⟩ := h2.2.2 obj ans h
      exact ⟨evs ++ pre, post, by rw [heq]; simp⟩

theorem createsAfterLookup_of_reads (request : Request) (evs : List Event)
    (h : ∀ e ∈ evs, e.kind ≠ 3 ∧ e.kind ≠ 5 ∧ e.kind ≠ 9) :
    CreatesAfterLookup request evs := by
  refine ⟨?_, ?_, ?_⟩
  · intro obj ans hmem
    exact absurd rfl (h _ hmem).1
  · intro obj ans hmem
    exact absurd rfl (h _ hmem).2.1
  · intro obj ans hmem
    exact absurd rfl (h _ hmem).2.2

theorem createKinds_append (evs l : List Event) :
    createKinds (evs ++ l) = createKinds evs ++ createKinds l := by
  simp [createKinds]

theorem sts_creates {σ : Type} (env : Env) (c : Client σ) (request : Request)
    (inst : Orderer) (s : σ) :
    CreatesAfterLookup request (reconcileStatefulSet env c request inst s).calls ∧
    (createKinds (reconcileStatefulSet env c request inst s).calls).Sublist [9] := by
  have hmade : ∀ (sts : StatefulSet) (ans : Option ApiError),
      CreatesAfterLookup request
        [Event.getStatefulSet request (.error ApiError.notFound),
         Event.createStatefulSet sts ans] ∧
      (createKinds [Event.getStatefulSet request (.error ApiError.notFound),
         Event.createStatefulSet sts ans]).Sublist [9] := by
    intro sts ans
    refine ⟨⟨?_, ?_, ?_⟩, by simp [createKinds, Event.kind]⟩
    · intro obj ans1 hmem
      simp at hmem
    · intro obj ans1 hmem
      simp at hmem
    · intro obj ans1 hmem
      simp only [List.mem_cons, List.mem_singleton, List.not_mem_nil, or_false,
        reduceCtorEq, false_or, Event.createStatefulSet.injEq] at hmem
      obtain ⟨rfl, rfl⟩ := hmem
      exact ⟨[], [], rfl⟩
  have hread : ∀ (ans : Except ApiError StatefulSet),
      CreatesAfterLookup request [Event.getStatefulSet request ans] ∧
      (createKinds [Event.getStatefulSet request ans]).Sublist [9] := by
    intro ans
    refine ⟨createsAfterLookup_of_reads request _ ?_, by simp [createKinds, Event.kind]⟩
    intro e he
    simp only [List.mem_singleton] at he
    subst he
    simp [Event.kind]
  unfold reconcileStatefulSet
  simp only []
  split
  · rename_i hgot
    rw [hgot]
    split
    · split
      · split
        · exact hmade _ _
        · exact hmade _ _
      · exact hmade _ _
    · exact hread _
  · exact hread _
  · exact hread _

theorem status_creates {σ : Type} (env : Env) (c : Client σ) (request : Request)
    (inst : Orderer) (port : ServicePort) (s : σ) :
    CreatesAfterLookup request (reconcileStatus env c request inst port s).calls ∧
    (createKinds (reconcileStatus env c request inst port s).calls).Sublist [9] := by
  have hreads : ∀ (a : Except ApiError Orderer) (b : List String × Option ApiError)
      (obj : Orderer) (ans : Option ApiError),
      CreatesAfterLookup request
        [Event.getOrderer request a, Event.getNodeIPs b, Event.statusUpdate obj ans] ∧
      createKinds [Event.getOrderer request a, Event.getNodeIPs b, Event.statusUpdate obj ans]
        = [] := by
    intro a b obj ans
    refine ⟨createsAfterLookup_of_reads request _ ?_, by simp [createKinds, Event.kind]⟩
    intro e he
    simp only [List.mem_cons, List.mem_singleton, List.not_mem_nil, or_false] at he
    rcases he with rfl | rfl | rfl <;> simp [Event.kind]
  by_cases hap : inst.Status.AccessPoint = ""
  · by_cases hp : port.NodePort > 0
    · unfold reconcileStatus
      simp only [hap, hp, if_true]
      split
      · refine ⟨(hreads _ _ _ _).1, ?_⟩
        rw [(hreads _ _ _ _).2]
        exact List.nil_sublist _
      · obtain ⟨h1, h2⟩ := sts_creates env c request _ _
        rw [after_calls]
        refine ⟨createsAfterLookup_append request _ _ (hreads _ _ _ _).1 h1, ?_⟩
        rw [createKinds_append, (hreads _ _ _ _).2]
        exact h2
    · have hcalls : (reconcileStatus env c request inst port s).calls = [] := by
        simp [reconcileStatus, hap, hp]
      rw [hcalls]
      exact ⟨createsAfterLookup_of_reads request [] (by simp), by simp [createKinds]⟩
  · unfold reconcileStatus
    simp only [hap, if_false]
    exact sts_creates env c request inst s

theorem ports_creates {σ : Type} (env : Env) (c : Client σ) (request : Request)
    (inst : Orderer) (found : Service) (s : σ) :
    CreatesAfterLookup request (reconcilePorts env c request inst found s).calls ∧
    (createKinds (reconcilePorts env c request inst found s).calls).Sublist [9] := by
  unfold reconcilePorts
  split
  · exact ⟨createsAfterLookup_of_reads request [] (by simp), by simp [createKinds]⟩
  · exact status_creates env c request inst _ s

theorem service_creates {σ : Type} (env : Env) (c : Client σ) (request : Request)
    (inst : Orderer) (s : σ) :
    CreatesAfterLookup request (reconcileService env c request inst s).calls ∧
    (createKinds (reconcileService env c request inst s).calls).Sublist [5, 9] := by
  have hports := ports_creates env c request inst
  have hread : ∀ (ans : Except ApiError Service),
      CreatesAfterLookup request [Event.getService request ans] ∧
      createKinds [Event.getService request ans] = [] := by
    intro ans
    refine ⟨createsAfterLookup_of_reads request _ ?_, by simp [createKinds, Event.kind]⟩
    intro e he
    simp only [List.mem_singleton] at he
    subst he
    simp [Event.kind]
  have hmade : ∀ (svc : Service) (ans : Option ApiError) (tail : List Event),
      (∀ e ∈ tail, e.kind = 4) →
      CreatesAfterLookup request
        (Event.getService request (.error ApiError.notFound) ::
          Event.createService svc ans :: tail) ∧
      createKinds (Event.getService request (.error ApiError.notFound) ::
          Event.createService svc ans :: tail) = [5] := by
    intro svc ans tail htail
    refine ⟨⟨?_, ?_, ?_⟩, ?_⟩
    · intro obj ans1 hmem
      simp only [List.mem_cons, reduceCtorEq, false_or] at hmem
      have := htail _ hmem
      simp [Event.kind] at this
    · intro obj ans1 hmem
      simp only [List.mem_cons, reduceCtorEq, false_or, Event.createService.injEq] at hmem
      rcases hmem with ⟨rfl, rfl⟩ | hmem
      · exact ⟨[], tail, rfl⟩
      · have := htail _ hmem
        simp [Event.kind] at this
    · intro obj ans1 hmem
      simp only [List.mem_cons, reduceCtorEq, false_or] at hmem
      have := htail _ hmem
      simp [Event.kind] at this
    · have : createKinds tail = [] := by
        unfold createKinds
        rw [List.filter_eq_nil_iff]
        intro k hk
        obtain ⟨e, he, rfl⟩ := List.mem_map.1 hk
        rw [htail e he]
        decide
      rw [show Event.getService request (.error ApiError.notFound) ::
          Event.createService svc ans :: tail =
          [Event.getService request (.error ApiError.notFound),
           Event.createService svc ans] ++ tail from rfl, createKinds_append, this]
      simp [createKinds, Event.kind]
  unfold reconcileService
  simp only []
  split
  · rename_i hgot
    rw [hgot]
    split
    · split
      · obtain ⟨h1, h2⟩ := hmade _ _ [] (by simp)
        exact ⟨h1, by rw [h2]; decide⟩
      · rw [after_calls]
        obtain ⟨h1, h2⟩ := hmade _ _ [Event.getService request _] (by simp [Event.kind])
        obtain ⟨h3, h4⟩ := hports _ _
        refine ⟨createsAfterLookup_append request _ _ h1 h3, ?_⟩
        rw [createKinds_append, h2]
        exact List.Sublist.append (List.Sublist.refl [5]) h4
    · exact ⟨(hread _).1, by rw [(hread _).2]; exact List.nil_sublist _⟩
  · exact ⟨(hread _).1, by rw [(hread _).2]; exact List.nil_sublist _⟩
  · rw [after_calls]
    obtain ⟨h3, h4⟩ := hports _ _
    refine ⟨createsAfterLookup_append request _ _ (hread _).1 h3, ?_⟩
    rw [createKinds_append, (hread _).2]
    exact (List.Sublist.cons 5 h4)

theorem secret_creates {σ : Type} (env : Env) (c : Client σ) (request : Request)
    (inst : Orderer) (s : σ) :
    CreatesAfterLookup request (reconcileSecret env c request inst s).calls ∧
    (createKinds (reconcileSecret env c request inst s).calls).Sublist [3, 5, 9] := by
  have hsvc := service_creates env c request inst
  have hread : ∀ (key : NamespacedName) (ans : Except ApiError Secret),
      CreatesAfterLookup request [Event.getSecret key ans] ∧
      createKinds [Event.getSecret key ans] = [] := by
    intro key ans
    refine ⟨createsAfterLookup_of_reads request _ ?_, by simp [createKinds, Event.kind]⟩
    intro e he
    simp only [List.mem_singleton] at he
    subst he
    simp [Event.kind]
  have hmade : ∀ (key : NamespacedName) (obj : Option Secret) (ans : Option ApiError),
      CreatesAfterLookup request
        [Event.getSecret key (.error ApiError.notFound), Event.createSecret obj ans] ∧
      createKinds [Event.getSecret key (.error ApiError.notFound),
        Event.createSecret obj ans] = [3] := by
    intro key obj ans
    refine ⟨⟨?_, ?_, ?_⟩, by simp [createKinds, Event.kind]⟩
    · intro obj1 ans1 hmem
      simp only [List.mem_cons, List.mem_singleton, List.not_mem_nil, or_false,
        reduceCtorEq, false_or, Event.createSecret.injEq] at hmem
      obtain ⟨rfl, rfl⟩ := hmem
      exact ⟨[], [], key, rfl⟩
    · intro obj1 ans1 hmem
      simp at hmem
    · intro obj1 ans1 hmem
      simp at hmem
  unfold reconcileSecret
  simp only []
  split
  · rename_i hgot
    rw [hgot]
    split
    · exact ⟨(hmade _ _ _).1, by rw [(hmade _ _ _).2]; decide⟩
    · rw [after_calls]
      obtain ⟨h3, h4⟩ := hsvc _
      refine ⟨createsAfterLookup_append request _ _ (hmade _ _ _).1 h3, ?_⟩
      rw [createKinds_append, (hmade _ _ _).2]
      exact List.Sublist.append (List.Sublist.refl [3]) h4
  · rw [after_calls]
    obtain ⟨h3, h4⟩ := hsvc _
    refine ⟨createsAfterLookup_append request _ _ (hread _ _).1 h3, ?_⟩
    rw [createKinds_append, (hread _ _).2]
    exact (List.Sublist.cons 3 h4)

theorem reconcile_creates {σ : Type} (env : Env) (c : Client σ) (request : Request)
    (s : σ) :
    CreatesAfterLookup request (Reconcile env c request s).calls ∧
    (createKinds (Reconcile env c request s).calls).Sublist [3, 5, 9] := by
  have hsec := secret_creates env c request
  have hone : ∀ a : Option ApiError,
      CreatesAfterLookup request [Event.checkConfig a] ∧
      createKinds [Event.checkConfig a] = [] := by
    intro a
    refine ⟨createsAfterLookup_of_reads request _ ?_, by simp [createKinds, Event.kind]⟩
    intro e he
    simp only [List.mem_singleton] at he
    subst he
    simp [Event.kind]
  have htwo : ∀ (a : Option ApiError) (b : Except ApiError Orderer),
      CreatesAfterLookup request [Event.checkConfig a, Event.getOrderer request b] ∧
      createKinds [Event.checkConfig a, Event.getOrderer request b] = [] := by
    intro a b
    refine ⟨createsAfterLookup_of_reads request _ ?_, by simp [createKinds, Event.kind]⟩
    intro e he
    simp only [List.mem_cons, List.mem_singleton, List.not_mem_nil, or_false] at he
    rcases he with rfl | rfl <;> simp [Event.kind]
  unfold Reconcile
  simp only []
  split
  · exact ⟨(hone _).1, by rw [(hone _).2]; exact List.nil_sublist _⟩
  · split
    · exact ⟨(htwo _ _).1, by rw [(htwo _ _).2]; exact List.nil_sublist _⟩
    · exact ⟨(htwo _ _).1, by rw [(htwo _ _).2]; exact List.nil_sublist _⟩
    · rw [after_calls]
      obtain ⟨h3, h4⟩ := hsec _ _
      refine ⟨createsAfterLookup_append request _ _ (htwo _ _).1 h3, ?_⟩
      rw [createKinds_append, (htwo _ _).2]
      exact h4

/-- C17: in every pass, a create of the secret, of the service or of the stateful set
comes directly after the lookup of that sub-resource under its name, answered NotFound; the
creates of a pass are at most one per sub-resource and in the order secret (3), service
(5), stateful set (9); and no call of a pass is a delete. -/
theorem C17_creates_follow_lookups {σ : Type} (env : Env) (c : Client σ)
    (request : Request) (s : σ) :
    (∀ obj ans, Event.createSecret obj ans ∈ (Reconcile env c request s).calls →
      ∃ pre post, (Reconcile env c request s).calls =
        pre ++ Event.getSecret
            { Namespace := request.Namespace, Name := request.Name ++ "-secret" }
            (.error ApiError.notFound) ::
          Event.createSecret obj ans :: post) ∧
    (∀ obj ans, Event.createService obj ans ∈ (Reconcile env c request s).calls →
      ∃ pre post, (Reconcile env c request s).calls =
        pre ++ Event.getService request (.error ApiError.notFound) ::
          Event.createService obj ans :: post) ∧
    (∀ obj ans, Event.createStatefulSet obj ans ∈ (Reconcile env c request s).calls →
      ∃ pre post, (Reconcile env c request s).calls =
        pre ++ Event.getStatefulSet request (.error ApiError.notFound) ::
          Event.createStatefulSet obj ans :: post) ∧
    (createKinds (Reconcile env c request s).calls).Sublist [3, 5, 9] ∧
    (∀ e ∈ (Reconcile env c request s).calls, e.verb ≠ "delete") := by
  obtain ⟨⟨h1, h2, h3⟩, h4⟩ := reconcile_creates env c request s
  have hlook := reconcile_looksUp env c request s
  refine ⟨?_, h2, h3, h4, ?_⟩
  · intro obj ans hmem
    obtain ⟨pre, post, key, heq⟩ := h1 obj ans hmem
    have hkey : key = { Namespace := request.Namespace, Name := request.Name ++ "-secret" } :=
      hlook (Event.getSecret key (.error ApiError.notFound)) (by rw [heq]; simp)
    rw [hkey] at heq
    exact ⟨pre, post, heq⟩
  · intro e _
    cases e <;> simp [Event.verb]

/-- The sample pass creates the secret, the service and the stateful set, once each and in
that order, each after its lookup. -/
theorem creates_of_sample_pass :
    (Reconcile demoEnv clusterClient demoRequest demoCluster).calls.map Event.kind =
      [0, 1, 2, 3, 4, 5, 4, 1, 6, 7, 8, 9] ∧
    createKinds (Reconcile demoEnv clusterClient demoRequest demoCluster).calls = [3, 5, 9] ∧
    createKinds (Reconcile demoEnv clusterClient demoRequest settledCluster).calls = [3, 9] := by
  decide

/-! ## Templates of the wrong kind (C18) and the environment of the workload (C19) -/

/-- C18 at its failing inputs: when the load of the service template fails (zero-value
object and an error) or yields an object of another kind, newServiceForCR returns nil and
Reconcile dereferences it at line 157: the pass crashes after the lookup of the service.
The same happens at line 209 for the stateful set template, after the status was written. -/
theorem C18_nil_template_crashes :
    newServiceForCR
      (envWithTemplate "orderer/orderer_service.yaml"
        (Object.nil, some (ApiError.other "load failed")))
      demoOrderer demoRequest = .ok none ∧
    (Reconcile
      (envWithTemplate "orderer/orderer_service.yaml"
        (Object.nil, some (ApiError.other "load failed")))
      clusterClient demoRequest demoCluster).outcome = Outcome.crash ∧
    (Reconcile
      (envWithTemplate "orderer/orderer_service.yaml"
        (Object.nil, some (ApiError.other "load failed")))
      clusterClient demoRequest demoCluster).calls.map Event.kind = [0, 1, 2, 3, 4] ∧
    (Reconcile
      (envWithTemplate "orderer/orderer_service.yaml"
        (Object.statefulSet demoStatefulSetTemplate, none))
      clusterClient demoRequest demoCluster).outcome = Outcome.crash ∧
    newSTSForCR
      (envWithTemplate "orderer/orderer_statefulset.yaml" (Object.unknown, none))
      demoOrderer demoRequest = .ok none ∧
    (Reconcile
      (envWithTemplate "orderer/orderer_statefulset.yaml" (Object.unknown, none))
      clusterClient demoRequest demoCluster).outcome = Outcome.crash ∧
    (Reconcile
      (envWithTemplate "orderer/orderer_statefulset.yaml" (Object.unknown, none))
      clusterClient demoRequest demoCluster).calls.map Event.kind =
      [0, 1, 2, 3, 4, 5, 4, 1, 6, 7, 8] := by
  decide

/-- C19 as stated fails: the first environment entry of the built container is not the
entry of the template, its secret-key reference is renamed to name + "-secret" (line 319);
so the environment is not the template entries followed by the extra entries, also when
there is no extra entry. -/
theorem C19_counterexample :
    newSTSForCR demoEnv demoOrderer demoRequest = .ok (some demoStatefulSet) ∧
    demoStatefulSetTemplate.Containers.map (fun ct => ct.Env) =
      [[{ Name := "ORDERER_GENERAL_LOCALMSPID", Value := ""
          ValueFrom := some { SecretKeyRef := some { Name := "", Key := "mspid" } } }]] ∧
    demoStatefulSet.Containers.map (fun ct => ct.Env) ≠
      demoStatefulSetTemplate.Containers.map
        (fun ct => ct.Env ++ demoOrderer.Spec.ConfigParams.map configEnv) ∧
    (match newSTSForCR demoEnv (demoOrdererWith { demoSpec with ConfigParams := [] })
        demoRequest with
      | .ok (some sts) => sts.Containers.map (fun ct => ct.Env)
      | _ => []) ≠ demoStatefulSetTemplate.Containers.map (fun ct => ct.Env) := by
  decide

/-- C19, amended: when newSTSForCR builds a stateful set from a template whose first
container has the environment t1, ts, the first container of the result has the environment
t1 with its secret-key reference renamed to name + "-secret", then ts unchanged and in
order, then one entry (name, value) per extra configuration entry in declared order; its
length is the length of the template environment plus the number of extra entries; without
extra entries it is the renamed t1 followed by ts; and the resources of that container are
the resources of the spec. -/
theorem C19_container_environment (env : Env) (cr : Orderer) (request : Request)
    (sts tpl : StatefulSet) (container : Container) (containers : List Container)
    (t1 : EnvVar) (ts : List EnvVar)
    (h : newSTSForCR env cr request = .ok (some sts))
    (htpl : (env.GetObjectFromTemplate "orderer/orderer_statefulset.yaml").1
      = Object.statefulSet tpl)
    (hct : tpl.Containers = container :: containers)
    (henv : container.Env = t1 :: ts) :
    ∃ built src ref,
      sts.Containers = built :: containers ∧
      t1.ValueFrom = some src ∧ src.SecretKeyRef = some ref ∧
      built.Env =
        renamedVar t1 ref (request.Name ++ "-secret") :: ts
          ++ cr.Spec.ConfigParams.map (fun p => { Name := p.Name, Value := p.Value, ValueFrom := none }) ∧
      built.Env.length = (t1 :: ts).length + cr.Spec.ConfigParams.length ∧
      (cr.Spec.ConfigParams = [] →
        built.Env = renamedVar t1 ref (request.Name ++ "-secret") :: ts) ∧
      (renamedVar t1 ref (request.Name ++ "-secret")).Name = t1.Name ∧
      (renamedVar t1 ref (request.Name ++ "-secret")).Value = t1.Value ∧
      built.Resources = cr.Spec.Resources := by
  obtain ⟨tpl1, htpl1, ⟨ct, cts, envs, hct1, henvs, hbuilt⟩, -, -⟩ :=
    newSTSForCR_ok env cr request sts h
  rw [htpl] at htpl1
  simp only [Object.statefulSet.injEq] at htpl1
  subst htpl1
  rw [hct] at hct1
  simp only [List.cons.injEq] at hct1
  obtain ⟨rfl, rfl⟩ := hct1
  obtain ⟨e, rest, src, ref, he, hsrc, href, hout⟩ :=
    setSecretKeyRefName_ok container.Env envs _ henvs
  rw [henv] at he
  simp only [List.cons.injEq] at he
  obtain ⟨rfl, rfl⟩ := he
  have hall : appendConfigParams envs cr.Spec.ConfigParams =
      renamedVar t1 ref (request.Name ++ "-secret") :: ts
        ++ cr.Spec.ConfigParams.map (fun p => { Name := p.Name, Value := p.Value, ValueFrom := none }) := by
    rw [appendConfigParams_eq, hout]
    rfl
  refine ⟨_, src, ref, hbuilt, hsrc, href, hall, ?_, ?_, rfl, rfl, rfl⟩
  · show (appendConfigParams envs cr.Spec.ConfigParams).length = _
    rw [hall]
    simp only [List.cons_append, List.length_cons, List.length_append, List.length_map]
    omega
  · intro hk
    show appendConfigParams envs cr.Spec.ConfigParams = _
    rw [hall, hk]
    simp

/-- The sample stateful set: one template entry, renamed, and one extra entry. -/
theorem C19_container_environment_witness :
    newSTSForCR demoEnv demoOrderer demoRequest = .ok (some demoStatefulSet) ∧
    (demoEnv.GetObjectFromTemplate "orderer/orderer_statefulset.yaml").1
      = Object.statefulSet demoStatefulSetTemplate ∧
    demoStatefulSetTemplate.Containers = demoTemplateContainer :: [] ∧
    demoTemplateContainer.Env = demoTemplateVar :: [] ∧
    demoStatefulSet.Containers.map (fun ct => ct.Env.map (fun e => (e.Name, e.Value))) =
      [[("ORDERER_GENERAL_LOCALMSPID", ""), ("ORDERER_GENERAL_LOGLEVEL", "debug")]] ∧
    ∃ built src ref,
      demoStatefulSet.Containers = built :: [] ∧
      demoTemplateVar.ValueFrom = some src ∧ src.SecretKeyRef = some ref ∧
      built.Env =
        renamedVar demoTemplateVar ref (demoRequest.Name ++ "-secret") :: []
          ++ demoOrderer.Spec.ConfigParams.map (fun p => { Name := p.Name, Value := p.Value, ValueFrom := none }) ∧
      built.Env.length = (demoTemplateVar :: []).length + demoOrderer.Spec.ConfigParams.length ∧
      (demoOrderer.Spec.ConfigParams = [] →
        built.Env = renamedVar demoTemplateVar ref (demoRequest.Name ++ "-secret") :: []) ∧
      (renamedVar demoTemplateVar ref (demoRequest.Name ++ "-secret")).Name
        = demoTemplateVar.Name ∧
      (renamedVar demoTemplateVar ref (demoRequest.Name ++ "-secret")).Value
        = demoTemplateVar.Value ∧
      built.Resources = demoOrderer.Spec.Resources :=
  ⟨by decide, by decide, by decide, by decide, by decide,
    C19_container_environment demoEnv demoOrderer demoRequest demoStatefulSet
      demoStatefulSetTemplate demoTemplateContainer [] demoTemplateVar []
      (by decide) (by decide) (by decide) (by decide)⟩

end OrdererController
